import Mathlib

/-!
CNControl: the Grbl protocol core (`grbl.cpp`).

A shallow embedding of `Grbl::parse`, `Grbl::parseInfo`, `Grbl::parseStatus`,
`Grbl::parseConfig`, `Grbl::ask`, `Grbl::timeout`, `Grbl::openConfiguration` and
`Grbl::writeConfiguration`, followed by theorems about them.

Conventions of the embedding:
* a `QString` is a list of characters;
* `int` values are integers of `Int` (range checks are explicit where the source
  performs them, i.e. in the text-to-number conversions), `uint` values are
  naturals reduced modulo `2^32` where the source does arithmetic on them;
* `double` values are rationals: the arithmetic on coordinates is exact;
* an `emit` appends a `Signal` to the list of raised notifications;
* the transport (`Machine::sendCommand`) is a log of what was handed to it,
  together with the outcomes the port will report.
-/

namespace CNControl

/-! ## Text primitives (Qt `QString`) -/

/-- A `QString`, as the list of its characters. -/
abbrev QString := List Char

/-- `QString::startsWith`. -/
def startsWith (s p : QString) : Bool := p.isPrefixOf s

/-- `QString::right(n)`: the `n` rightmost characters; the entire string when `n`
is negative or at least the size. -/
def right (s : QString) (n : Int) : QString :=
  if n < 0 ∨ (s.length : Int) ≤ n then s else s.drop (s.length - n.toNat)

/-- `QString::left(n)`: the `n` leftmost characters; the entire string when `n`
is negative or at least the size. -/
def left (s : QString) (n : Int) : QString :=
  if n < 0 ∨ (s.length : Int) ≤ n then s else s.take n.toNat

/-- `QString::split(sep, QString::KeepEmptyParts)` for a one-character separator:
the result always has at least one element. -/
def split (sep : Char) : QString → List QString
  | [] => [[]]
  | c :: cs =>
    if c = sep then [] :: split sep cs
    else match split sep cs with
      | [] => [[c]]
      | b :: bs => (c :: b) :: bs

/-- ASCII upper-casing of one character. -/
def upper (c : Char) : Char :=
  if 'a' ≤ c ∧ c ≤ 'z' then Char.ofNat (c.toNat - 32) else c

/-- `QString::contains(ch, Qt::CaseInsensitive)` for an ASCII letter `ch`. -/
def containsChar (s : QString) (ch : Char) : Bool :=
  s.any (fun c => upper c = upper ch)

/-- `QString::contains(ch)` (case sensitive). -/
def containsCharCS (s : QString) (ch : Char) : Bool := s.any (fun c => c = ch)

/-- `QString::contains(str, Qt::CaseInsensitive)`: `str` occurs as a substring,
ASCII case ignored. -/
def containsStr : QString → QString → Bool
  | [], p => p.isEmpty
  | c :: cs, p => (p.map upper).isPrefixOf ((c :: cs).map upper) || containsStr cs p

/-! ## Text to number conversions -/

/-- White space skipped by the conversions at both ends of the text. -/
def isSpaceChar (c : Char) : Bool :=
  c = ' ' || c = '\t' || c = '\n' || c = '\r'

/-- `QString::trimmed`. -/
def trimmed (s : QString) : QString :=
  ((s.dropWhile isSpaceChar).reverse.dropWhile isSpaceChar).reverse

/-- Value of a run of decimal digits read after the accumulator `acc`; `none` when
a character is not a digit. -/
def digitsValue (acc : Nat) : QString → Option Nat
  | [] => some acc
  | c :: cs => if c.isDigit then digitsValue (acc * 10 + (c.toNat - 48)) cs else none

/-- A non-empty run of decimal digits. -/
def parseNat : QString → Option Nat
  | [] => none
  | c :: cs => digitsValue 0 (c :: cs)

/-- An optionally signed decimal integer. -/
def parseInt : QString → Option Int
  | '-' :: cs => (parseNat cs).map (fun (n : Nat) => - (n : Int))
  | '+' :: cs => (parseNat cs).map (fun (n : Nat) => (n : Int))
  | cs => (parseNat cs).map (fun (n : Nat) => (n : Int))

/-- `QString::toInt()`: base 10, `0` when the conversion fails or the value does
not fit a 32-bit `int`. -/
def toInt (s : QString) : Int :=
  match parseInt (trimmed s) with
  | some v => if -2147483648 ≤ v ∧ v ≤ 2147483647 then v else 0
  | none => 0

/-- `QString::toUInt()`: base 10, `0` when the conversion fails or the value does
not fit a 32-bit `uint`. -/
def toUInt (s : QString) : Nat :=
  match trimmed s with
  | '+' :: cs => match parseNat cs with
    | some v => if v < 4294967296 then v else 0
    | none => 0
  | cs => match parseNat cs with
    | some v => if v < 4294967296 then v else 0
    | none => 0

/-- An unsigned decimal `digits[.digits]` with at least one digit, as a rational. -/
def parseDecimal (s : QString) : Option ℚ :=
  match split '.' s with
  | [i] => (parseNat i).map (fun (n : Nat) => (n : ℚ))
  | [i, f] =>
    if i = [] ∧ f = [] then none
    else match digitsValue 0 i, digitsValue 0 f with
      | some a, some b => some (((a * 10 ^ f.length + b : Nat) : ℚ) / ((10 ^ f.length : Nat) : ℚ))
      | _, _ => none
  | _ => none

/-- An optionally signed decimal. -/
def parseSigned : QString → Option ℚ
  | '-' :: cs => (parseDecimal cs).map (fun (q : ℚ) => - q)
  | '+' :: cs => parseDecimal cs
  | cs => parseDecimal cs

/-- `QString::toDouble()`: a decimal with an optional exponent, `0` when the
conversion fails. The value is kept exact. -/
def toDouble (s : QString) : ℚ :=
  match split 'e' ((trimmed s).map (fun c => if c = 'E' then 'e' else c)) with
  | [m] => (parseSigned m).getD 0
  | [m, e] =>
    match parseSigned m, parseInt e with
    | some q, some k => q * (10 : ℚ) ^ k
    | _, _ => 0
  | _ => 0

/-- Decimal digit character. -/
def digitChar (d : Nat) : Char := Char.ofNat (48 + d)

/-- Digits of `n`, most significant first, pushed in front of `acc`. -/
def numberAux : Nat → Nat → QString → QString
  | 0, _, acc => acc
  | f + 1, n, acc =>
    if n < 10 then digitChar n :: acc
    else numberAux f (n / 10) (digitChar (n % 10) :: acc)

/-- `QString::number(n)` and `QString::arg(n)` of an unsigned value: the canonical
decimal text. -/
def number (n : Nat) : QString := numberAux (n + 1) n []

/-- `QString::number(a)` of a signed value. -/
def numberInt (a : Int) : QString :=
  if a < 0 then '-' :: number a.natAbs else number a.natAbs

/-! ## Data model -/

/-- `Machine::StateType`. -/
inductive StateType
  | stateUnknown | stateIdle | stateRun | stateHold | stateJog
  | stateHome | stateAlarm | stateCheck | stateDoor | stateSleep
  deriving DecidableEq, Repr

/-- `Machine::CoordinatesType`: three `double` values. -/
structure CoordinatesType where
  x : ℚ
  y : ℚ
  z : ℚ
  deriving DecidableEq

/-- Modelled from the spec: the `infos` bit-set. The enumeration `InfoFlags` is
declared in `machine.h` / `grbl.h`, which are not part of the sources at hand; each
enumerator used by `grbl.cpp` is one named bit. -/
structure InfoFlags where
  flagHasWorkingOffset : Bool := false
  flagHasMachineCoords : Bool := false
  flagHasWorkingCoords : Bool := false
  flagHasSwitches : Bool := false
  flagHasBuffer : Bool := false
  flagHasLineNumber : Bool := false
  flagHasFeedRate : Bool := false
  flagHasSpindleSpeed : Bool := false
  flagHasOverride : Bool := false
  flagHasActioners : Bool := false
  flagHasConfig : Bool := false
  flagHasStartingBlocks : Bool := false
  flagHasError : Bool := false
  flagIsMilimeters : Bool := false
  flagIsAbsolute : Bool := false
  flagTLO : Bool := false
  flagPRB : Bool := false
  flagGC : Bool := false
  flagGXX : Bool := false
  deriving DecidableEq

/-- Modelled from the spec: the `features` bit-set (`FeatureFlags` of `machine.h` /
`grbl.h`), one named bit for each enumerator used by `grbl.cpp`. -/
structure FeatureFlags where
  flagAskStatus : Bool := false
  flagName : Bool := false
  flagVersion : Bool := false
  flagHasVariableSpindle : Bool := false
  flagHasLaserMode : Bool := false
  flagHasCoolantMist : Bool := false
  deriving DecidableEq

/-- A bit of `features` designated by an enumerator: one of the named bits, or a
bit that no `FeatureFlags` enumerator used by `grbl.cpp` names. -/
inductive FeatureBit
  | flagAskStatus | flagName | flagVersion | flagHasVariableSpindle
  | flagHasLaserMode | flagHasCoolantMist | unnamed
  deriving DecidableEq, Repr

/-- `Machine::hasFeature`: the test of one bit of `features`. A bit that `grbl.cpp`
never names is never set by it. -/
def hasFeature (f : FeatureFlags) : FeatureBit → Bool
  | FeatureBit.flagAskStatus => f.flagAskStatus
  | FeatureBit.flagName => f.flagName
  | FeatureBit.flagVersion => f.flagVersion
  | FeatureBit.flagHasVariableSpindle => f.flagHasVariableSpindle
  | FeatureBit.flagHasLaserMode => f.flagHasLaserMode
  | FeatureBit.flagHasCoolantMist => f.flagHasCoolantMist
  | FeatureBit.unnamed => false

/-- Modelled from the spec: the `switches` bit-set (`SwitchFlags`). -/
structure SwitchFlags where
  switchProbe : Bool := false
  switchLimitX : Bool := false
  switchLimitY : Bool := false
  switchLimitZ : Bool := false
  switchDoor : Bool := false
  switchReset : Bool := false
  switchFeedHold : Bool := false
  switchCycleStart : Bool := false
  deriving DecidableEq

/-- Modelled from the spec: the `actioners` bit-set (`ActionerFlags`). -/
structure ActionerFlags where
  actionSpindle : Bool := false
  actionSpindleVariable : Bool := false
  actionSpindleCounterClockwise : Bool := false
  actionCoolant : Bool := false
  actionCoolantFlood : Bool := false
  actionCoolantMist : Bool := false
  deriving DecidableEq

/-- The notifications (Qt signals) raised by the parsers. -/
inductive Signal
  | versionUpdated | resetDone | commandExecuted
  | error (code : Int) | alarm (code : Int)
  | infoUpdated | statusUpdated | configUpdated
  | stateUpdated | coordinatesUpdated | buffersUpdated | lineNumberUpdated
  | ratesUpdated | switchesUpdated | actionersUpdated
  deriving DecidableEq, Repr

/-- The slots of `Grbl` that the sequencer connects to `commandExecuted`. -/
inductive Slot
  | openConfiguration | writeConfiguration
  deriving DecidableEq, Repr

/-- Constants of `machine.h`, `grbl.h` and `grbl_config.h` used by `grbl.cpp`; the
headers are not part of the sources at hand, so the values are parameters:
the `CommandType` enumerators, the `SubCommandType` enumerators (`commandReset`,
`commandCoarsePlus`, ... appear here as `subReset`, `subCoarsePlus`, ...), the
reserved `ConfigType` keys (as `uint` values), the protocol bytes and literals
`CMD_*`, and the bit of `features`
that the enumerator `Grbl::InfoFlags::flagHasLaserMode` designates when
`writeConfiguration` passes it to `hasFeature`. -/
structure Consts where
  commandReset : Int
  commandStatus : Int
  commandUnlock : Int
  commandHoming : Int
  commandConfig : Int
  commandInfos : Int
  commandStartBlock : Int
  commandPause : Int
  commandFeedHold : Int
  commandCycleStart : Int
  commandDebugReport : Int
  commandJogCancel : Int
  commandSaftyDoor : Int
  commandCheck : Int
  commandOverrideFeed : Int
  commandOverrideRapid : Int
  commandOverrideSpindle : Int
  commandOverrideCoolantFloodToggle : Int
  commandOverrideCoolantMistToggle : Int
  subReset : Int
  subCoarsePlus : Int
  subCoarseMinus : Int
  subFinePlus : Int
  subFineMinus : Int
  subLow : Int
  subMedium : Int
  subStop : Int
  configStartingBlock0 : Nat
  configStartingBlock1 : Nat
  configLaserMode : Nat
  CMD_RESET : QString
  CMD_UNLOCK : QString
  CMD_HOME : QString
  CMD_CONFIG : QString
  CMD_INFOS : QString
  CMD_STARTBLOCK : QString
  CMD_CHECK : QString
  CMD_STATUS_REPORT : Char
  CMD_FEED_HOLD : Char
  CMD_CYCLE_START : Char
  CMD_DEBUG_REPORT : Char
  CMD_JOG_CANCEL : Char
  CMD_SAFETY_DOOR : Char
  CMD_FEED_OVR_RESET : Char
  CMD_FEED_OVR_COARSE_PLUS : Char
  CMD_FEED_OVR_COARSE_MINUS : Char
  CMD_FEED_OVR_FINE_PLUS : Char
  CMD_FEED_OVR_FINE_MINUS : Char
  CMD_RAPID_OVR_RESET : Char
  CMD_RAPID_OVR_LOW : Char
  CMD_RAPID_OVR_MEDIUM : Char
  CMD_SPINDLE_OVR_RESET : Char
  CMD_SPINDLE_OVR_COARSE_PLUS : Char
  CMD_SPINDLE_OVR_COARSE_MINUS : Char
  CMD_SPINDLE_OVR_FINE_PLUS : Char
  CMD_SPINDLE_OVR_FINE_MINUS : Char
  CMD_SPINDLE_OVR_STOP : Char
  CMD_COOLANT_FLOOD_OVR_TOGGLE : Char
  CMD_COOLANT_MIST_OVR_TOGGLE : Char
  infoFlagHasLaserMode : FeatureBit

/-- The case labels of the outer `switch` of `Grbl::ask`, in source order. -/
def Consts.commandCodes (K : Consts) : List Int :=
  [K.commandReset, K.commandStatus, K.commandUnlock, K.commandHoming, K.commandConfig,
   K.commandInfos, K.commandStartBlock, K.commandPause, K.commandFeedHold,
   K.commandCycleStart, K.commandDebugReport, K.commandJogCancel, K.commandSaftyDoor,
   K.commandCheck, K.commandOverrideFeed, K.commandOverrideRapid, K.commandOverrideSpindle,
   K.commandOverrideCoolantFloodToggle, K.commandOverrideCoolantMistToggle]

/-- The case labels of a `switch` are pairwise distinct (the compiler rejects a
duplicate label). -/
def Consts.distinctCommands (K : Consts) : Prop := K.commandCodes.Nodup

instance (K : Consts) : Decidable K.distinctCommands := by
  unfold Consts.distinctCommands; infer_instance

/-- A `QMap<uint, T>`: the entries in ascending key order. The key type of `config`
is taken to be `uint`, the type `writeConfiguration` reads its keys into. -/
abbrev QMap (α : Type) := List (Nat × α)

/-- `QMap::operator[]` used as an assignment target: insert or replace. -/
def QMap.insert {α : Type} (k : Nat) (v : α) : QMap α → QMap α
  | [] => [(k, v)]
  | (k', v') :: m =>
    if k < k' then (k, v) :: (k', v') :: m
    else if k = k' then (k, v) :: m
    else (k', v') :: QMap.insert k v m

/-- `QMap::operator[]` used as a value: the stored value, or a default-constructed
one. -/
def QMap.value (m : QMap QString) (k : Nat) : QString := (m.lookup k).getD []

/-- `QMap::keys()`. -/
def QMap.keys {α : Type} (m : QMap α) : List Nat := m.map Prod.fst

/-- The machine state model owned by `Grbl` (the field defaults are the values the
constructor `Grbl::Grbl` starts from), with the function-local statics
(`first` of `parseStatus`, `index` of `writeConfiguration`), the connections of
`commandExecuted` to slots of the object (each with its own identity, in the order
they were made), and the transport: `sent` lists what was handed to
`sendCommand` (text, terminating newline requested), `port` the outcomes the port
will report for the next calls (success once the list is exhausted). -/
structure Grbl where
  machineName : QString := "GRBL".toList
  machineVersion : QString := []
  lastLine : QString := []
  state : StateType := StateType.stateUnknown
  holdCode : Int := 0
  doorCode : Int := 0
  errorCode : Int := 0
  alarmCode : Int := 0
  infos : InfoFlags := {}
  features : FeatureFlags := { flagAskStatus := true, flagName := true }
  switches : SwitchFlags := {}
  actioners : ActionerFlags := {}
  workingCoordinates : CoordinatesType := ⟨0, 0, 0⟩
  machineCoordinates : CoordinatesType := ⟨0, 0, 0⟩
  workingOffset : CoordinatesType := ⟨0, 0, 0⟩
  prbCoords : CoordinatesType := ⟨0, 0, 0⟩
  TLOValue : ℚ := 0
  blockBuffer : Int := 0
  rxBuffer : Int := 0
  blockBufferMax : Int := 0
  rxBufferMax : Int := 0
  lineNumber : Int := 0
  feedRate : Int := 0
  spindleSpeed : Int := 0
  fOverride : Int := 100
  rOverride : Int := 100
  spindleSpeedOverride : Int := 100
  config : QMap QString := []
  GxxConfig : QMap CoordinatesType := []
  first : Bool := true
  index : Nat := 0
  connections : List (Nat × Slot) := []
  nextConnection : Nat := 0
  sent : List (QString × Bool) := []
  port : List Bool := []
  deriving DecidableEq

/-- Modelled from the spec: `Machine::sendCommand(cmd, newLine, noLog)`, defined in
`machine.cpp` (not part of the sources at hand). The transport accepts the exact
text and reports success or failure. -/
def sendCommand (s : Grbl) (cmd : QString) (newLine : Bool) (_noLog : Bool) : Bool × Grbl :=
  match s.port with
  | [] => (true, { s with sent := s.sent ++ [(cmd, newLine)] })
  | r :: rest => (r, { s with sent := s.sent ++ [(cmd, newLine)], port := rest })

/-! ## Configuration lines -/

/-- `Grbl::parseConfig`. -/
def parseConfig (K : Consts) (s : Grbl) (line : QString) : Grbl :=
  if startsWith line "$N".toList then
    let block := right line ((line.length : Int) - 2)
    match split '=' block with
    | [k, val] =>
      let key := toUInt k
      { s with
        config := QMap.insert ((key + K.configStartingBlock0) % 4294967296) val s.config
        infos := { s.infos with flagHasStartingBlocks := true } }
    | _ => s
  else if startsWith line "$".toList then
    let block := right line ((line.length : Int) - 1)
    match split '=' block with
    | [k, val] =>
      let key := toUInt k
      { s with
        config := QMap.insert key val s.config
        infos := { s.infos with flagHasConfig := true } }
    | _ => s
  else s

/-- The command text built by `Grbl::writeConfiguration` for one key (the `switch`
on `key`): `$N<key - configStartingBlock0>=<val>` for the two starting-block keys,
`$<key>=<val>` otherwise. -/
def writeConfigurationCmd (K : Consts) (key : Nat) (val : QString) : QString :=
  if key = K.configStartingBlock0 ∨ key = K.configStartingBlock1 then
    "$N".toList ++ number ((key + 4294967296 - K.configStartingBlock0) % 4294967296)
      ++ '=' :: val
  else
    '$' :: number key ++ '=' :: val

/-! ## Status reports -/

/-- The locals of `Grbl::parseStatus` that live across the field loop, with the
object itself and the notifications raised so far. -/
structure StatusLoop where
  s : Grbl
  newActioners : ActionerFlags
  newSwitches : SwitchFlags
  raised : List Signal
  deriving DecidableEq

/-- The `Hold:` case of the state token in `Grbl::parseStatus`: the object, the
reassigned `block` and `newstate`. A changed sub-code sets `state` to Unknown. -/
def parseStatusHold (s : Grbl) (block : QString) (newstate : StateType) :
    Grbl × QString × StateType :=
  if startsWith block "Hold:".toList then
    let block := right block ((block.length : Int) - 5)
    let newHoldCode := toInt block
    let s := if newHoldCode ≠ s.holdCode
      then { s with state := StateType.stateUnknown, holdCode := newHoldCode } else s
    (s, block, StateType.stateHold)
  else (s, block, newstate)

/-- The `Door:` case of the state token in `Grbl::parseStatus`. -/
def parseStatusDoor (s : Grbl) (block : QString) (newstate : StateType) :
    Grbl × QString × StateType :=
  if startsWith block "Door:".toList then
    let block := right block ((block.length : Int) - 5)
    ({ s with doorCode := toInt block }, block, StateType.stateDoor)
  else (s, block, newstate)

/-- The end of the state token handling in `Grbl::parseStatus`: if the state has
changed, keep it and emit `stateUpdated`. -/
def parseStatusCommit (s : Grbl) (newstate : StateType) : Grbl × List Signal :=
  if s.state ≠ newstate then ({ s with state := newstate }, [Signal.stateUpdated])
  else (s, [])

/-- `Grbl::parseStatus`, block 0: the state token. `block` is reassigned by the
`Hold:` and `Door:` cases and the later comparisons read the reassigned text. -/
def parseStatusState (s : Grbl) (block0 : QString) : Grbl × List Signal :=
  let block := block0
  let newstate := s.state
  let newstate := if block = "Idle".toList then StateType.stateIdle else newstate
  let newstate := if block = "Run".toList then StateType.stateRun else newstate
  let hold := parseStatusHold s block newstate
  let s := hold.1
  let block := hold.2.1
  let newstate := hold.2.2
  let newstate := if block = "Jog".toList then StateType.stateJog else newstate
  let newstate := if block = "Home".toList then StateType.stateHome else newstate
  let newstate := if block = "Alarm".toList then StateType.stateAlarm else newstate
  let newstate := if block = "Check".toList then StateType.stateCheck else newstate
  let door := parseStatusDoor s block newstate
  let s := door.1
  let block := door.2.1
  let newstate := door.2.2
  let newstate := if block = "Sleep".toList then StateType.stateSleep else newstate
  parseStatusCommit s newstate

/-- Field `WPos:` of `Grbl::parseStatus`; `block` is the text after the prefix. -/
def parseStatusWPos (st : StatusLoop) (block : QString) : StatusLoop :=
  match split ',' block with
  | [a, b, c] =>
    let s := st.s
    let coords : CoordinatesType := ⟨toDouble a, toDouble b, toDouble c⟩
    let changed : Bool := decide (s.workingCoordinates ≠ coords) || s.first
    let s := { s with
      workingCoordinates := coords
      infos := { s.infos with flagHasWorkingCoords := true } }
    let r : Grbl × Bool :=
      if s.infos.flagHasWorkingOffset then
        let coords : CoordinatesType :=
          ⟨s.workingCoordinates.x + s.workingOffset.x,
           s.workingCoordinates.y + s.workingOffset.y,
           s.workingCoordinates.z + s.workingOffset.z⟩
        let changed := if decide (s.machineCoordinates ≠ coords) || s.first then true else changed
        ({ s with
            machineCoordinates := coords
            infos := { s.infos with flagHasMachineCoords := true } }, changed)
      else (s, changed)
    if r.2 || r.1.first then
      { st with s := r.1, raised := st.raised ++ [Signal.coordinatesUpdated] }
    else { st with s := r.1 }
  | _ => st

/-- Field `MPos:` of `Grbl::parseStatus`; `block` is the text after the prefix. The
first comparison is against `workingCoordinates`, as in the source. -/
def parseStatusMPos (st : StatusLoop) (block : QString) : StatusLoop :=
  match split ',' block with
  | [a, b, c] =>
    let s := st.s
    let coords : CoordinatesType := ⟨toDouble a, toDouble b, toDouble c⟩
    let changed : Bool := decide (s.workingCoordinates ≠ coords)
    let s := { s with
      machineCoordinates := coords
      infos := { s.infos with flagHasMachineCoords := true } }
    let r : Grbl × Bool :=
      if s.infos.flagHasWorkingOffset then
        let coords : CoordinatesType :=
          ⟨s.machineCoordinates.x - s.workingOffset.x,
           s.machineCoordinates.y - s.workingOffset.y,
           s.machineCoordinates.z - s.workingOffset.z⟩
        let changed := if decide (s.workingCoordinates ≠ coords) || s.first then true else changed
        ({ s with
            workingCoordinates := coords
            infos := { s.infos with flagHasWorkingCoords := true } }, changed)
      else (s, changed)
    if r.2 || r.1.first then
      { st with s := r.1, raised := st.raised ++ [Signal.coordinatesUpdated] }
    else { st with s := r.1 }
  | _ => st

/-- Field `Bf:` of `Grbl::parseStatus`. -/
def parseStatusBf (st : StatusLoop) (block : QString) : StatusLoop :=
  match split ',' block with
  | [a, b] =>
    let s := st.s
    let changed : Bool := decide (s.blockBuffer ≠ toInt a) || decide (s.rxBuffer ≠ toInt b)
    let s := { s with
      infos := { s.infos with flagHasBuffer := true }
      blockBuffer := toInt a
      rxBuffer := toInt b }
    if changed then { st with s := s, raised := st.raised ++ [Signal.buffersUpdated] }
    else { st with s := s }
  | _ => st

/-- Field `Ln:` of `Grbl::parseStatus`. -/
def parseStatusLn (st : StatusLoop) (block : QString) : StatusLoop :=
  match split ',' block with
  | [a] =>
    let s := st.s
    let changed : Bool := decide (s.lineNumber ≠ toInt a)
    let s := { s with
      infos := { s.infos with flagHasLineNumber := true }
      lineNumber := toInt a }
    if changed then { st with s := s, raised := st.raised ++ [Signal.lineNumberUpdated] }
    else { st with s := s }
  | _ => st

/-- Field `FS:` of `Grbl::parseStatus`. -/
def parseStatusFS (st : StatusLoop) (block : QString) : StatusLoop :=
  match split ',' block with
  | [a, b] =>
    let s := st.s
    let changed : Bool := decide (s.feedRate ≠ toInt a) || decide (s.spindleSpeed ≠ toInt b)
    let s := { s with
      infos := { s.infos with flagHasFeedRate := true, flagHasSpindleSpeed := true }
      feedRate := toInt a
      spindleSpeed := toInt b }
    if changed then { st with s := s, raised := st.raised ++ [Signal.ratesUpdated] }
    else { st with s := s }
  | _ => st

/-- Field `F:` of `Grbl::parseStatus`. -/
def parseStatusF (st : StatusLoop) (block : QString) : StatusLoop :=
  let s := st.s
  let changed : Bool := decide (s.feedRate ≠ toInt block)
  let s := { s with
    infos := { s.infos with flagHasFeedRate := true }
    feedRate := toInt block }
  if changed then { st with s := s, raised := st.raised ++ [Signal.ratesUpdated] }
  else { st with s := s }

/-- Field `Pn:` of `Grbl::parseStatus`: sets bits of `newSwitches`. -/
def parseStatusPn (st : StatusLoop) (block : QString) : StatusLoop :=
  let n := st.newSwitches
  let n := if containsChar block 'P' then { n with switchProbe := true } else n
  let n := if containsChar block 'X' then { n with switchLimitX := true } else n
  let n := if containsChar block 'Y' then { n with switchLimitY := true } else n
  let n := if containsChar block 'Z' then { n with switchLimitZ := true } else n
  let n := if containsChar block 'D' then { n with switchDoor := true } else n
  let n := if containsChar block 'R' then { n with switchReset := true } else n
  let n := if containsChar block 'H' then { n with switchFeedHold := true } else n
  let n := if containsChar block 'S' then { n with switchCycleStart := true } else n
  { st with newSwitches := n }

/-- Field `WCO:` of `Grbl::parseStatus`: `flagHasWorkingOffset` is set before the
values are split and counted. -/
def parseStatusWCO (st : StatusLoop) (block : QString) : StatusLoop :=
  let s := st.s
  let s := { s with infos := { s.infos with flagHasWorkingOffset := true } }
  match split ',' block with
  | [a, b, c] =>
    let coords : CoordinatesType := ⟨toDouble a, toDouble b, toDouble c⟩
    let changed : Bool := decide (s.workingOffset ≠ coords)
    let s := { s with workingOffset := coords }
    let r1 : Grbl × Bool :=
      if s.infos.flagHasMachineCoords = false then
        ({ s with
            machineCoordinates :=
              ⟨s.workingCoordinates.x + s.workingOffset.x,
               s.workingCoordinates.y + s.workingOffset.y,
               s.workingCoordinates.z + s.workingOffset.z⟩
            infos := { s.infos with flagHasMachineCoords := true } }, true)
      else (s, changed)
    let s := r1.1
    let changed := r1.2
    let r2 : Grbl × Bool :=
      if s.infos.flagHasWorkingCoords = false then
        ({ s with
            workingCoordinates :=
              ⟨s.machineCoordinates.x - s.workingOffset.x,
               s.machineCoordinates.y - s.workingOffset.y,
               s.machineCoordinates.z - s.workingOffset.z⟩
            infos := { s.infos with flagHasWorkingCoords := true } }, true)
      else (s, changed)
    if r2.2 then { st with s := r2.1, raised := st.raised ++ [Signal.coordinatesUpdated] }
    else { st with s := r2.1 }
  | _ => { st with s := s }

/-- Field `Ov:` of `Grbl::parseStatus`. -/
def parseStatusOv (st : StatusLoop) (block : QString) : StatusLoop :=
  match split ',' block with
  | [a, b, c] =>
    let s := st.s
    { st with s := { s with
        infos := { s.infos with flagHasOverride := true, flagHasActioners := true }
        fOverride := toInt a
        rOverride := toInt b
        spindleSpeedOverride := toInt c
        actioners := {} } }
  | _ => st

/-- Field `A:` of `Grbl::parseStatus`: sets bits of `newActioners`. -/
def parseStatusA (st : StatusLoop) (block : QString) : StatusLoop :=
  let s := st.s
  let s := { s with infos := { s.infos with flagHasActioners := true } }
  let n := st.newActioners
  let n : ActionerFlags :=
    if containsStr block "SS".toList then
      { n with actionSpindleVariable := true, actionSpindle := true }
    else if containsStr block "SC".toList then
      { n with actionSpindleVariable := true, actionSpindle := true,
               actionSpindleCounterClockwise := true }
    else
      let n := if containsChar block 'S' then { n with actionSpindle := true } else n
      if containsChar block 'C' then
        { n with actionSpindle := true, actionSpindleCounterClockwise := true }
      else n
  let n := if containsChar block 'F'
    then { n with actionCoolant := true, actionCoolantFlood := true } else n
  let n := if containsChar block 'M'
    then { n with actionCoolant := true, actionCoolantMist := true } else n
  { st with s := s, newActioners := n }

/-- One iteration of the field loop of `Grbl::parseStatus`: the `if` / `else if`
chain on the prefix of the field. An unknown prefix is only logged. -/
def parseStatusField (st : StatusLoop) (block : QString) : StatusLoop :=
  if startsWith block "WPos:".toList then
    parseStatusWPos st (right block ((block.length : Int) - 5))
  else if startsWith block "MPos:".toList then
    parseStatusMPos st (right block ((block.length : Int) - 5))
  else if startsWith block "Bf:".toList then
    parseStatusBf st (right block ((block.length : Int) - 3))
  else if startsWith block "Ln:".toList then
    parseStatusLn st (right block ((block.length : Int) - 3))
  else if startsWith block "FS:".toList then
    parseStatusFS st (right block ((block.length : Int) - 3))
  else if startsWith block "F:".toList then
    parseStatusF st (right block ((block.length : Int) - 2))
  else if startsWith block "Pn:".toList then
    parseStatusPn st (right block ((block.length : Int) - 3))
  else if startsWith block "WCO:".toList then
    parseStatusWCO st (right block ((block.length : Int) - 4))
  else if startsWith block "Ov:".toList then
    parseStatusOv st (right block ((block.length : Int) - 3))
  else if startsWith block "A:".toList then
    parseStatusA st (right block ((block.length : Int) - 2))
  else st

/-- The pipe-separated blocks of a status line: the line without its first and
last character, split on `|`. -/
def statusBlocks (line : QString) : List QString :=
  let buffer := right line ((line.length : Int) - 1)
  let buffer := left buffer ((buffer.length : Int) - 1)
  split '|' buffer

/-- The end of `Grbl::parseStatus`, after the field loop: `switches` is published
unconditionally, `actioners` when tracked and different, and `first` is consumed. -/
def parseStatusFinish (st : StatusLoop) : Grbl × List Signal :=
  let s := { st.s with switches := st.newSwitches }
  let raised := st.raised ++ [Signal.switchesUpdated]
  let r : Grbl × List Signal :=
    if s.infos.flagHasActioners = true ∧ s.actioners ≠ st.newActioners then
      ({ s with actioners := st.newActioners }, raised ++ [Signal.actionersUpdated])
    else (s, raised)
  ({ r.1 with first := false }, r.2)

/-- `Grbl::parseStatus`: the new object and the notifications raised, in order. -/
def parseStatus (s : Grbl) (line : QString) : Grbl × List Signal :=
  let s := { s with infos :=
    { flagHasWorkingOffset := s.infos.flagHasWorkingOffset
      flagHasMachineCoords := s.infos.flagHasMachineCoords
      flagHasSwitches := true } }
  let blocks := statusBlocks line
  let r := parseStatusState s (blocks.headD [])
  let st : StatusLoop := blocks.tail.foldl parseStatusField ⟨r.1, {}, {}, r.2⟩
  parseStatusFinish st

/-! ## Informational blocks -/

/-- One word of a `GC:` block (the body of the loop of `Grbl::parseInfo`). -/
def parseInfoGCWord (infos : InfoFlags) (command : QString) : InfoFlags :=
  let infos := if command = "G20".toList then { infos with flagIsMilimeters := false } else infos
  let infos := if command = "G21".toList then { infos with flagIsMilimeters := true } else infos
  let infos := if command = "G90".toList then { infos with flagIsAbsolute := false } else infos
  let infos := if command = "G91".toList then { infos with flagIsAbsolute := true } else infos
  infos

/-- `Grbl::parseInfo`: the new object and the notifications raised. -/
def parseInfo (s : Grbl) (line : QString) : Grbl × List Signal :=
  let block := right line ((line.length : Int) - 1)
  let block := left block ((block.length : Int) - 1)
  if startsWith block "TLO:".toList then
    let block := right block ((block.length : Int) - 4)
    ({ s with TLOValue := toDouble block, infos := { s.infos with flagTLO := true } }, [])
  else if startsWith block "PRB:".toList then
    let block := right block ((block.length : Int) - 4)
    match split ',' block with
    | [a, b, c] =>
      ({ s with
          prbCoords := ⟨toDouble a, toDouble b, toDouble c⟩
          infos := { s.infos with flagPRB := true } }, [])
    | _ => (s, [])
  else if startsWith block "GC:".toList then
    let block := right block ((block.length : Int) - 3)
    let blocks := split ' ' block
    let infos := blocks.foldl parseInfoGCWord s.infos
    ({ s with infos := { infos with flagGC := true } }, [])
  else if startsWith block "VER:".toList then
    let block := right block ((block.length : Int) - 4)
    match split ':' block with
    | [a, _] =>
      ({ s with
          machineVersion := a
          features := { s.features with flagVersion := true } }, [Signal.versionUpdated])
    | _ => (s, [])
  else if startsWith block "OPT:".toList then
    let block := right block ((block.length : Int) - 4)
    match split ',' block with
    | [a, b, c] =>
      let features := s.features
      let features := if containsCharCS a 'V'
        then { features with flagHasVariableSpindle := true, flagHasLaserMode := true }
        else features
      let features := if containsCharCS a 'M'
        then { features with flagHasCoolantMist := true } else features
      ({ s with features := features, blockBufferMax := toInt b, rxBufferMax := toInt c }, [])
    | _ => (s, [])
  else if startsWith block "G".toList then
    let block := right block ((block.length : Int) - 1)
    match split ':' block with
    | [g, v] =>
      let gCode := toUInt g
      match split ',' v with
      | [a, b, c] =>
        ({ s with
            GxxConfig := QMap.insert gCode ⟨toDouble a, toDouble b, toDouble c⟩ s.GxxConfig
            infos := { s.infos with flagGXX := true } }, [])
      | _ => (s, [])
    | _ => (s, [])
  else (s, [])

/-! ## Command encoder -/

/-- The `switch` of `Grbl::ask`: the command text, whether a terminating newline
is requested, and the object after the local side effects of the case. An
unmatched code, or an unmatched sub-command of an override family, leaves the
text empty. -/
def askCommand (K : Consts) (s : Grbl) (commandCode commandArg : Int) :
    QString × Bool × Grbl :=
  if commandCode = K.commandReset then
    (K.CMD_RESET, false,
      { s with
        switches := {}
        actioners := {}
        infos := { s.infos with flagHasWorkingOffset := false } })
  else if commandCode = K.commandStatus then ([K.CMD_STATUS_REPORT], false, s)
  else if commandCode = K.commandUnlock then (K.CMD_UNLOCK, true, s)
  else if commandCode = K.commandHoming then (K.CMD_HOME, true, s)
  else if commandCode = K.commandConfig then (K.CMD_CONFIG, true, s)
  else if commandCode = K.commandInfos then (K.CMD_INFOS, true, s)
  else if commandCode = K.commandStartBlock then (K.CMD_STARTBLOCK, true, s)
  else if commandCode = K.commandPause then
    (if commandArg ≠ 0 then [K.CMD_FEED_HOLD] else [K.CMD_CYCLE_START], false, s)
  else if commandCode = K.commandFeedHold then ([K.CMD_FEED_HOLD], false, s)
  else if commandCode = K.commandCycleStart then ([K.CMD_CYCLE_START], false, s)
  else if commandCode = K.commandDebugReport then ([K.CMD_DEBUG_REPORT], false, s)
  else if commandCode = K.commandJogCancel then ([K.CMD_JOG_CANCEL], false, s)
  else if commandCode = K.commandSaftyDoor then ([K.CMD_SAFETY_DOOR], false, s)
  else if commandCode = K.commandCheck then (K.CMD_CHECK, true, s)
  else if commandCode = K.commandOverrideFeed then
    (if commandArg = K.subReset then [K.CMD_FEED_OVR_RESET]
     else if commandArg = K.subCoarsePlus then [K.CMD_FEED_OVR_COARSE_PLUS]
     else if commandArg = K.subCoarseMinus then [K.CMD_FEED_OVR_COARSE_MINUS]
     else if commandArg = K.subFinePlus then [K.CMD_FEED_OVR_FINE_PLUS]
     else if commandArg = K.subFineMinus then [K.CMD_FEED_OVR_FINE_MINUS]
     else [], false, s)
  else if commandCode = K.commandOverrideRapid then
    (if commandArg = K.subReset then [K.CMD_RAPID_OVR_RESET]
     else if commandArg = K.subLow then [K.CMD_RAPID_OVR_LOW]
     else if commandArg = K.subMedium then [K.CMD_RAPID_OVR_MEDIUM]
     else [], false, s)
  else if commandCode = K.commandOverrideSpindle then
    (if commandArg = K.subReset then [K.CMD_SPINDLE_OVR_RESET]
     else if commandArg = K.subCoarsePlus then [K.CMD_SPINDLE_OVR_COARSE_PLUS]
     else if commandArg = K.subCoarseMinus then [K.CMD_SPINDLE_OVR_COARSE_MINUS]
     else if commandArg = K.subFinePlus then [K.CMD_SPINDLE_OVR_FINE_PLUS]
     else if commandArg = K.subFineMinus then [K.CMD_SPINDLE_OVR_FINE_MINUS]
     else if commandArg = K.subStop then [K.CMD_SPINDLE_OVR_STOP]
     else [], false, s)
  else if commandCode = K.commandOverrideCoolantFloodToggle then
    ([K.CMD_COOLANT_FLOOD_OVR_TOGGLE], false, s)
  else if commandCode = K.commandOverrideCoolantMistToggle then
    ([K.CMD_COOLANT_MIST_OVR_TOGGLE], false, s)
  else ([], true, s)

/-- `Grbl::ask(commandCode, commandArg, noLog)`: the returned flag and the new
object. An empty command text is a failure and nothing is sent. -/
def ask (K : Consts) (s : Grbl) (commandCode commandArg : Int) (noLog : Bool) : Bool × Grbl :=
  let r := askCommand K s commandCode commandArg
  if r.1.isEmpty then (false, r.2.2) else sendCommand r.2.2 r.1 r.2.1 noLog

/-- `Grbl::timeout`: the periodic timer tick. -/
def timeout (K : Consts) (s : Grbl) : Grbl :=
  if s.features.flagAskStatus then (ask K s K.commandStatus 0 true).2 else s

/-- `Grbl::Grbl`: the constructor sets the name and the two initial feature flags
(the field defaults of `Grbl`) and asks for the build information. -/
def Grbl.construct (K : Consts) : Grbl := (ask K {} K.commandInfos 0 false).2

/-! ## Configuration sequencer -/

/-- `connect(this, SIGNAL(commandExecuted()), this, SLOT(slot))`: a new connection
is appended. -/
def connect (s : Grbl) (slot : Slot) : Grbl :=
  { s with
    connections := s.connections ++ [(s.nextConnection, slot)]
    nextConnection := s.nextConnection + 1 }

/-- `disconnect(this, SIGNAL(commandExecuted()), this, SLOT(slot))`: every
connection to the slot is removed. -/
def disconnect (s : Grbl) (slot : Slot) : Grbl :=
  { s with connections := s.connections.filter (fun c => c.2 ≠ slot) }

/-- Modelled from the spec: the configuration editor (`GrblConfigurationDialog`,
not part of the sources at hand). It is shown the object, reports whether the user
accepted, and `getConfiguration` hands back a possibly modified ConfigStore with
its success flag. -/
structure Editor where
  accepted : Grbl → Bool
  getConfiguration : Grbl → Bool × QMap QString

/-- The body of `Grbl::writeConfiguration` after the `start` block. The call to
itself that skips the laser-mode key consumes one unit of `fuel`; the index grows
at each call, so `config.size() + 1` units are enough. -/
def writeConfigurationStep (K : Consts) : Nat → Grbl → Grbl
  | 0, s => s
  | fuel + 1, s =>
    if s.index < s.config.length then
      let key := (QMap.keys s.config).getD s.index 0
      let s := { s with index := s.index + 1 }
      if key = K.configLaserMode ∧ hasFeature s.features K.infoFlagHasLaserMode = false then
        writeConfigurationStep K fuel s
      else
        let val := QMap.value s.config key
        let cmd := writeConfigurationCmd K key val
        let r := sendCommand s cmd true false
        if r.1 = false then disconnect r.2 Slot.writeConfiguration else r.2
    else
      let s := disconnect s Slot.writeConfiguration
      { s with features := { s.features with flagAskStatus := true } }

/-- `Grbl::writeConfiguration(start)`. -/
def writeConfiguration (K : Consts) (s : Grbl) (start : Bool) : Grbl :=
  let s :=
    if start then
      connect { s with index := 0, features := { s.features with flagAskStatus := false } }
        Slot.writeConfiguration
    else s
  writeConfigurationStep K (s.config.length + 1) s

/-- `Grbl::openConfiguration(parent)`; `parent` tells whether the widget pointer is
non-null (the slot is invoked with the null default). The message box and the
statics `widget` and `timeoutTries` have no effect on the object. -/
def openConfiguration (K : Consts) (E : Editor) (s : Grbl) (parent : Bool) : Grbl :=
  if s.state ≠ StateType.stateIdle ∧ s.state ≠ StateType.stateAlarm then s
  else if parent then
    let s := { s with config := [], features := { s.features with flagAskStatus := false } }
    let s := connect s Slot.openConfiguration
    (ask K s K.commandConfig 0 false).2
  else
    if s.infos.flagHasStartingBlocks = false then
      (ask K s K.commandStartBlock 0 false).2
    else
      let s := disconnect s Slot.openConfiguration
      let s := { s with features := { s.features with flagAskStatus := true } }
      if E.accepted s then
        let g := E.getConfiguration s
        let s := { s with config := g.2 }
        if g.1 then writeConfiguration K s true else s
      else { s with features := { s.features with flagAskStatus := true } }

/-- The invocation of one slot connected to `commandExecuted`. -/
def runSlot (K : Consts) (E : Editor) (s : Grbl) : Slot → Grbl
  | Slot.openConfiguration => openConfiguration K E s false
  | Slot.writeConfiguration => writeConfiguration K s false

/-- `emit commandExecuted()`: the connections present when the signal is raised
are visited in order, and one that has been removed in the meantime is skipped. -/
def emitCommandExecuted (K : Consts) (E : Editor) (s : Grbl) : Grbl :=
  s.connections.foldl
    (fun cur c => if c ∈ cur.connections then runSlot K E cur c.2 else cur) s

/-! ## Line dispatcher -/

/-- `Grbl::parse`: the new object and the notifications raised, in order; `none`
when the banner has no second space-separated token (`blocks.at(1)` is out of
range). -/
def parse (K : Consts) (E : Editor) (s : Grbl) (line : QString) :
    Option (Grbl × List Signal) :=
  let s := { s with lastLine := line }
  if startsWith line "Grbl".toList then
    match split ' ' line with
    | name :: version :: _ =>
      let s := { s with
        machineName := name
        machineVersion := version
        features := { s.features with flagName := true, flagVersion := true }
        state := StateType.stateUnknown }
      let s := (ask K s K.commandInfos 0 false).2
      some (s, [Signal.versionUpdated, Signal.resetDone])
    | _ => none
  else if startsWith line "ok".toList then
    let s := { s with infos := { s.infos with flagHasError := false } }
    some (emitCommandExecuted K E s, [Signal.commandExecuted])
  else if startsWith line "error:".toList then
    let block := right line ((line.length : Int) - 6)
    let s := { s with errorCode := toInt block }
    some (s, [Signal.error s.errorCode])
  else if startsWith line "ALARM:".toList then
    let block := right line ((line.length : Int) - 6)
    let s := { s with alarmCode := toInt block, state := StateType.stateAlarm }
    some (s, [Signal.alarm s.alarmCode])
  else if startsWith line "[".toList then
    let r := parseInfo s line
    some (r.1, r.2 ++ [Signal.infoUpdated])
  else if startsWith line "<".toList then
    let r := parseStatus s line
    some (r.1, r.2 ++ [Signal.statusUpdated])
  else if startsWith line ">".toList then some (s, [])
  else if startsWith line "$".toList then
    some (parseConfig K s line, [Signal.configUpdated])
  else some (s, [])

/-! ## Views used to state the theorems -/

/-- Componentwise sum of two coordinate triples (`working + offset`). -/
def addCoords (a b : CoordinatesType) : CoordinatesType := ⟨a.x + b.x, a.y + b.y, a.z + b.z⟩

/-- Componentwise difference of two coordinate triples (`machine - offset`). -/
def subCoords (a b : CoordinatesType) : CoordinatesType := ⟨a.x - b.x, a.y - b.y, a.z - b.z⟩

/-- The part of the object that the coordinate fields of a status line read and
write. -/
structure CoordView where
  working : CoordinatesType
  machine : CoordinatesType
  offset : CoordinatesType
  hasOffset : Bool
  hasMachine : Bool
  hasWorking : Bool
  first : Bool
  deriving DecidableEq

/-- The coordinate view of an object. -/
def coordView (s : Grbl) : CoordView :=
  ⟨s.workingCoordinates, s.machineCoordinates, s.workingOffset,
   s.infos.flagHasWorkingOffset, s.infos.flagHasMachineCoords, s.infos.flagHasWorkingCoords,
   s.first⟩

/-- The fields of a status line: the blocks after the state token. -/
def statusFields (line : QString) : List QString := (statusBlocks line).tail

/-- The state token of a status line: block 0. -/
def statusToken (line : QString) : QString := (statusBlocks line).headD []

/-- The values of a well-formed coordinate field body `x,y,z`. -/
def coordsOf (block : QString) : Option CoordinatesType :=
  match split ',' block with
  | [a, b, c] => some ⟨toDouble a, toDouble b, toDouble c⟩
  | _ => none

/-- A sample assignment of the header constants: the real-time bytes and literals
of the Grbl 1.1 protocol, consecutive enumerators, and the reserved starting-block
keys at 200 and 201. Used to evaluate the definitions on concrete inputs. -/
def K0 : Consts where
  commandReset := 0
  commandStatus := 1
  commandUnlock := 2
  commandHoming := 3
  commandConfig := 4
  commandInfos := 5
  commandStartBlock := 6
  commandPause := 7
  commandFeedHold := 8
  commandCycleStart := 9
  commandDebugReport := 10
  commandJogCancel := 11
  commandSaftyDoor := 12
  commandCheck := 13
  commandOverrideFeed := 14
  commandOverrideRapid := 15
  commandOverrideSpindle := 16
  commandOverrideCoolantFloodToggle := 17
  commandOverrideCoolantMistToggle := 18
  subReset := 0
  subCoarsePlus := 1
  subCoarseMinus := 2
  subFinePlus := 3
  subFineMinus := 4
  subLow := 5
  subMedium := 6
  subStop := 7
  configStartingBlock0 := 200
  configStartingBlock1 := 201
  configLaserMode := 32
  CMD_RESET := [Char.ofNat 0x18]
  CMD_UNLOCK := "$X".toList
  CMD_HOME := "$H".toList
  CMD_CONFIG := "$$".toList
  CMD_INFOS := "$I".toList
  CMD_STARTBLOCK := "$N".toList
  CMD_CHECK := "$C".toList
  CMD_STATUS_REPORT := '?'
  CMD_FEED_HOLD := '!'
  CMD_CYCLE_START := '~'
  CMD_DEBUG_REPORT := Char.ofNat 0x86
  CMD_JOG_CANCEL := Char.ofNat 0x85
  CMD_SAFETY_DOOR := Char.ofNat 0x84
  CMD_FEED_OVR_RESET := Char.ofNat 0x90
  CMD_FEED_OVR_COARSE_PLUS := Char.ofNat 0x91
  CMD_FEED_OVR_COARSE_MINUS := Char.ofNat 0x92
  CMD_FEED_OVR_FINE_PLUS := Char.ofNat 0x93
  CMD_FEED_OVR_FINE_MINUS := Char.ofNat 0x94
  CMD_RAPID_OVR_RESET := Char.ofNat 0x95
  CMD_RAPID_OVR_LOW := Char.ofNat 0x97
  CMD_RAPID_OVR_MEDIUM := Char.ofNat 0x96
  CMD_SPINDLE_OVR_RESET := Char.ofNat 0x99
  CMD_SPINDLE_OVR_COARSE_PLUS := Char.ofNat 0x9A
  CMD_SPINDLE_OVR_COARSE_MINUS := Char.ofNat 0x9B
  CMD_SPINDLE_OVR_FINE_PLUS := Char.ofNat 0x9C
  CMD_SPINDLE_OVR_FINE_MINUS := Char.ofNat 0x9D
  CMD_SPINDLE_OVR_STOP := Char.ofNat 0x9E
  CMD_COOLANT_FLOOD_OVR_TOGGLE := Char.ofNat 0xA0
  CMD_COOLANT_MIST_OVR_TOGGLE := Char.ofNat 0xA1
  infoFlagHasLaserMode := FeatureBit.flagHasLaserMode

/-- The status line `<tok|WPos:x,y,z|FS:f,sp>`. -/
def wposLine (tok x y z f sp : QString) : QString :=
  '<' :: (tok ++ '|' :: ("WPos:".toList ++ (x ++ ',' :: (y ++ ',' :: z))) ++
    '|' :: ("FS:".toList ++ (f ++ ',' :: sp))) ++ ['>']

/-- The frame of the status field loop: `s'` agrees with `s` on everything that no
status field writes (identity, state and sub-codes, features, switches, the
ConfigStore, the statics, the connections and the transport). -/
def statusFrame (s s' : Grbl) : Prop :=
  s' = { s with
    infos := s'.infos
    actioners := s'.actioners
    workingCoordinates := s'.workingCoordinates
    machineCoordinates := s'.machineCoordinates
    workingOffset := s'.workingOffset
    blockBuffer := s'.blockBuffer
    rxBuffer := s'.rxBuffer
    lineNumber := s'.lineNumber
    feedRate := s'.feedRate
    spindleSpeed := s'.spindleSpeed
    fOverride := s'.fOverride
    rOverride := s'.rOverride
    spindleSpeedOverride := s'.spindleSpeedOverride }

/-- What one status field may do: the object stays in the frame and the only
notifications added are those of the coordinate, buffer, line-number and rate
fields. -/
def fieldEffect (st st' : StatusLoop) : Prop :=
  statusFrame st.s st'.s ∧
  ∃ extra, st'.raised = st.raised ++ extra ∧
    ∀ sig ∈ extra, sig = Signal.coordinatesUpdated ∨ sig = Signal.buffersUpdated ∨
      sig = Signal.lineNumberUpdated ∨ sig = Signal.ratesUpdated

/-- The payloads of the `Pn:` fields among the fields of a status line. -/
def pnPayloads (fields : List QString) : List QString :=
  (fields.filter (fun b => startsWith b "Pn:".toList)).map
    (fun b => right b ((b.length : Int) - 3))

/-- The fixed character-to-switch mapping applied to the `Pn:` payloads of one
report: P = probe, X / Y / Z = limit axes, D = door, R = reset, H = feed-hold,
S = cycle-start. Without a payload no switch is active. -/
def decodeSwitches (payloads : List QString) : SwitchFlags :=
  { switchProbe := payloads.any (fun p => containsChar p 'P')
    switchLimitX := payloads.any (fun p => containsChar p 'X')
    switchLimitY := payloads.any (fun p => containsChar p 'Y')
    switchLimitZ := payloads.any (fun p => containsChar p 'Z')
    switchDoor := payloads.any (fun p => containsChar p 'D')
    switchReset := payloads.any (fun p => containsChar p 'R')
    switchFeedHold := payloads.any (fun p => containsChar p 'H')
    switchCycleStart := payloads.any (fun p => containsChar p 'S') }

/-- Bitwise or of two switch sets. -/
def orSwitches (a b : SwitchFlags) : SwitchFlags :=
  { switchProbe := a.switchProbe || b.switchProbe
    switchLimitX := a.switchLimitX || b.switchLimitX
    switchLimitY := a.switchLimitY || b.switchLimitY
    switchLimitZ := a.switchLimitZ || b.switchLimitZ
    switchDoor := a.switchDoor || b.switchDoor
    switchReset := a.switchReset || b.switchReset
    switchFeedHold := a.switchFeedHold || b.switchFeedHold
    switchCycleStart := a.switchCycleStart || b.switchCycleStart }

/-- One step of `mposReported`: a well-formed `MPos:` field replaces the value. -/
def mposStep (acc : Option CoordinatesType) (b : QString) : Option CoordinatesType :=
  if startsWith b "MPos:".toList then
    match coordsOf (right b ((b.length : Int) - 5)) with
    | some c => some c
    | none => acc
  else acc

/-- The machine position reported by a list of status fields: the values of the
last well-formed `MPos:` field, if any. -/
def mposReported (fields : List QString) : Option CoordinatesType :=
  fields.foldl mposStep none

/-- The coordinate consistency invariant: when the working offset is known,
`machine = working + offset` on every axis. -/
def coordsConsistent (s : Grbl) : Prop :=
  s.infos.flagHasWorkingOffset = true →
    s.machineCoordinates = addCoords s.workingCoordinates s.workingOffset

instance (s : Grbl) : Decidable (coordsConsistent s) := by
  unfold coordsConsistent; infer_instance

/-- The coordinate consistency invariant on a coordinate view. -/
def viewConsistent (v : CoordView) : Prop :=
  v.hasOffset = true → v.machine = addCoords v.working v.offset

/-- Every `WCO:` field of the list is well-formed and, when it is reached with
has-machine-coords and has-working-coords both set, repeats the offset already
known. The arguments are the three presence flags and the offset at the start of
the list; they are advanced through the fields as `parseStatus` advances them:
a well-formed `WPos:` field sets has-working-coords (and has-machine-coords when
the offset is known), a well-formed `MPos:` field sets has-machine-coords (and
has-working-coords when the offset is known), a `WCO:` field sets all three. -/
def wcoGate (wo mc wc : Bool) (o : CoordinatesType) : List QString → Bool
  | [] => true
  | b :: bs =>
    if startsWith b "WPos:".toList then
      match coordsOf (right b ((b.length : Int) - 5)) with
      | some _ => wcoGate wo (wo || mc) true o bs
      | none => wcoGate wo mc wc o bs
    else if startsWith b "MPos:".toList then
      match coordsOf (right b ((b.length : Int) - 5)) with
      | some _ => wcoGate wo true (wo || wc) o bs
      | none => wcoGate wo mc wc o bs
    else if startsWith b "WCO:".toList then
      match coordsOf (right b ((b.length : Int) - 4)) with
      | some c => (!mc || !wc || (wo && decide (c = o))) && wcoGate true true true c bs
      | none => false
    else wcoGate wo mc wc o bs

/-! ## Views used by the sequencer and flag theorems -/

/-- The delivery of one inbound line to the dispatcher. -/
def deliver (K : Consts) (E : Editor) (s : Grbl) (line : QString) : Grbl :=
  match parse K E s line with
  | some r => r.1
  | none => s

/-- The delivery of one `ok` line (an acknowledgment) to the dispatcher. -/
def deliverOk (K : Consts) (E : Editor) (s : Grbl) : Grbl := deliver K E s "ok".toList

/-- The delivery of `n` acknowledgments in a row. -/
def acks (K : Consts) (E : Editor) : Nat → Grbl → Grbl
  | 0, s => s
  | n + 1, s => acks K E n (deliverOk K E s)

/-- An editor in which the user rejects the dialog. -/
def rejectingEditor : Editor := ⟨fun _ => false, fun g => (false, g.config)⟩

/-- The frame of the configuration sequencer: `s'` agrees with `s` on everything but
the ConfigStore, the feature flags, the write index, the connections and the
transport. -/
def sequencerFrame (s s' : Grbl) : Prop :=
  s' = { s with
    config := s'.config
    features := s'.features
    index := s'.index
    connections := s'.connections
    nextConnection := s'.nextConnection
    sent := s'.sent
    port := s'.port }

/-- The presence flags of `b` include those of `a`: every info flag that records
that a value has been received (all flags but has-error, is-millimeters and
is-absolute) and is set in `a` is set in `b`. -/
def presenceKept (a b : InfoFlags) : Prop :=
  (a.flagHasWorkingOffset = true → b.flagHasWorkingOffset = true) ∧
  (a.flagHasMachineCoords = true → b.flagHasMachineCoords = true) ∧
  (a.flagHasWorkingCoords = true → b.flagHasWorkingCoords = true) ∧
  (a.flagHasSwitches = true → b.flagHasSwitches = true) ∧
  (a.flagHasBuffer = true → b.flagHasBuffer = true) ∧
  (a.flagHasLineNumber = true → b.flagHasLineNumber = true) ∧
  (a.flagHasFeedRate = true → b.flagHasFeedRate = true) ∧
  (a.flagHasSpindleSpeed = true → b.flagHasSpindleSpeed = true) ∧
  (a.flagHasOverride = true → b.flagHasOverride = true) ∧
  (a.flagHasActioners = true → b.flagHasActioners = true) ∧
  (a.flagHasConfig = true → b.flagHasConfig = true) ∧
  (a.flagHasStartingBlocks = true → b.flagHasStartingBlocks = true) ∧
  (a.flagTLO = true → b.flagTLO = true) ∧
  (a.flagPRB = true → b.flagPRB = true) ∧
  (a.flagGC = true → b.flagGC = true) ∧
  (a.flagGXX = true → b.flagGXX = true)

/-- The two coordinate flags kept by the mask at the head of `Grbl::parseStatus`:
has-working-offset and has-machine-coords set in `a` are set in `b`. -/
def coordFlagsKept (a b : InfoFlags) : Prop :=
  (a.flagHasWorkingOffset = true → b.flagHasWorkingOffset = true) ∧
  (a.flagHasMachineCoords = true → b.flagHasMachineCoords = true)

/-- The laser-mode key is skipped by the write round when the laser-mode capability
is not set. -/
def skipsKey (K : Consts) (f : FeatureFlags) (key : Nat) : Bool :=
  decide (key = K.configLaserMode) && !f.flagHasLaserMode

/-- The lines of a write round for the entries `cfg` of the ConfigStore, in the
order of the entries: one line command per entry whose key is not skipped. -/
def configLines (K : Consts) (f : FeatureFlags) (cfg : QMap QString) : List (QString × Bool) :=
  (cfg.filter (fun e => !skipsKey K f e.1)).map
    (fun e => (writeConfigurationCmd K e.1 e.2, true))

/-- A ConfigStore of two numeric settings on a transport whose next send fails. -/
def failingStart : Grbl :=
  { config := [(110, "1000.000".toList), (111, "500.000".toList)]
    port := [false] }

/-! ## Views used by the encoder, field and decoding theorems -/

/-- The case labels of the inner `switch` statements of `Grbl::ask` are pairwise
distinct: the spindle family lists every label of the feed family and `commandStop`,
the rapid family has its own three labels. -/
def Consts.distinctSubCommands (K : Consts) : Prop :=
  [K.subReset, K.subCoarsePlus, K.subCoarseMinus, K.subFinePlus, K.subFineMinus,
    K.subStop].Nodup ∧
  [K.subReset, K.subLow, K.subMedium].Nodup

instance (K : Consts) : Decidable K.distinctSubCommands := by
  unfold Consts.distinctSubCommands; infer_instance

/-- A status field with a recognised prefix and the wrong number of comma-separated
values: `WPos`, `MPos`, `WCO`, `Ov` other than 3, `Bf`, `FS` other than 2, `Ln`
other than 1. -/
def wrongArity (b : QString) : Bool :=
  if startsWith b "WPos:".toList then
    decide ((split ',' (right b ((b.length : Int) - 5))).length ≠ 3)
  else if startsWith b "MPos:".toList then
    decide ((split ',' (right b ((b.length : Int) - 5))).length ≠ 3)
  else if startsWith b "WCO:".toList then
    decide ((split ',' (right b ((b.length : Int) - 4))).length ≠ 3)
  else if startsWith b "Ov:".toList then
    decide ((split ',' (right b ((b.length : Int) - 3))).length ≠ 3)
  else if startsWith b "Bf:".toList then
    decide ((split ',' (right b ((b.length : Int) - 3))).length ≠ 2)
  else if startsWith b "FS:".toList then
    decide ((split ',' (right b ((b.length : Int) - 3))).length ≠ 2)
  else if startsWith b "Ln:".toList then
    decide ((split ',' (right b ((b.length : Int) - 3))).length ≠ 1)
  else false

/-- The Actioners value decoded from one `A:` payload, letters compared without
regard to case: `SS` gives spindle-on and variable-speed; otherwise `SC` gives
spindle-on, variable-speed and counter-clockwise; otherwise spindle-on is set iff
the payload contains `S` or `C` and counter-clockwise iff it contains `C`;
independently `F` gives flood-coolant-on and `M` mist-coolant-on, and either of
them coolant-on. -/
def decodeActioners (p : QString) : ActionerFlags :=
  let spindle : ActionerFlags :=
    if containsStr p "SS".toList then
      { actionSpindle := true, actionSpindleVariable := true }
    else if containsStr p "SC".toList then
      { actionSpindle := true, actionSpindleVariable := true,
        actionSpindleCounterClockwise := true }
    else
      { actionSpindle := containsChar p 'S' || containsChar p 'C'
        actionSpindleCounterClockwise := containsChar p 'C' }
  { spindle with
    actionCoolant := containsChar p 'F' || containsChar p 'M'
    actionCoolantFlood := containsChar p 'F'
    actionCoolantMist := containsChar p 'M' }

/-! ## Lemmas on the text primitives -/

theorem split_of_not_mem (sep : Char) (a : QString) (h : sep ∉ a) : split sep a = [a] := by
  induction a with
  | nil => rfl
  | cons c cs ih =>
    have hc : c ≠ sep := fun e => h (by simp [e])
    have hcs : sep ∉ cs := fun m => h (List.mem_cons_of_mem _ m)
    simp [split, hc, ih hcs]

theorem split_append_sep (sep : Char) (a b : QString) (h : sep ∉ a) :
    split sep (a ++ sep :: b) = a :: split sep b := by
  induction a with
  | nil => simp [split]
  | cons c cs ih =>
    have hc : c ≠ sep := fun e => h (by simp [e])
    have hcs : sep ∉ cs := fun m => h (List.mem_cons_of_mem _ m)
    simp [split, hc, ih hcs]

theorem right_drop_left (p r : QString) (hp : p ≠ []) :
    right (p ++ r) (((p ++ r).length : Int) - p.length) = r := by
  have hlen : 0 < p.length := List.length_pos.mpr hp
  unfold right
  rw [if_neg]
  · have : (p ++ r).length - (((p ++ r).length : Int) - p.length).toNat = p.length := by
      simp only [List.length_append]; push_cast; omega
    rw [this]; simp
  · simp only [List.length_append]; push_cast; omega

theorem left_drop_last (r : QString) (c : Char) :
    left (r ++ [c]) (((r ++ [c]).length : Int) - 1) = r := by
  unfold left
  rw [if_neg]
  · have : (((r ++ [c]).length : Int) - 1).toNat = r.length := by
      simp only [List.length_append, List.length_singleton]; push_cast; omega
    rw [this]; simp
  · simp only [List.length_append, List.length_singleton]; push_cast; omega

theorem dropWhile_of_none (p : Char → Bool) (l : QString) (h : ∀ c ∈ l, p c = false) :
    l.dropWhile p = l := by
  cases l with
  | nil => rfl
  | cons c cs => simp [List.dropWhile, h c (by simp)]

theorem trimmed_of_none (l : QString) (h : ∀ c ∈ l, isSpaceChar c = false) :
    trimmed l = l := by
  unfold trimmed
  rw [dropWhile_of_none _ l h, dropWhile_of_none _ l.reverse (by simpa using h)]
  simp

theorem digitChar_isDigit (d : Nat) (h : d < 10) :
    (digitChar d).isDigit = true ∧ (digitChar d).toNat - 48 = d := by
  interval_cases d <;> decide

theorem numberAux_digits (f n : Nat) (acc : QString) (hacc : ∀ c ∈ acc, c.isDigit = true) :
    ∀ c ∈ numberAux f n acc, c.isDigit = true := by
  induction f generalizing n acc with
  | zero => simpa [numberAux] using hacc
  | succ f ih =>
    unfold numberAux
    split
    · intro c hc
      rcases List.mem_cons.mp hc with rfl | hc
      · exact (digitChar_isDigit n (by assumption)).1
      · exact hacc c hc
    · apply ih
      intro c hc
      rcases List.mem_cons.mp hc with rfl | hc
      · exact (digitChar_isDigit (n % 10) (Nat.mod_lt _ (by decide))).1
      · exact hacc c hc

theorem number_digits (n : Nat) : ∀ c ∈ number n, c.isDigit = true :=
  numberAux_digits (n + 1) n [] (by simp)

theorem numberAux_value (f n : Nat) (acc : QString) (hf : n < f) :
    ∃ k, ∀ a, digitsValue a (numberAux f n acc) = digitsValue (a * 10 ^ k + n) acc := by
  induction f generalizing n acc with
  | zero => omega
  | succ f ih =>
    unfold numberAux
    split
    · rename_i h10
      refine ⟨1, fun a => ?_⟩
      have hd := digitChar_isDigit n h10
      simp [digitsValue, hd.1, hd.2]
    · rename_i h10
      obtain ⟨k, hk⟩ := ih (n / 10) (digitChar (n % 10) :: acc) (by omega)
      refine ⟨k + 1, fun a => ?_⟩
      have hd := digitChar_isDigit (n % 10) (Nat.mod_lt _ (by decide))
      rw [hk a]
      simp only [digitsValue, hd.1, hd.2, if_true]
      congr 1
      rw [pow_succ]
      have := Nat.div_add_mod n 10
      nlinarith [this]

theorem numberAux_ne_nil (f n : Nat) (acc : QString) (hf : 0 < f) : numberAux f n acc ≠ [] := by
  induction f generalizing n acc with
  | zero => omega
  | succ f ih =>
    unfold numberAux
    split
    · simp
    · rename_i h10
      cases f with
      | zero => simp [numberAux]
      | succ f => exact ih _ _ (by omega)

theorem number_ne_nil (n : Nat) : number n ≠ [] := numberAux_ne_nil _ _ _ (by omega)

theorem parseNat_number (n : Nat) : parseNat (number n) = some n := by
  obtain ⟨k, hk⟩ := numberAux_value (n + 1) n [] (by omega)
  have h := hk 0
  simp only [digitsValue, zero_mul, zero_add] at h
  have hne := number_ne_nil n
  unfold number at hne ⊢
  cases hq : numberAux (n + 1) n [] with
  | nil => exact absurd hq hne
  | cons c cs => simpa [parseNat, hq] using h

theorem isDigit_not_space (c : Char) (h : c.isDigit = true) : isSpaceChar c = false := by
  simp only [isSpaceChar, Bool.or_eq_false_iff, decide_eq_false_iff_not]
  refine ⟨⟨⟨?_, ?_⟩, ?_⟩, ?_⟩ <;> intro e <;> subst e <;> revert h <;> decide

theorem toUInt_number (n : Nat) (h : n < 4294967296) : toUInt (number n) = n := by
  unfold toUInt
  rw [trimmed_of_none _ (fun c hc => isDigit_not_space c (number_digits n c hc))]
  have hp := parseNat_number n
  have hne := number_ne_nil n
  cases hq : number n with
  | nil => exact absurd hq hne
  | cons c cs =>
    have hc : c.isDigit = true := number_digits n c (by simp [hq])
    have hplus : c ≠ '+' := by intro e; rw [e] at hc; revert hc; decide
    rw [hq] at hp
    split
    · rename_i cs' heq
      exact absurd (List.cons.inj heq).1 hplus
    · simp [hp, h]

theorem number_not_mem (n : Nat) (c : Char) (hc : c.isDigit = false) : c ∉ number n := by
  intro h
  rw [number_digits n c h] at hc
  exact Bool.noConfusion hc

theorem QMap.value_insert (k : Nat) (v : QString) (m : QMap QString) :
    QMap.value (QMap.insert k v m) k = v := by
  induction m with
  | nil => simp [QMap.insert, QMap.value, List.lookup]
  | cons e m ih =>
    obtain ⟨k', v'⟩ := e
    unfold QMap.insert
    split
    · simp [QMap.value, List.lookup]
    · split
      · simp [QMap.value, List.lookup]
      · rename_i h1 h2
        have hne : (k == k') = false := by simpa using h2
        simpa [QMap.value, List.lookup, hne] using ih

theorem statusFrame_refl (s : Grbl) : statusFrame s s := rfl

theorem statusFrame_trans (a b c : Grbl) (h1 : statusFrame a b) (h2 : statusFrame b c) :
    statusFrame a c := by
  unfold statusFrame at *
  rw [h2, h1]

theorem ite_induction {α : Type} (Q : α → Prop) (c : Prop) [Decidable c] (a b : α)
    (ha : c → Q a) (hb : ¬ c → Q b) : Q (if c then a else b) := by
  by_cases h : c
  · rw [if_pos h]; exact ha h
  · rw [if_neg h]; exact hb h

theorem parseStatusField_cases (Q : StatusLoop → Prop) (st : StatusLoop) (b : QString)
    (hWPos : startsWith b "WPos:".toList = true →
      Q (parseStatusWPos st (right b ((b.length : Int) - 5))))
    (hMPos : startsWith b "MPos:".toList = true →
      Q (parseStatusMPos st (right b ((b.length : Int) - 5))))
    (hBf : startsWith b "Bf:".toList = true →
      Q (parseStatusBf st (right b ((b.length : Int) - 3))))
    (hLn : startsWith b "Ln:".toList = true →
      Q (parseStatusLn st (right b ((b.length : Int) - 3))))
    (hFS : startsWith b "FS:".toList = true →
      Q (parseStatusFS st (right b ((b.length : Int) - 3))))
    (hF : startsWith b "F:".toList = true →
      Q (parseStatusF st (right b ((b.length : Int) - 2))))
    (hPn : startsWith b "Pn:".toList = true →
      Q (parseStatusPn st (right b ((b.length : Int) - 3))))
    (hWCO : startsWith b "WCO:".toList = true →
      Q (parseStatusWCO st (right b ((b.length : Int) - 4))))
    (hOv : startsWith b "Ov:".toList = true →
      Q (parseStatusOv st (right b ((b.length : Int) - 3))))
    (hA : startsWith b "A:".toList = true →
      Q (parseStatusA st (right b ((b.length : Int) - 2))))
    (hnone : Q st) : Q (parseStatusField st b) := by
  unfold parseStatusField
  refine ite_induction Q _ _ _ hWPos fun _ => ?_
  refine ite_induction Q _ _ _ hMPos fun _ => ?_
  refine ite_induction Q _ _ _ hBf fun _ => ?_
  refine ite_induction Q _ _ _ hLn fun _ => ?_
  refine ite_induction Q _ _ _ hFS fun _ => ?_
  refine ite_induction Q _ _ _ hF fun _ => ?_
  refine ite_induction Q _ _ _ hPn fun _ => ?_
  refine ite_induction Q _ _ _ hWCO fun _ => ?_
  refine ite_induction Q _ _ _ hOv fun _ => ?_
  exact ite_induction Q _ _ _ hA fun _ => hnone

theorem fieldEffect_refl (st : StatusLoop) : fieldEffect st st :=
  ⟨rfl, [], by simp, by simp⟩

theorem parseStatusWPos_effect (st : StatusLoop) (blk : QString) :
    fieldEffect st (parseStatusWPos st blk) := by
  obtain ⟨s, na, ns, r⟩ := st
  unfold parseStatusWPos
  split
  · dsimp only
    split_ifs
    all_goals first
      | exact ⟨rfl, [Signal.coordinatesUpdated], rfl, by simp⟩
      | exact ⟨rfl, [], by simp, by simp⟩
  · exact fieldEffect_refl _

theorem parseStatusMPos_effect (st : StatusLoop) (blk : QString) :
    fieldEffect st (parseStatusMPos st blk) := by
  obtain ⟨s, na, ns, r⟩ := st
  unfold parseStatusMPos
  split
  · dsimp only
    split_ifs
    all_goals first
      | exact ⟨rfl, [Signal.coordinatesUpdated], rfl, by simp⟩
      | exact ⟨rfl, [], by simp, by simp⟩
  · exact fieldEffect_refl _

theorem parseStatusWCO_effect (st : StatusLoop) (blk : QString) :
    fieldEffect st (parseStatusWCO st blk) := by
  obtain ⟨s, na, ns, r⟩ := st
  unfold parseStatusWCO
  split
  · dsimp only
    split_ifs
    all_goals first
      | exact ⟨rfl, [Signal.coordinatesUpdated], rfl, by simp⟩
      | exact ⟨rfl, [], by simp, by simp⟩
  · exact ⟨rfl, [], by simp, by simp⟩

theorem parseStatusBf_effect (st : StatusLoop) (blk : QString) :
    fieldEffect st (parseStatusBf st blk) := by
  obtain ⟨s, na, ns, r⟩ := st
  unfold parseStatusBf
  split
  · dsimp only
    split_ifs
    · exact ⟨rfl, [Signal.buffersUpdated], rfl, by simp⟩
    · exact ⟨rfl, [], by simp, by simp⟩
  · exact fieldEffect_refl _

theorem parseStatusLn_effect (st : StatusLoop) (blk : QString) :
    fieldEffect st (parseStatusLn st blk) := by
  obtain ⟨s, na, ns, r⟩ := st
  unfold parseStatusLn
  split
  · dsimp only
    split_ifs
    · exact ⟨rfl, [Signal.lineNumberUpdated], rfl, by simp⟩
    · exact ⟨rfl, [], by simp, by simp⟩
  · exact fieldEffect_refl _

theorem parseStatusFS_effect (st : StatusLoop) (blk : QString) :
    fieldEffect st (parseStatusFS st blk) := by
  obtain ⟨s, na, ns, r⟩ := st
  unfold parseStatusFS
  split
  · dsimp only
    split_ifs
    · exact ⟨rfl, [Signal.ratesUpdated], rfl, by simp⟩
    · exact ⟨rfl, [], by simp, by simp⟩
  · exact fieldEffect_refl _

theorem parseStatusF_effect (st : StatusLoop) (blk : QString) :
    fieldEffect st (parseStatusF st blk) := by
  obtain ⟨s, na, ns, r⟩ := st
  unfold parseStatusF
  dsimp only
  split_ifs
  · exact ⟨rfl, [Signal.ratesUpdated], rfl, by simp⟩
  · exact ⟨rfl, [], by simp, by simp⟩

theorem parseStatusOv_effect (st : StatusLoop) (blk : QString) :
    fieldEffect st (parseStatusOv st blk) := by
  obtain ⟨s, na, ns, r⟩ := st
  unfold parseStatusOv
  split
  · exact ⟨rfl, [], by simp, by simp⟩
  · exact fieldEffect_refl _

theorem parseStatusField_frame (st : StatusLoop) (b : QString) :
    fieldEffect st (parseStatusField st b) := by
  apply parseStatusField_cases (fun st' => fieldEffect st st')
  · exact fun _ => parseStatusWPos_effect st _
  · exact fun _ => parseStatusMPos_effect st _
  · exact fun _ => parseStatusBf_effect st _
  · exact fun _ => parseStatusLn_effect st _
  · exact fun _ => parseStatusFS_effect st _
  · exact fun _ => parseStatusF_effect st _
  · intro _; exact ⟨rfl, [], by simp [parseStatusPn], by simp⟩
  · exact fun _ => parseStatusWCO_effect st _
  · exact fun _ => parseStatusOv_effect st _
  · intro _; exact ⟨rfl, [], by simp [parseStatusA], by simp⟩
  · exact fieldEffect_refl st

/-! ## Theorems: configuration lines -/

/-- C1: configuration round trip. For an ordinary setting key `k` (a `uint` other
than the two reserved starting-block keys) written in canonical decimal and a value
`v` without `=`, parsing `$k=v` and building the configuration-write line for key
`k` from the stored value gives `$k=v` again; and, the two reserved keys being
consecutive, for `j` in {0, 1} parsing `$Nj=v` and building the write line for the
reserved key of block `j` gives `$Nj=v` again. -/
theorem parseConfig_writeConfiguration_round_trip (K : Consts) (s : Grbl) (v : QString)
    (hv : '=' ∉ v) :
    (∀ k : Nat, k < 4294967296 → k ≠ K.configStartingBlock0 → k ≠ K.configStartingBlock1 →
      writeConfigurationCmd K k
          (QMap.value (parseConfig K s ('$' :: number k ++ '=' :: v)).config k)
        = '$' :: number k ++ '=' :: v) ∧
    (K.configStartingBlock1 = K.configStartingBlock0 + 1 →
      K.configStartingBlock1 < 4294967296 →
      ∀ j : Nat, j ≤ 1 →
        writeConfigurationCmd K (K.configStartingBlock0 + j)
            (QMap.value (parseConfig K s ("$N".toList ++ number j ++ '=' :: v)).config
              (K.configStartingBlock0 + j))
          = "$N".toList ++ number j ++ '=' :: v) := by
  constructor
  · intro k hk h0 h1
    have hsplit : split '=' (number k ++ '=' :: v) = [number k, v] := by
      rw [split_append_sep _ _ _ (number_not_mem k '=' (by decide)), split_of_not_mem _ _ hv]
    have hblock : right ('$' :: number k ++ '=' :: v)
        ((('$' :: number k ++ '=' :: v).length : Int) - 1) = number k ++ '=' :: v := by
      have := right_drop_left ['$'] (number k ++ '=' :: v) (by simp)
      simpa using this
    have hN : startsWith ('$' :: number k ++ '=' :: v) "$N".toList = false := by
      have hne := number_ne_nil k
      cases hq : number k with
      | nil => exact absurd hq hne
      | cons c cs =>
        have hc : c.isDigit = true := number_digits k c (by simp [hq])
        have : ¬ 'N' = c := by intro e; rw [← e] at hc; revert hc; decide
        simp [startsWith, List.isPrefixOf, this]
    have hD : startsWith ('$' :: number k ++ '=' :: v) "$".toList = true := by
      simp [startsWith, List.isPrefixOf]
    unfold parseConfig
    simp only [hN, hD, hblock, hsplit, toUInt_number k hk, if_true, Bool.false_eq_true,
      if_false]
    rw [QMap.value_insert]
    simp [writeConfigurationCmd, h0, h1]
  · intro hcons hlt j hj
    have hj32 : j < 4294967296 := by omega
    have hsplit : split '=' (number j ++ '=' :: v) = [number j, v] := by
      rw [split_append_sep _ _ _ (number_not_mem j '=' (by decide)), split_of_not_mem _ _ hv]
    have hblock : right ("$N".toList ++ number j ++ '=' :: v)
        ((("$N".toList ++ number j ++ '=' :: v).length : Int) - 2) = number j ++ '=' :: v := by
      have := right_drop_left "$N".toList (number j ++ '=' :: v) (by simp)
      simpa using this
    have hN : startsWith ("$N".toList ++ number j ++ '=' :: v) "$N".toList = true := by
      simp [startsWith, List.isPrefixOf]
    have hslot : (j + K.configStartingBlock0) % 4294967296 = K.configStartingBlock0 + j := by
      rw [Nat.mod_eq_of_lt (by omega)]; omega
    have hback : (K.configStartingBlock0 + j + 4294967296 - K.configStartingBlock0)
        % 4294967296 = j := by
      rw [show K.configStartingBlock0 + j + 4294967296 - K.configStartingBlock0
        = j + 4294967296 by omega]
      simp [Nat.mod_eq_of_lt hj32]
    have hkey : K.configStartingBlock0 + j = K.configStartingBlock0 ∨
        K.configStartingBlock0 + j = K.configStartingBlock1 := by omega
    unfold parseConfig
    simp only [hN, hblock, hsplit, toUInt_number j hj32, if_true, hslot]
    rw [QMap.value_insert]
    unfold writeConfigurationCmd
    rw [if_pos hkey, hback]

/-! ## Lemmas on the status parser -/

theorem foldl_invariant {α β : Type} (f : α → β → α) (P : α → Prop) (l : List β)
    (hstep : ∀ a b, b ∈ l → P a → P (f a b)) (a : α) (ha : P a) : P (l.foldl f a) := by
  induction l generalizing a with
  | nil => exact ha
  | cons b l ih =>
    exact ih (fun a' b' hb' => hstep a' b' (List.mem_cons_of_mem _ hb')) _
      (hstep a b (by simp) ha)

theorem parseStatusWPos_view (st : StatusLoop) (block : QString) (c : CoordinatesType)
    (h : coordsOf block = some c) :
    coordView (parseStatusWPos st block).s =
      { coordView st.s with
        working := c
        hasWorking := true
        machine := if (coordView st.s).hasOffset then addCoords c (coordView st.s).offset
          else (coordView st.s).machine
        hasMachine := (coordView st.s).hasOffset || (coordView st.s).hasMachine } ∧
    (parseStatusWPos st block).raised =
      (if (coordView st.s).working ≠ c ∨ (coordView st.s).first = true ∨
          ((coordView st.s).hasOffset = true ∧
            (coordView st.s).machine ≠ addCoords c (coordView st.s).offset)
        then st.raised ++ [Signal.coordinatesUpdated] else st.raised) ∧
    (parseStatusWPos st block).newSwitches = st.newSwitches ∧
    (parseStatusWPos st block).newActioners = st.newActioners := by
  unfold coordsOf at h
  unfold parseStatusWPos
  split at h
  · rename_i a b d heq
    cases h
    simp only [coordView, addCoords]
    by_cases hwo : st.s.infos.flagHasWorkingOffset = true <;>
      by_cases hf : st.s.first = true <;>
      by_cases hw : st.s.workingCoordinates = ⟨toDouble a, toDouble b, toDouble d⟩ <;>
      by_cases hm : st.s.machineCoordinates = ⟨toDouble a + st.s.workingOffset.x,
        toDouble b + st.s.workingOffset.y, toDouble d + st.s.workingOffset.z⟩ <;>
      simp [hwo, hf, hw, hm]
  · exact absurd h (by simp)

theorem parseStatusMPos_view (st : StatusLoop) (block : QString) (c : CoordinatesType)
    (h : coordsOf block = some c) :
    coordView (parseStatusMPos st block).s =
      { coordView st.s with
        machine := c
        hasMachine := true
        working := if (coordView st.s).hasOffset then subCoords c (coordView st.s).offset
          else (coordView st.s).working
        hasWorking := (coordView st.s).hasOffset || (coordView st.s).hasWorking } ∧
    (parseStatusMPos st block).raised =
      (if (coordView st.s).working ≠ c ∨ (coordView st.s).first = true ∨
          ((coordView st.s).hasOffset = true ∧
            (coordView st.s).working ≠ subCoords c (coordView st.s).offset)
        then st.raised ++ [Signal.coordinatesUpdated] else st.raised) ∧
    (parseStatusMPos st block).newSwitches = st.newSwitches ∧
    (parseStatusMPos st block).newActioners = st.newActioners := by
  unfold coordsOf at h
  unfold parseStatusMPos
  split at h
  · rename_i a b d heq
    cases h
    obtain ⟨s, na, ns, r⟩ := st
    simp only [coordView, subCoords]
    by_cases hwo : s.infos.flagHasWorkingOffset = true <;>
      by_cases hf : s.first = true <;>
      simp only [hwo, hf, if_true, if_false, Bool.or_true, Bool.or_false, Bool.true_or,
        Bool.false_or, ne_eq, decide_not, true_or, or_true, false_or, or_false, true_and,
        Bool.false_eq_true, false_and, not_false_eq_true, not_true_eq_false]
    all_goals (split_ifs <;> simp_all)
  · exact absurd h (by simp)

theorem parseStatusWPos_malformed (st : StatusLoop) (block : QString)
    (h : coordsOf block = none) : parseStatusWPos st block = st := by
  unfold coordsOf at h
  unfold parseStatusWPos
  split at h
  · exact absurd h (by simp)
  · rfl

theorem parseStatusMPos_malformed (st : StatusLoop) (block : QString)
    (h : coordsOf block = none) : parseStatusMPos st block = st := by
  unfold coordsOf at h
  unfold parseStatusMPos
  split at h
  · exact absurd h (by simp)
  · rfl

theorem parseStatusWCO_view (st : StatusLoop) (block : QString) (c : CoordinatesType)
    (h : coordsOf block = some c) :
    coordView (parseStatusWCO st block).s =
      { coordView st.s with
        offset := c
        hasOffset := true
        hasMachine := true
        hasWorking := true
        machine := if (coordView st.s).hasMachine then (coordView st.s).machine
          else addCoords (coordView st.s).working c
        working := if (coordView st.s).hasWorking then (coordView st.s).working
          else subCoords (if (coordView st.s).hasMachine then (coordView st.s).machine
            else addCoords (coordView st.s).working c) c } ∧
    (parseStatusWCO st block).raised =
      (if (coordView st.s).offset ≠ c ∨ (coordView st.s).hasMachine = false ∨
          (coordView st.s).hasWorking = false
        then st.raised ++ [Signal.coordinatesUpdated] else st.raised) ∧
    (parseStatusWCO st block).newSwitches = st.newSwitches ∧
    (parseStatusWCO st block).newActioners = st.newActioners := by
  unfold coordsOf at h
  unfold parseStatusWCO
  split at h
  · rename_i a b d heq
    cases h
    simp only [coordView, subCoords, addCoords]
    by_cases hmc : st.s.infos.flagHasMachineCoords = true <;>
      by_cases hwc : st.s.infos.flagHasWorkingCoords = true <;>
      by_cases ho : st.s.workingOffset = ⟨toDouble a, toDouble b, toDouble d⟩ <;>
      simp [hmc, hwc, ho]
  · exact absurd h (by simp)

theorem parseStatusWCO_malformed (st : StatusLoop) (block : QString)
    (h : coordsOf block = none) :
    coordView (parseStatusWCO st block).s = { coordView st.s with hasOffset := true } ∧
    (parseStatusWCO st block).raised = st.raised ∧
    (parseStatusWCO st block).newSwitches = st.newSwitches ∧
    (parseStatusWCO st block).newActioners = st.newActioners := by
  unfold coordsOf at h
  unfold parseStatusWCO
  split at h
  · exact absurd h (by simp)
  · simp [coordView]

theorem startsWith_iff (b p : QString) : startsWith b p = true ↔ ∃ t, b = p ++ t := by
  unfold startsWith
  rw [List.isPrefixOf_iff_prefix]
  constructor
  · rintro ⟨t, ht⟩; exact ⟨t, ht.symm⟩
  · rintro ⟨t, ht⟩; exact ⟨t, ht.symm⟩

theorem parseStatusField_WPos (st : StatusLoop) (b : QString)
    (h : startsWith b "WPos:".toList = true) :
    parseStatusField st b = parseStatusWPos st (right b ((b.length : Int) - 5)) := by
  unfold parseStatusField
  rw [if_pos h]

theorem parseStatusField_MPos (st : StatusLoop) (b : QString)
    (h : startsWith b "MPos:".toList = true) :
    parseStatusField st b = parseStatusMPos st (right b ((b.length : Int) - 5)) := by
  obtain ⟨t, rfl⟩ := (startsWith_iff _ _).mp h
  simp [parseStatusField, startsWith, List.isPrefixOf]

theorem parseStatusField_WCO (st : StatusLoop) (b : QString)
    (h : startsWith b "WCO:".toList = true) :
    parseStatusField st b = parseStatusWCO st (right b ((b.length : Int) - 4)) := by
  obtain ⟨t, rfl⟩ := (startsWith_iff _ _).mp h
  simp [parseStatusField, startsWith, List.isPrefixOf]

theorem parseStatusField_other (st : StatusLoop) (b : QString)
    (h1 : startsWith b "WPos:".toList = false) (h2 : startsWith b "MPos:".toList = false)
    (h3 : startsWith b "WCO:".toList = false) :
    coordView (parseStatusField st b).s = coordView st.s ∧
    ∃ extra, (parseStatusField st b).raised = st.raised ++ extra ∧
      ∀ sig ∈ extra, sig = Signal.buffersUpdated ∨ sig = Signal.lineNumberUpdated ∨
        sig = Signal.ratesUpdated := by
  obtain ⟨s, na, ns, r⟩ := st
  unfold parseStatusField
  simp only [h1, h2, h3, Bool.false_eq_true, if_false]
  split_ifs
  · unfold parseStatusBf
    split
    · dsimp only
      split_ifs
      · exact ⟨rfl, [Signal.buffersUpdated], rfl, by simp⟩
      · exact ⟨rfl, [], by simp, by simp⟩
    · exact ⟨rfl, [], by simp, by simp⟩
  · unfold parseStatusLn
    split
    · dsimp only
      split_ifs
      · exact ⟨rfl, [Signal.lineNumberUpdated], rfl, by simp⟩
      · exact ⟨rfl, [], by simp, by simp⟩
    · exact ⟨rfl, [], by simp, by simp⟩
  · unfold parseStatusFS
    split
    · dsimp only
      split_ifs
      · exact ⟨rfl, [Signal.ratesUpdated], rfl, by simp⟩
      · exact ⟨rfl, [], by simp, by simp⟩
    · exact ⟨rfl, [], by simp, by simp⟩
  · unfold parseStatusF
    dsimp only
    split_ifs
    · exact ⟨rfl, [Signal.ratesUpdated], rfl, by simp⟩
    · exact ⟨rfl, [], by simp, by simp⟩
  · exact ⟨rfl, [], by simp [parseStatusPn], by simp⟩
  · unfold parseStatusOv
    split
    · exact ⟨rfl, [], by simp, by simp⟩
    · exact ⟨rfl, [], by simp, by simp⟩
  · exact ⟨rfl, [], by simp [parseStatusA], by simp⟩
  · exact ⟨rfl, [], by simp, by simp⟩

theorem parseStatusHold_view (s : Grbl) (b : QString) (ns : StateType) :
    coordView (parseStatusHold s b ns).1 = coordView s := by
  unfold parseStatusHold
  dsimp only
  split_ifs <;> rfl

theorem parseStatusDoor_view (s : Grbl) (b : QString) (ns : StateType) :
    coordView (parseStatusDoor s b ns).1 = coordView s := by
  unfold parseStatusDoor
  split_ifs <;> rfl

theorem parseStatusCommit_view (s : Grbl) (ns : StateType) :
    coordView (parseStatusCommit s ns).1 = coordView s ∧
    ((parseStatusCommit s ns).2 = [] ∨ (parseStatusCommit s ns).2 = [Signal.stateUpdated]) := by
  unfold parseStatusCommit
  split_ifs
  · exact ⟨rfl, Or.inr rfl⟩
  · exact ⟨rfl, Or.inl rfl⟩

theorem parseStatusState_view (s : Grbl) (b : QString) :
    coordView (parseStatusState s b).1 = coordView s ∧
    ((parseStatusState s b).2 = [] ∨ (parseStatusState s b).2 = [Signal.stateUpdated]) := by
  unfold parseStatusState
  dsimp only
  refine ⟨?_, (parseStatusCommit_view _ _).2⟩
  rw [(parseStatusCommit_view _ _).1, parseStatusDoor_view, parseStatusHold_view]

theorem parseStatusFinish_view (st : StatusLoop) :
    coordView (parseStatusFinish st).1 = { coordView st.s with first := false } ∧
    (∃ extra, (parseStatusFinish st).2 = st.raised ++ Signal.switchesUpdated :: extra ∧
      (extra = [] ∨ extra = [Signal.actionersUpdated])) ∧
    (parseStatusFinish st).1.switches = st.newSwitches := by
  unfold parseStatusFinish
  dsimp only
  split_ifs
  · exact ⟨rfl, ⟨[Signal.actionersUpdated], by simp, Or.inr rfl⟩, rfl⟩
  · exact ⟨rfl, ⟨[], by simp, Or.inl rfl⟩, rfl⟩

theorem statusBlocks_framed (body : QString) (c d : Char) :
    statusBlocks (c :: body ++ [d]) = split '|' body := by
  unfold statusBlocks
  dsimp only
  have h1 : right (c :: body ++ [d]) (((c :: body ++ [d]).length : Int) - 1) = body ++ [d] := by
    have := right_drop_left [c] (body ++ [d]) (by simp)
    simpa using this
  rw [h1, left_drop_last]

theorem coordsOf_triple (x y z : QString) (hx : ',' ∉ x) (hy : ',' ∉ y) (hz : ',' ∉ z) :
    coordsOf (x ++ ',' :: (y ++ ',' :: z)) = some ⟨toDouble x, toDouble y, toDouble z⟩ := by
  unfold coordsOf
  rw [split_append_sep _ _ _ hx, split_append_sep _ _ _ hy, split_of_not_mem _ _ hz]

theorem coordView_mask (s : Grbl) :
    coordView { s with infos :=
      { flagHasWorkingOffset := s.infos.flagHasWorkingOffset
        flagHasMachineCoords := s.infos.flagHasMachineCoords
        flagHasSwitches := true } } = { coordView s with hasWorking := false } := rfl

theorem statusBlocks_wposLine (tok x y z f sp : QString) (ht : '|' ∉ tok)
    (hx : '|' ∉ x) (hy : '|' ∉ y) (hz : '|' ∉ z) (hf : '|' ∉ f) (hs : '|' ∉ sp) :
    statusBlocks (wposLine tok x y z f sp) =
      [tok, "WPos:".toList ++ (x ++ ',' :: (y ++ ',' :: z)), "FS:".toList ++ (f ++ ',' :: sp)] := by
  unfold wposLine
  rw [statusBlocks_framed, List.append_assoc, List.cons_append,
    split_append_sep _ _ _ ht, split_append_sep _ _ _ (by simp [hx, hy, hz]),
    split_of_not_mem _ _ (by simp [hf, hs])]

theorem parseStatus_wposLine (s : Grbl) (tok x y z f sp : QString) (ht : '|' ∉ tok)
    (hx : '|' ∉ x ∧ ',' ∉ x) (hy : '|' ∉ y ∧ ',' ∉ y) (hz : '|' ∉ z ∧ ',' ∉ z)
    (hf : '|' ∉ f) (hs : '|' ∉ sp) :
    coordView (parseStatus s (wposLine tok x y z f sp)).1 =
      { coordView s with
        working := ⟨toDouble x, toDouble y, toDouble z⟩
        hasWorking := true
        machine := if (coordView s).hasOffset
          then addCoords ⟨toDouble x, toDouble y, toDouble z⟩ (coordView s).offset
          else (coordView s).machine
        hasMachine := (coordView s).hasOffset || (coordView s).hasMachine
        first := false } ∧
    ∃ pre mid post,
      (parseStatus s (wposLine tok x y z f sp)).2 =
        pre ++ (if (coordView s).working ≠ ⟨toDouble x, toDouble y, toDouble z⟩ ∨
              (coordView s).first = true ∨
              ((coordView s).hasOffset = true ∧ (coordView s).machine ≠
                addCoords ⟨toDouble x, toDouble y, toDouble z⟩ (coordView s).offset)
            then [Signal.coordinatesUpdated] else []) ++ mid ++ Signal.switchesUpdated :: post ∧
      (pre = [] ∨ pre = [Signal.stateUpdated]) ∧
      (∀ sig ∈ mid, sig = Signal.buffersUpdated ∨ sig = Signal.lineNumberUpdated ∨
        sig = Signal.ratesUpdated) ∧
      (post = [] ∨ post = [Signal.actionersUpdated]) := by
  unfold parseStatus
  dsimp only
  rw [statusBlocks_wposLine tok x y z f sp ht hx.1 hy.1 hz.1 hf hs]
  simp only [List.headD_cons, List.tail_cons, List.foldl_cons, List.foldl_nil]
  generalize hs0 : ({ s with infos :=
      { flagHasWorkingOffset := s.infos.flagHasWorkingOffset
        flagHasMachineCoords := s.infos.flagHasMachineCoords
        flagHasSwitches := true } } : Grbl) = s0
  have hv0 : coordView s0 = { coordView s with hasWorking := false } := by
    rw [← hs0]; rfl
  obtain ⟨hvr, hpre⟩ := parseStatusState_view s0 tok
  generalize parseStatusState s0 tok = r at hvr hpre
  generalize hst0 : (⟨r.1, {}, {}, r.2⟩ : StatusLoop) = st0
  have hst0s : coordView st0.s = { coordView s with hasWorking := false } := by
    rw [← hst0]; simp only [hvr, hv0]
  have hst0r : st0.raised = r.2 := by rw [← hst0]
  have hW : parseStatusField st0 ("WPos:".toList ++ (x ++ ',' :: (y ++ ',' :: z))) =
      parseStatusWPos st0 (x ++ ',' :: (y ++ ',' :: z)) := by
    rw [parseStatusField_WPos _ _ (by simp [startsWith, List.isPrefixOf])]
    congr 1
    have := right_drop_left "WPos:".toList (x ++ ',' :: (y ++ ',' :: z)) (by simp)
    simpa using this
  rw [hW]
  obtain ⟨hv1, hr1, -, -⟩ := parseStatusWPos_view st0 _ _ (coordsOf_triple x y z hx.2 hy.2 hz.2)
  generalize parseStatusWPos st0 (x ++ ',' :: (y ++ ',' :: z)) = st1 at hv1 hr1
  obtain ⟨hv2, mid, hr2, hmid⟩ := parseStatusField_other st1 ("FS:".toList ++ (f ++ ',' :: sp))
    (by simp [startsWith, List.isPrefixOf]) (by simp [startsWith, List.isPrefixOf])
    (by simp [startsWith, List.isPrefixOf])
  generalize parseStatusField st1 ("FS:".toList ++ (f ++ ',' :: sp)) = st2 at hv2 hr2
  obtain ⟨hv3, ⟨post, hr3, hpost⟩, -⟩ := parseStatusFinish_view st2
  refine ⟨?_, r.2, mid, post, ?_, hpre, hmid, hpost⟩
  · rw [hv3, hv2, hv1, hst0s]
  · rw [hr3, hr2, hr1, hst0r, hst0s]
    split_ifs <;> simp

theorem parseConfig_writeConfiguration_round_trip_witness :
    '=' ∉ "1000.000".toList ∧
    writeConfigurationCmd K0 110
        (QMap.value (parseConfig K0 {} "$110=1000.000".toList).config 110)
      = "$110=1000.000".toList :=
  ⟨by decide,
   (parseConfig_writeConfiguration_round_trip K0 {} "1000.000".toList (by decide)).1 110
     (by decide) (by decide) (by decide)⟩

theorem numberInt_chars (a : Int) : ∀ c ∈ numberInt a, c.isDigit = true ∨ c = '-' := by
  intro c hc
  unfold numberInt at hc
  split at hc
  · rcases List.mem_cons.mp hc with h | h
    · exact Or.inr h
    · exact Or.inl (number_digits _ c h)
  · exact Or.inl (number_digits _ c hc)

theorem toInt_numberInt (a : Int) (hlo : -2147483648 ≤ a) (hhi : a ≤ 2147483647) :
    toInt (numberInt a) = a := by
  have htrim : trimmed (numberInt a) = numberInt a := by
    apply trimmed_of_none
    intro c hc
    rcases numberInt_chars a c hc with h | h
    · exact isDigit_not_space c h
    · subst h; decide
  unfold toInt
  rw [htrim]
  have hparse : parseInt (numberInt a) = some a := by
    unfold numberInt
    split
    · rename_i hneg
      simp only [parseInt, parseNat_number, Option.map_some']
      rw [Int.ofNat_natAbs_of_nonpos (le_of_lt hneg)]
      simp
    · rename_i hpos
      have hne := number_ne_nil a.natAbs
      cases hq : number a.natAbs with
      | nil => exact absurd hq hne
      | cons c cs =>
        have hc : c.isDigit = true := number_digits a.natAbs c (by simp [hq])
        have h1 : c ≠ '-' := by intro e; rw [e] at hc; revert hc; decide
        have h2 : c ≠ '+' := by intro e; rw [e] at hc; revert hc; decide
        have hp := parseNat_number a.natAbs
        rw [hq] at hp
        unfold parseInt
        split
        · rename_i heq; exact absurd (List.cons.inj heq).1 h1
        · rename_i heq; exact absurd (List.cons.inj heq).1 h2
        · rw [hp]
          simp only [Option.map_some']
          rw [Int.natAbs_of_nonneg (not_lt.mp hpos)]
  rw [hparse]
  simp [hlo, hhi]

theorem parseStatusState_hold (s : Grbl) (t : QString)
    (hchars : ∀ c ∈ t, c.isDigit = true ∨ c = '-') :
    (parseStatusState s ("Hold:".toList ++ t)).1.state = StateType.stateHold ∧
    (parseStatusState s ("Hold:".toList ++ t)).1.holdCode = toInt t ∧
    (parseStatusState s ("Hold:".toList ++ t)).2 =
      (if toInt t ≠ s.holdCode ∨ s.state ≠ StateType.stateHold
        then [Signal.stateUpdated] else []) := by
  have hnot : ∀ (w : QString) (c : Char), c ∈ w → c.isDigit = false → c ≠ '-' → t ≠ w := by
    intro w c hcw hd hm e
    subst e
    rcases hchars c hcw with h | h
    · rw [h] at hd; exact Bool.noConfusion hd
    · exact hm h
  have hJog : t ≠ "Jog".toList := hnot _ 'J' (by decide) (by decide) (by decide)
  have hHome : t ≠ "Home".toList := hnot _ 'H' (by decide) (by decide) (by decide)
  have hAlarm : t ≠ "Alarm".toList := hnot _ 'A' (by decide) (by decide) (by decide)
  have hCheck : t ≠ "Check".toList := hnot _ 'C' (by decide) (by decide) (by decide)
  have hSleep : t ≠ "Sleep".toList := hnot _ 'S' (by decide) (by decide) (by decide)
  have hDoor : startsWith t "Door:".toList = false := by
    cases hsw : startsWith t "Door:".toList with
    | false => rfl
    | true =>
      obtain ⟨rest, hrest⟩ := (startsWith_iff _ _).mp hsw
      have hD : 'D' ∈ t := by rw [hrest]; simp
      rcases hchars 'D' hD with h | h
      · revert h; decide
      · revert h; decide
  have hright : right ("Hold:".toList ++ t) ((("Hold:".toList ++ t).length : Int) - 5) = t := by
    have := right_drop_left "Hold:".toList t (by simp)
    simpa using this
  have hsw : startsWith ("Hold:".toList ++ t) "Hold:".toList = true :=
    (startsWith_iff _ _).mpr ⟨t, rfl⟩
  have hIdle : "Hold:".toList ++ t ≠ "Idle".toList := by simp
  have hRun : "Hold:".toList ++ t ≠ "Run".toList := by simp
  unfold parseStatusState
  dsimp only
  unfold parseStatusHold
  rw [if_pos hsw]
  dsimp only
  rw [hright]
  unfold parseStatusDoor
  rw [if_neg (by rw [hDoor]; simp)]
  dsimp only
  rw [if_neg hSleep, if_neg hCheck, if_neg hAlarm, if_neg hHome, if_neg hJog]
  unfold parseStatusCommit
  by_cases hcode : toInt t = s.holdCode <;> by_cases hst : s.state = StateType.stateHold <;>
    simp [hcode, hst]

theorem fieldEffect_trans (a b c : StatusLoop) (h1 : fieldEffect a b) (h2 : fieldEffect b c) :
    fieldEffect a c := by
  obtain ⟨hf1, e1, hr1, he1⟩ := h1
  obtain ⟨hf2, e2, hr2, he2⟩ := h2
  refine ⟨statusFrame_trans _ _ _ hf1 hf2, e1 ++ e2, by rw [hr2, hr1, List.append_assoc], ?_⟩
  intro sig hsig
  rcases List.mem_append.mp hsig with h | h
  · exact he1 sig h
  · exact he2 sig h

theorem foldl_fieldEffect (fields : List QString) (st : StatusLoop) :
    fieldEffect st (fields.foldl parseStatusField st) := by
  induction fields generalizing st with
  | nil => exact fieldEffect_refl st
  | cons b bs ih =>
    exact fieldEffect_trans _ _ _ (parseStatusField_frame st b) (ih _)

theorem statusFrame_state (a b : Grbl) (h : statusFrame a b) :
    b.state = a.state ∧ b.holdCode = a.holdCode ∧ b.doorCode = a.doorCode := by
  unfold statusFrame at h
  refine ⟨?_, ?_, ?_⟩ <;> rw [h]

theorem parseStatusFinish_state (st : StatusLoop) :
    (parseStatusFinish st).1.state = st.s.state ∧
    (parseStatusFinish st).1.holdCode = st.s.holdCode ∧
    (parseStatusFinish st).1.doorCode = st.s.doorCode := by
  unfold parseStatusFinish
  dsimp only
  split_ifs <;> exact ⟨rfl, rfl, rfl⟩

/-- The state part of `parseStatus` is decided by the state token alone: the
fields and the end of the function neither change `state`, `holdCode`, `doorCode`
nor raise `stateUpdated`. -/
theorem parseStatus_state (s : Grbl) (line : QString) :
    ∃ s0 : Grbl, s0.state = s.state ∧ s0.holdCode = s.holdCode ∧ s0.doorCode = s.doorCode ∧
      (parseStatus s line).1.state = (parseStatusState s0 (statusToken line)).1.state ∧
      (parseStatus s line).1.holdCode = (parseStatusState s0 (statusToken line)).1.holdCode ∧
      (parseStatus s line).1.doorCode = (parseStatusState s0 (statusToken line)).1.doorCode ∧
      (parseStatus s line).2.count Signal.stateUpdated =
        (parseStatusState s0 (statusToken line)).2.count Signal.stateUpdated := by
  refine ⟨{ s with infos :=
      { flagHasWorkingOffset := s.infos.flagHasWorkingOffset
        flagHasMachineCoords := s.infos.flagHasMachineCoords
        flagHasSwitches := true } }, rfl, rfl, rfl, ?_⟩
  unfold parseStatus statusToken
  dsimp only
  generalize parseStatusState _ ((statusBlocks line).headD []) = r
  obtain ⟨hframe, extra, hraised, hextra⟩ :=
    foldl_fieldEffect (statusBlocks line).tail ⟨r.1, {}, {}, r.2⟩
  generalize List.foldl parseStatusField _ (statusBlocks line).tail = st at hframe hraised
  obtain ⟨h1, h2, h3⟩ := statusFrame_state _ _ hframe
  obtain ⟨g1, g2, g3⟩ := parseStatusFinish_state st
  obtain ⟨-, ⟨post, hpost, hpostc⟩, -⟩ := parseStatusFinish_view st
  refine ⟨by rw [g1, h1], by rw [g2, h2], by rw [g3, h3], ?_⟩
  rw [hpost, hraised]
  have hex : extra.count Signal.stateUpdated = 0 := by
    apply List.count_eq_zero_of_not_mem
    intro hm
    rcases hextra _ hm with h | h | h | h <;> exact Signal.noConfusion h
  have hpc : post.count Signal.stateUpdated = 0 := by
    rcases hpostc with h | h <;> rw [h] <;> decide
  simp [List.count_append, List.count_cons, hex, hpc]

theorem parseStatusField_Pn (st : StatusLoop) (b : QString)
    (h : startsWith b "Pn:".toList = true) :
    parseStatusField st b = parseStatusPn st (right b ((b.length : Int) - 3)) := by
  obtain ⟨t, rfl⟩ := (startsWith_iff _ _).mp h
  simp [parseStatusField, startsWith, List.isPrefixOf]

theorem SwitchFlags.eq_of (a b : SwitchFlags) (h1 : a.switchProbe = b.switchProbe)
    (h2 : a.switchLimitX = b.switchLimitX) (h3 : a.switchLimitY = b.switchLimitY)
    (h4 : a.switchLimitZ = b.switchLimitZ) (h5 : a.switchDoor = b.switchDoor)
    (h6 : a.switchReset = b.switchReset) (h7 : a.switchFeedHold = b.switchFeedHold)
    (h8 : a.switchCycleStart = b.switchCycleStart) : a = b := by
  cases a; cases b; simp_all

theorem parseStatusPn_newSwitches (st : StatusLoop) (p : QString) :
    (parseStatusPn st p).newSwitches = orSwitches st.newSwitches (decodeSwitches [p]) := by
  obtain ⟨s, na, ns, r⟩ := st
  simp only [parseStatusPn, orSwitches, decodeSwitches, List.any_cons, List.any_nil,
    Bool.or_false]
  apply SwitchFlags.eq_of
  · simp only [apply_ite SwitchFlags.switchProbe, ite_self]
    cases containsChar p 'P' <;> simp
  · simp only [apply_ite SwitchFlags.switchLimitX, ite_self]
    cases containsChar p 'X' <;> simp
  · simp only [apply_ite SwitchFlags.switchLimitY, ite_self]
    cases containsChar p 'Y' <;> simp
  · simp only [apply_ite SwitchFlags.switchLimitZ, ite_self]
    cases containsChar p 'Z' <;> simp
  · simp only [apply_ite SwitchFlags.switchDoor, ite_self]
    cases containsChar p 'D' <;> simp
  · simp only [apply_ite SwitchFlags.switchReset, ite_self]
    cases containsChar p 'R' <;> simp
  · simp only [apply_ite SwitchFlags.switchFeedHold, ite_self]
    cases containsChar p 'H' <;> simp
  · simp only [apply_ite SwitchFlags.switchCycleStart, ite_self]
    cases containsChar p 'S' <;> simp

theorem parseStatusField_newSwitches_of_not_Pn (st : StatusLoop) (b : QString)
    (h : startsWith b "Pn:".toList = false) :
    (parseStatusField st b).newSwitches = st.newSwitches := by
  obtain ⟨s, na, ns, r⟩ := st
  apply parseStatusField_cases (fun st' => st'.newSwitches = ns)
  · intro _; unfold parseStatusWPos; split
    · dsimp only; split_ifs <;> rfl
    · rfl
  · intro _; unfold parseStatusMPos; split
    · dsimp only; split_ifs <;> rfl
    · rfl
  · intro _; unfold parseStatusBf; split
    · dsimp only; split_ifs <;> rfl
    · rfl
  · intro _; unfold parseStatusLn; split
    · dsimp only; split_ifs <;> rfl
    · rfl
  · intro _; unfold parseStatusFS; split
    · dsimp only; split_ifs <;> rfl
    · rfl
  · intro _; unfold parseStatusF; dsimp only; split_ifs <;> rfl
  · intro hp; rw [h] at hp; exact Bool.noConfusion hp
  · intro _; unfold parseStatusWCO; split
    · dsimp only; split_ifs <;> rfl
    · rfl
  · intro _; unfold parseStatusOv; split <;> rfl
  · intro _; rfl
  · rfl

theorem orSwitches_assoc (a b c : SwitchFlags) :
    orSwitches (orSwitches a b) c = orSwitches a (orSwitches b c) := by
  simp [orSwitches, Bool.or_assoc]

theorem decodeSwitches_cons (p : QString) (ps : List QString) :
    decodeSwitches (p :: ps) = orSwitches (decodeSwitches [p]) (decodeSwitches ps) := by
  simp [decodeSwitches, orSwitches]

theorem orSwitches_empty (a : SwitchFlags) : orSwitches a (decodeSwitches []) = a := by
  simp [decodeSwitches, orSwitches]

theorem empty_orSwitches (a : SwitchFlags) : orSwitches {} a = a := by
  simp [orSwitches]

theorem pnPayloads_cons_pos (b : QString) (bs : List QString)
    (h : startsWith b "Pn:".toList = true) :
    pnPayloads (b :: bs) = right b ((b.length : Int) - 3) :: pnPayloads bs := by
  unfold pnPayloads
  rw [List.filter_cons, if_pos h, List.map_cons]

theorem pnPayloads_cons_neg (b : QString) (bs : List QString)
    (h : startsWith b "Pn:".toList = false) : pnPayloads (b :: bs) = pnPayloads bs := by
  unfold pnPayloads
  rw [List.filter_cons, if_neg (by rw [h]; exact Bool.false_ne_true)]

theorem pnPayloads_append (l1 l2 : List QString) :
    pnPayloads (l1 ++ l2) = pnPayloads l1 ++ pnPayloads l2 := by
  unfold pnPayloads
  rw [List.filter_append, List.map_append]

theorem pnPayloads_none (l : List QString) (hl : ∀ b ∈ l, startsWith b "Pn:".toList = false) :
    pnPayloads l = [] := by
  induction l with
  | nil => rfl
  | cons b bs ih =>
    rw [pnPayloads_cons_neg b bs (hl b (by simp)), ih (fun c hc => hl c (List.mem_cons_of_mem _ hc))]

theorem foldl_newSwitches (fields : List QString) (st : StatusLoop) :
    (fields.foldl parseStatusField st).newSwitches =
      orSwitches st.newSwitches (decodeSwitches (pnPayloads fields)) := by
  induction fields generalizing st with
  | nil => simp [pnPayloads, orSwitches_empty]
  | cons b bs ih =>
    rw [List.foldl_cons, ih]
    by_cases h : startsWith b "Pn:".toList = true
    · rw [parseStatusField_Pn _ _ h, parseStatusPn_newSwitches, orSwitches_assoc,
        pnPayloads_cons_pos b bs h,
        decodeSwitches_cons (right b ((b.length : Int) - 3)) (pnPayloads bs)]
    · have h' : startsWith b "Pn:".toList = false := by
        cases hq : startsWith b "Pn:".toList with
        | false => rfl
        | true => exact absurd hq h
      rw [parseStatusField_newSwitches_of_not_Pn _ _ h', pnPayloads_cons_neg b bs h']

theorem parseStatusField_mpos_noOffset (st : StatusLoop) (b : QString) (v : CoordView)
    (acc : Option CoordinatesType) (hv : v.hasOffset = false)
    (hst : coordView st.s =
      { v with machine := acc.getD v.machine, hasMachine := v.hasMachine || acc.isSome })
    (h1 : startsWith b "WPos:".toList = false) (h3 : startsWith b "WCO:".toList = false) :
    coordView (parseStatusField st b).s =
      { v with machine := (mposStep acc b).getD v.machine,
               hasMachine := v.hasMachine || (mposStep acc b).isSome } := by
  unfold mposStep
  by_cases h2 : startsWith b "MPos:".toList = true
  · rw [if_pos h2, parseStatusField_MPos _ _ h2]
    cases hc : coordsOf (right b ((b.length : Int) - 5)) with
    | none => rw [parseStatusMPos_malformed _ _ hc]; exact hst
    | some c =>
      rw [(parseStatusMPos_view st _ c hc).1, hst]
      simp [hv]
  · have h2' : startsWith b "MPos:".toList = false := by
      cases hq : startsWith b "MPos:".toList with
      | false => rfl
      | true => exact absurd hq h2
    rw [if_neg h2, (parseStatusField_other st b h1 h2' h3).1]
    exact hst

theorem foldl_mpos_noOffset (fields : List QString) (st : StatusLoop) (v : CoordView)
    (acc : Option CoordinatesType) (hv : v.hasOffset = false)
    (hst : coordView st.s =
      { v with machine := acc.getD v.machine, hasMachine := v.hasMachine || acc.isSome })
    (hno : ∀ b ∈ fields, startsWith b "WPos:".toList = false ∧
      startsWith b "WCO:".toList = false) :
    coordView (fields.foldl parseStatusField st).s =
      { v with machine := (fields.foldl mposStep acc).getD v.machine,
               hasMachine := v.hasMachine || (fields.foldl mposStep acc).isSome } := by
  induction fields generalizing st acc with
  | nil => exact hst
  | cons b bs ih =>
    rw [List.foldl_cons, List.foldl_cons]
    apply ih
    · exact parseStatusField_mpos_noOffset st b v acc hv hst (hno b (by simp)).1
        (hno b (by simp)).2
    · exact fun c hc => hno c (List.mem_cons_of_mem _ hc)

/-- The coordinate view after `parseStatus` of a line without `WPos:` and `WCO:`
fields, received while the working offset is unknown. -/
theorem parseStatus_view_noOffset (s : Grbl) (line : QString)
    (hwo : s.infos.flagHasWorkingOffset = false)
    (hno : ∀ b ∈ statusFields line, startsWith b "WPos:".toList = false ∧
      startsWith b "WCO:".toList = false) :
    coordView (parseStatus s line).1 =
      { coordView s with
        machine := (mposReported (statusFields line)).getD s.machineCoordinates
        hasMachine := s.infos.flagHasMachineCoords || (mposReported (statusFields line)).isSome
        hasWorking := false
        first := false } := by
  unfold parseStatus
  dsimp only
  rw [(parseStatusFinish_view _).1]
  have hfold := foldl_mpos_noOffset (statusFields line)
    ⟨(parseStatusState { s with infos :=
        { flagHasWorkingOffset := s.infos.flagHasWorkingOffset
          flagHasMachineCoords := s.infos.flagHasMachineCoords
          flagHasSwitches := true } } ((statusBlocks line).headD [])).1, {}, {},
      (parseStatusState { s with infos :=
        { flagHasWorkingOffset := s.infos.flagHasWorkingOffset
          flagHasMachineCoords := s.infos.flagHasMachineCoords
          flagHasSwitches := true } } ((statusBlocks line).headD [])).2⟩
    { coordView s with hasWorking := false } none hwo
    (by rw [(parseStatusState_view _ _).1]; simp [coordView])
    hno
  unfold statusFields at hfold
  rw [hfold]
  rfl

theorem addCoords_subCoords (m c : CoordinatesType) : addCoords (subCoords m c) c = m := by
  cases m; cases c; simp [addCoords, subCoords]

theorem foldl_wcoGate (fields : List QString) (st : StatusLoop)
    (hJ : viewConsistent (coordView st.s))
    (hg : wcoGate (coordView st.s).hasOffset (coordView st.s).hasMachine
      (coordView st.s).hasWorking (coordView st.s).offset fields = true) :
    viewConsistent (coordView (fields.foldl parseStatusField st).s) := by
  induction fields generalizing st with
  | nil => exact hJ
  | cons b bs ih =>
    rw [List.foldl_cons]
    unfold wcoGate at hg
    by_cases h1 : startsWith b "WPos:".toList = true
    · rw [if_pos h1] at hg
      rw [parseStatusField_WPos _ _ h1]
      cases hc : coordsOf (right b ((b.length : Int) - 5)) with
      | none =>
        rw [hc] at hg
        rw [parseStatusWPos_malformed _ _ hc]
        exact ih st hJ hg
      | some c =>
        rw [hc] at hg
        have hv := (parseStatusWPos_view st _ c hc).1
        apply ih
        · rw [hv]
          intro hwo
          have hwo' : (coordView st.s).hasOffset = true := hwo
          simp only [hwo', if_true]
        · rw [hv]
          exact hg
    · rw [if_neg h1] at hg
      by_cases h2 : startsWith b "MPos:".toList = true
      · rw [if_pos h2] at hg
        rw [parseStatusField_MPos _ _ h2]
        cases hc : coordsOf (right b ((b.length : Int) - 5)) with
        | none =>
          rw [hc] at hg
          rw [parseStatusMPos_malformed _ _ hc]
          exact ih st hJ hg
        | some c =>
          rw [hc] at hg
          have hv := (parseStatusMPos_view st _ c hc).1
          apply ih
          · rw [hv]
            intro hwo
            have hwo' : (coordView st.s).hasOffset = true := hwo
            simp only [hwo', if_true]
            exact (addCoords_subCoords _ _).symm
          · rw [hv]
            exact hg
      · rw [if_neg h2] at hg
        by_cases h3 : startsWith b "WCO:".toList = true
        · rw [if_pos h3] at hg
          rw [parseStatusField_WCO _ _ h3]
          cases hc : coordsOf (right b ((b.length : Int) - 4)) with
          | none => rw [hc] at hg; exact absurd hg (by simp)
          | some c =>
            rw [hc] at hg
            simp only [Bool.and_eq_true, Bool.or_eq_true, Bool.not_eq_true',
              decide_eq_true_eq] at hg
            obtain ⟨hopen, hrest⟩ := hg
            have hv := (parseStatusWCO_view st _ c hc).1
            apply ih
            · rw [hv]
              intro _
              show (if (coordView st.s).hasMachine = true then (coordView st.s).machine
                  else addCoords (coordView st.s).working c) =
                addCoords (if (coordView st.s).hasWorking = true then (coordView st.s).working
                  else subCoords (if (coordView st.s).hasMachine = true
                    then (coordView st.s).machine
                    else addCoords (coordView st.s).working c) c) c
              rcases hopen with (hmc | hwc) | ⟨hwo, hco⟩
              · rw [hmc]
                by_cases hw : (coordView st.s).hasWorking = true
                · simp [hw]
                · simp [hw, addCoords_subCoords]
              · rw [hwc]
                simp [addCoords_subCoords]
              · by_cases hm : (coordView st.s).hasMachine = true <;>
                  by_cases hw : (coordView st.s).hasWorking = true
                · simp only [hm, hw, if_true]
                  rw [hco]
                  exact hJ hwo
                · simp [hw, addCoords_subCoords]
                · simp [hm, hw]
                · simp [hw, addCoords_subCoords]
            · rw [hv]
              exact hrest
        · rw [if_neg h3] at hg
          have f1 : startsWith b "WPos:".toList = false := by
            cases hq : startsWith b "WPos:".toList with
            | false => rfl
            | true => exact absurd hq h1
          have f2 : startsWith b "MPos:".toList = false := by
            cases hq : startsWith b "MPos:".toList with
            | false => rfl
            | true => exact absurd hq h2
          have f3 : startsWith b "WCO:".toList = false := by
            cases hq : startsWith b "WCO:".toList with
            | false => rfl
            | true => exact absurd hq h3
          have hv := (parseStatusField_other st b f1 f2 f3).1
          apply ih
          · rw [hv]; exact hJ
          · rw [hv]; exact hg

/-! ## Theorems: status reports -/

/-- C2: idempotence of a working-position status line. For a status line made of
a state token, a well-formed `WPos:x,y,z` field and an `FS:f,s` field, delivered
twice in a row to `parseStatus`: the first delivery raises coordinates-changed when
it is the very first status line received, the second delivery does not raise
coordinates-changed, and switches-changed is raised by both deliveries. -/
theorem parseStatus_wpos_twice (s : Grbl) (tok x y z f sp : QString) (ht : '|' ∉ tok)
    (hx : '|' ∉ x ∧ ',' ∉ x) (hy : '|' ∉ y ∧ ',' ∉ y) (hz : '|' ∉ z ∧ ',' ∉ z)
    (hf : '|' ∉ f) (hs : '|' ∉ sp) :
    (s.first = true →
      Signal.coordinatesUpdated ∈ (parseStatus s (wposLine tok x y z f sp)).2) ∧
    Signal.coordinatesUpdated ∉
      (parseStatus (parseStatus s (wposLine tok x y z f sp)).1 (wposLine tok x y z f sp)).2 ∧
    Signal.switchesUpdated ∈ (parseStatus s (wposLine tok x y z f sp)).2 ∧
    Signal.switchesUpdated ∈
      (parseStatus (parseStatus s (wposLine tok x y z f sp)).1 (wposLine tok x y z f sp)).2 := by
  obtain ⟨hv1, pre1, mid1, post1, hr1, -, -, -⟩ :=
    parseStatus_wposLine s tok x y z f sp ht hx hy hz hf hs
  obtain ⟨-, pre2, mid2, post2, hr2, hpre2, hmid2, hpost2⟩ :=
    parseStatus_wposLine (parseStatus s (wposLine tok x y z f sp)).1 tok x y z f sp
      ht hx hy hz hf hs
  refine ⟨?_, ?_, ?_, ?_⟩
  · intro hfirst
    have : (coordView s).first = true := hfirst
    rw [hr1]
    simp [this]
  · rw [hr2, hv1]
    have hcond : ¬ ((⟨toDouble x, toDouble y, toDouble z⟩ : CoordinatesType) ≠
          ⟨toDouble x, toDouble y, toDouble z⟩ ∨ false = true ∨
        ((coordView s).hasOffset = true ∧
          (if (coordView s).hasOffset = true
            then addCoords ⟨toDouble x, toDouble y, toDouble z⟩ (coordView s).offset
            else (coordView s).machine) ≠
          addCoords ⟨toDouble x, toDouble y, toDouble z⟩ (coordView s).offset)) := by
      rintro (h | h | ⟨h1, h2⟩)
      · exact h rfl
      · exact Bool.noConfusion h
      · rw [if_pos h1] at h2; exact h2 rfl
    rw [if_neg hcond]
    intro hmem
    simp only [List.append_nil, List.mem_append, List.mem_cons] at hmem
    rcases hmem with (hmem | hmem) | hmem | hmem
    · rcases hpre2 with h | h <;> rw [h] at hmem <;> simp at hmem
    · rcases hmid2 _ hmem with h | h | h <;> exact Signal.noConfusion h
    · exact Signal.noConfusion hmem
    · rcases hpost2 with h | h <;> rw [h] at hmem <;> simp at hmem
  · rw [hr1]; simp
  · rw [hr2]; simp

theorem parseStatus_wpos_twice_witness :
    wposLine "Idle".toList "0.000".toList "0.000".toList "0.000".toList "0".toList "0".toList
      = "<Idle|WPos:0.000,0.000,0.000|FS:0,0>".toList ∧
    (({} : Grbl).first = true →
      Signal.coordinatesUpdated ∈
        (parseStatus {} "<Idle|WPos:0.000,0.000,0.000|FS:0,0>".toList).2) ∧
    Signal.coordinatesUpdated ∉
      (parseStatus (parseStatus {} "<Idle|WPos:0.000,0.000,0.000|FS:0,0>".toList).1
        "<Idle|WPos:0.000,0.000,0.000|FS:0,0>".toList).2 ∧
    Signal.switchesUpdated ∈
      (parseStatus {} "<Idle|WPos:0.000,0.000,0.000|FS:0,0>".toList).2 ∧
    Signal.switchesUpdated ∈
      (parseStatus (parseStatus {} "<Idle|WPos:0.000,0.000,0.000|FS:0,0>".toList).1
        "<Idle|WPos:0.000,0.000,0.000|FS:0,0>".toList).2 :=
  ⟨by decide,
   parseStatus_wpos_twice {} "Idle".toList "0.000".toList "0.000".toList "0.000".toList
     "0".toList "0".toList (by decide) (by decide) (by decide) (by decide) (by decide)
     (by decide)⟩

/-- C3: Hold sub-code edge. After `parseStatus` has processed a status line whose
state token is `Hold:a`, processing a status line whose state token is `Hold:b`
raises state-changed exactly once if `a ≠ b` and not at all if `a = b`, and the
state is Hold afterwards; `a` and `b` range over the `int` values. -/
theorem parseStatus_hold_subcode (s : Grbl) (line1 line2 : QString) (a b : Int)
    (ha : -2147483648 ≤ a ∧ a ≤ 2147483647) (hb : -2147483648 ≤ b ∧ b ≤ 2147483647)
    (h1 : statusToken line1 = "Hold:".toList ++ numberInt a)
    (h2 : statusToken line2 = "Hold:".toList ++ numberInt b) :
    (parseStatus (parseStatus s line1).1 line2).2.count Signal.stateUpdated
        = (if a ≠ b then 1 else 0) ∧
    (parseStatus (parseStatus s line1).1 line2).1.state = StateType.stateHold := by
  obtain ⟨s0, -, -, -, hst1, hhc1, -, -⟩ := parseStatus_state s line1
  rw [h1] at hst1 hhc1
  obtain ⟨e1, e2, -⟩ := parseStatusState_hold s0 (numberInt a) (numberInt_chars a)
  rw [e1] at hst1
  rw [e2, toInt_numberInt a ha.1 ha.2] at hhc1
  obtain ⟨s1, k1, k2, -, hst2, -, -, hcnt⟩ := parseStatus_state (parseStatus s line1).1 line2
  rw [h2] at hst2 hcnt
  obtain ⟨f1, -, f3⟩ := parseStatusState_hold s1 (numberInt b) (numberInt_chars b)
  rw [f1] at hst2
  rw [f3, toInt_numberInt b hb.1 hb.2, k1, k2, hst1, hhc1] at hcnt
  refine ⟨?_, hst2⟩
  rw [hcnt]
  by_cases hab : a = b
  · subst hab; simp
  · have hba : b ≠ a := fun e => hab e.symm
    simp [hab, hba]

theorem parseStatus_hold_subcode_witness :
    (parseStatus (parseStatus {} "<Hold:0|WPos:0.000,0.000,0.000>".toList).1
        "<Hold:1|WPos:0.000,0.000,0.000>".toList).2.count Signal.stateUpdated
      = (if (0 : Int) ≠ 1 then 1 else 0) ∧
    (parseStatus (parseStatus {} "<Hold:0|WPos:0.000,0.000,0.000>".toList).1
        "<Hold:1|WPos:0.000,0.000,0.000>".toList).1.state = StateType.stateHold :=
  parseStatus_hold_subcode {} "<Hold:0|WPos:0.000,0.000,0.000>".toList
    "<Hold:1|WPos:0.000,0.000,0.000>".toList 0 1 (by decide) (by decide) (by decide) (by decide)

/-- C4: switch decoding is per report. After `parseStatus` processes any status
line, the Switches value is exactly the set decoded from the `Pn:` payload of the
line by the fixed character-to-switch mapping, whatever the Switches value before;
without a `Pn:` field it is the empty set, and with a single `Pn:` field it is the
set decoded from that field. -/
theorem parseStatus_switches (s : Grbl) (line : QString) :
    (parseStatus s line).1.switches = decodeSwitches (pnPayloads (statusFields line)) ∧
    ((∀ b ∈ statusFields line, startsWith b "Pn:".toList = false) →
      (parseStatus s line).1.switches = {}) ∧
    (∀ pre post p,
      statusFields line = pre ++ ("Pn:".toList ++ p) :: post →
      (∀ b ∈ pre ++ post, startsWith b "Pn:".toList = false) →
      (parseStatus s line).1.switches = decodeSwitches [p]) := by
  have main : (parseStatus s line).1.switches
      = decodeSwitches (pnPayloads (statusFields line)) := by
    unfold parseStatus statusFields
    dsimp only
    rw [(parseStatusFinish_view _).2.2, foldl_newSwitches, empty_orSwitches]
  refine ⟨main, ?_, ?_⟩
  · intro hno
    rw [main, pnPayloads_none _ hno]
    rfl
  · intro pre post p hfields hno
    rw [main, hfields]
    have hpre := pnPayloads_none pre (fun b hb => hno b (List.mem_append_left _ hb))
    have hpost := pnPayloads_none post (fun b hb => hno b (List.mem_append_right _ hb))
    have hp : startsWith ("Pn:".toList ++ p) "Pn:".toList = true :=
      (startsWith_iff _ _).mpr ⟨p, rfl⟩
    have hr : right ("Pn:".toList ++ p) ((("Pn:".toList ++ p).length : Int) - 3) = p := by
      have := right_drop_left "Pn:".toList p (by simp)
      simpa using this
    rw [pnPayloads_append, hpre, pnPayloads_cons_pos _ _ hp, hpost, hr]
    rfl

theorem parseStatus_switches_witness :
    (parseStatus {} "<Idle|Pn:PXD>".toList).1.switches =
      { switchProbe := true, switchLimitX := true, switchDoor := true } ∧
    (parseStatus (parseStatus {} "<Idle|Pn:PXD>".toList).1
      "<Idle|WPos:0.000,0.000,0.000>".toList).1.switches = {} :=
  ⟨(parseStatus_switches {} "<Idle|Pn:PXD>".toList).2.2 [] [] "PXD".toList
      (by decide) (by decide),
   (parseStatus_switches (parseStatus {} "<Idle|Pn:PXD>".toList).1
      "<Idle|WPos:0.000,0.000,0.000>".toList).2.1 (by decide)⟩

/-! ## Theorems: command encoder, sequencer entry, banner -/

theorem Consts.later_ne_earlier (K : Consts) (hK : K.distinctCommands) :
    (K.commandCodes.reverse).Nodup := List.nodup_reverse.mpr hK

/-- C5: encoding failure. For each override family (feed, rapid, spindle) and
every sub-command that the family's `switch` does not map, and for every command
code that the outer `switch` does not map, `ask` returns failure and leaves the
whole object unchanged: nothing is handed to the transport. -/
theorem ask_encoding_failure (K : Consts) (s : Grbl) (noLog : Bool)
    (hK : K.distinctCommands) :
    (∀ arg : Int,
      arg ∉ [K.subReset, K.subCoarsePlus, K.subCoarseMinus, K.subFinePlus, K.subFineMinus] →
      ask K s K.commandOverrideFeed arg noLog = (false, s)) ∧
    (∀ arg : Int, arg ∉ [K.subReset, K.subLow, K.subMedium] →
      ask K s K.commandOverrideRapid arg noLog = (false, s)) ∧
    (∀ arg : Int,
      arg ∉ [K.subReset, K.subCoarsePlus, K.subCoarseMinus, K.subFinePlus, K.subFineMinus,
        K.subStop] →
      ask K s K.commandOverrideSpindle arg noLog = (false, s)) ∧
    (∀ code arg : Int, code ∉ K.commandCodes → ask K s code arg noLog = (false, s)) := by
  have hK2 := K.later_ne_earlier hK
  simp only [Consts.commandCodes, List.reverse_cons, List.reverse_nil, List.nil_append,
    List.cons_append, List.nodup_cons, List.mem_cons, List.mem_singleton, not_or,
    List.not_mem_nil, List.nodup_nil, not_false_eq_true, and_true] at hK2
  refine ⟨?_, ?_, ?_, ?_⟩
  · intro arg harg
    simp only [List.mem_cons, List.mem_singleton, not_or, List.not_mem_nil,
      not_false_eq_true, and_true] at harg
    simp [ask, askCommand, hK2, harg]
  · intro arg harg
    simp only [List.mem_cons, List.mem_singleton, not_or, List.not_mem_nil,
      not_false_eq_true, and_true] at harg
    simp [ask, askCommand, hK2, harg]
  · intro arg harg
    simp only [List.mem_cons, List.mem_singleton, not_or, List.not_mem_nil,
      not_false_eq_true, and_true] at harg
    simp [ask, askCommand, hK2, harg]
  · intro code arg hcode
    simp only [Consts.commandCodes, List.mem_cons, List.mem_singleton, not_or,
      List.not_mem_nil, not_false_eq_true, and_true] at hcode
    simp [ask, askCommand, hcode]

theorem ask_encoding_failure_witness :
    K0.distinctCommands ∧
    ask K0 {} K0.commandOverrideFeed K0.subStop false = (false, {}) ∧
    ask K0 {} K0.commandOverrideRapid K0.subCoarsePlus false = (false, {}) ∧
    ask K0 {} K0.commandOverrideSpindle K0.subLow false = (false, {}) ∧
    ask K0 {} 99 0 false = (false, {}) :=
  ⟨by decide,
   (ask_encoding_failure K0 {} false (by decide)).1 K0.subStop (by decide),
   (ask_encoding_failure K0 {} false (by decide)).2.1 K0.subCoarsePlus (by decide),
   (ask_encoding_failure K0 {} false (by decide)).2.2.1 K0.subLow (by decide),
   (ask_encoding_failure K0 {} false (by decide)).2.2.2 99 0 (by decide)⟩

/-- C6: sequencer precondition. In every state other than Idle and Alarm,
`openConfiguration` (called with a widget or as the slot) returns the object
unchanged: no protocol line is sent, and the ConfigStore and the ask-status flag
keep their values. -/
theorem openConfiguration_precondition (K : Consts) (E : Editor) (s : Grbl) (parent : Bool)
    (h : s.state ≠ StateType.stateIdle ∧ s.state ≠ StateType.stateAlarm) :
    openConfiguration K E s parent = s ∧
    (openConfiguration K E s parent).sent = s.sent ∧
    (openConfiguration K E s parent).config = s.config ∧
    (openConfiguration K E s parent).features.flagAskStatus = s.features.flagAskStatus := by
  have e : openConfiguration K E s parent = s := by
    unfold openConfiguration
    rw [if_pos h]
  rw [e]
  exact ⟨rfl, rfl, rfl, rfl⟩

theorem openConfiguration_precondition_witness :
    openConfiguration K0 ⟨fun _ => true, fun g => (true, g.config)⟩
        { state := StateType.stateRun, config := [(110, "1000.000".toList)],
          features := { flagAskStatus := true } } true
      = { state := StateType.stateRun, config := [(110, "1000.000".toList)],
          features := { flagAskStatus := true } } :=
  (openConfiguration_precondition K0 ⟨fun _ => true, fun g => (true, g.config)⟩
    { state := StateType.stateRun, config := [(110, "1000.000".toList)],
      features := { flagAskStatus := true } } true (by decide)).1

theorem sendCommand_sent (s : Grbl) (cmd : QString) (newLine noLog : Bool) :
    (sendCommand s cmd newLine noLog).2 =
      { s with sent := s.sent ++ [(cmd, newLine)], port := s.port.tail } := by
  unfold sendCommand
  split
  · rename_i h; rw [h]; rfl
  · rename_i r rest h; rw [h]; rfl

theorem ask_commandInfos (K : Consts) (s : Grbl) (arg : Int) (noLog : Bool)
    (hK : K.distinctCommands) (hne : K.CMD_INFOS ≠ []) :
    (ask K s K.commandInfos arg noLog).2 =
      { s with sent := s.sent ++ [(K.CMD_INFOS, true)], port := s.port.tail } := by
  have hK2 := K.later_ne_earlier hK
  simp only [Consts.commandCodes, List.reverse_cons, List.reverse_nil, List.nil_append,
    List.cons_append, List.nodup_cons, List.mem_cons, List.mem_singleton, not_or,
    List.not_mem_nil, List.nodup_nil, not_false_eq_true, and_true] at hK2
  have hempty : K.CMD_INFOS.isEmpty = false := by
    cases h : K.CMD_INFOS with
    | nil => exact absurd h hne
    | cons c cs => rfl
  simp [ask, askCommand, hK2, hempty, sendCommand_sent]

/-- C7: banner handling end to end. Dispatching a banner (a line that starts with
`Grbl` and has at least two space-separated tokens) sets the machine name and
version to the first and second token, the state to Unknown, and hands the
view-build-info literal to the transport as a line command; dispatching
`[VER:a:b]` afterwards sets the version to `a`. -/
theorem parse_banner_then_version (K : Consts) (E : Editor) (s : Grbl)
    (line name version : QString) (more : List QString) (a b : QString)
    (hK : K.distinctCommands) (hne : K.CMD_INFOS ≠ [])
    (hline : startsWith line "Grbl".toList = true)
    (htok : split ' ' line = name :: version :: more)
    (ha : ':' ∉ a) (hb : ':' ∉ b) :
    ∃ r : Grbl × List Signal,
      parse K E s line = some r ∧
      r.1.machineName = name ∧ r.1.machineVersion = version ∧
      r.1.state = StateType.stateUnknown ∧
      r.1.sent = s.sent ++ [(K.CMD_INFOS, true)] ∧
      ∃ r2 : Grbl × List Signal,
        parse K E r.1 ('[' :: ("VER:".toList ++ (a ++ ':' :: b)) ++ [']']) = some r2 ∧
        r2.1.machineVersion = a ∧ r2.1.machineName = name ∧
        r2.1.state = StateType.stateUnknown := by
  have hver : ∀ g : Grbl, (parseInfo g ('[' :: ("VER:".toList ++ (a ++ ':' :: b)) ++ [']'])) =
      ({ g with machineVersion := a, features := { g.features with flagVersion := true } },
        [Signal.versionUpdated]) := by
    intro g
    have h1 : right ('[' :: ("VER:".toList ++ (a ++ ':' :: b)) ++ [']'])
        ((('[' :: ("VER:".toList ++ (a ++ ':' :: b)) ++ [']']).length : Int) - 1) =
        ("VER:".toList ++ (a ++ ':' :: b)) ++ [']'] := by
      have := right_drop_left ['['] (("VER:".toList ++ (a ++ ':' :: b)) ++ [']']) (by simp)
      simpa using this
    have h3 : right ("VER:".toList ++ (a ++ ':' :: b))
        ((("VER:".toList ++ (a ++ ':' :: b)).length : Int) - 4) = a ++ ':' :: b := by
      have := right_drop_left "VER:".toList (a ++ ':' :: b) (by simp)
      simpa using this
    have h4 : split ':' (a ++ ':' :: b) = [a, b] := by
      rw [split_append_sep _ _ _ ha, split_of_not_mem _ _ hb]
    unfold parseInfo
    dsimp only
    rw [h1, left_drop_last]
    rw [if_neg (by simp [startsWith, List.isPrefixOf]),
      if_neg (by simp [startsWith, List.isPrefixOf]),
      if_neg (by simp [startsWith, List.isPrefixOf]),
      if_pos ((startsWith_iff _ _).mpr ⟨a ++ ':' :: b, rfl⟩)]
    rw [h3, h4]
  have hparse : parse K E s line =
      some ((ask K { s with
          lastLine := line
          machineName := name
          machineVersion := version
          features := { s.features with flagName := true, flagVersion := true }
          state := StateType.stateUnknown } K.commandInfos 0 false).2,
        [Signal.versionUpdated, Signal.resetDone]) := by
    unfold parse
    dsimp only
    rw [if_pos hline, htok]
  rw [ask_commandInfos K _ 0 false hK hne] at hparse
  refine ⟨_, hparse, rfl, rfl, rfl, rfl, ?_⟩
  have hparse2 : ∀ g : Grbl, parse K E g ('[' :: ("VER:".toList ++ (a ++ ':' :: b)) ++ [']']) =
      some ((parseInfo { g with lastLine := '[' :: ("VER:".toList ++ (a ++ ':' :: b)) ++ [']'] }
          ('[' :: ("VER:".toList ++ (a ++ ':' :: b)) ++ [']'])).1,
        (parseInfo { g with lastLine := '[' :: ("VER:".toList ++ (a ++ ':' :: b)) ++ [']'] }
          ('[' :: ("VER:".toList ++ (a ++ ':' :: b)) ++ [']'])).2 ++ [Signal.infoUpdated]) := by
    intro g
    unfold parse
    dsimp only
    rw [if_neg (by simp [startsWith, List.isPrefixOf]),
      if_neg (by simp [startsWith, List.isPrefixOf]),
      if_neg (by simp [startsWith, List.isPrefixOf]),
      if_neg (by simp [startsWith, List.isPrefixOf]),
      if_pos (by simp [startsWith, List.isPrefixOf])]
  refine ⟨_, hparse2 _, ?_⟩
  rw [hver]
  exact ⟨rfl, rfl, rfl⟩

theorem parse_banner_then_version_witness :
    ∃ r : Grbl × List Signal,
      parse K0 ⟨fun _ => false, fun g => (false, g.config)⟩ {}
        "Grbl 1.1f ['$' for help]".toList = some r ∧
      r.1.machineName = "Grbl".toList ∧ r.1.machineVersion = "1.1f".toList ∧
      r.1.state = StateType.stateUnknown ∧
      r.1.sent = [("$I".toList, true)] ∧
      ∃ r2 : Grbl × List Signal,
        parse K0 ⟨fun _ => false, fun g => (false, g.config)⟩ r.1
          "[VER:1.1f.20170801:]".toList = some r2 ∧
        r2.1.machineVersion = "1.1f.20170801".toList ∧ r2.1.machineName = "Grbl".toList ∧
        r2.1.state = StateType.stateUnknown :=
  parse_banner_then_version K0 ⟨fun _ => false, fun g => (false, g.config)⟩ {}
    "Grbl 1.1f ['$' for help]".toList "Grbl".toList "1.1f".toList
    ["['$'".toList, "for".toList, "help]".toList] "1.1f.20170801".toList []
    (by decide) (by decide) (by decide) (by decide) (by decide) (by decide)

/-! ## Theorems: coordinates -/

/-- C10, counterexample: after `<Idle|WPos:1.000,1.000,1.000|WCO:0.000,0.000,0.000>`
the offset is known and machine = working + offset; the line
`<Idle|WPos:1.000,1.000,1.000|WCO:2.000,2.000,2.000>`, a `WPos` field followed by a
`WCO` field with a different offset, leaves machine = (1, 1, 1), working = (1, 1, 1)
and offset = (2, 2, 2) with has-working-offset set. -/
theorem parseStatus_coordsConsistent_counterexample :
    coordsConsistent
      (parseStatus {} "<Idle|WPos:1.000,1.000,1.000|WCO:0.000,0.000,0.000>".toList).1 ∧
    (parseStatus
      (parseStatus {} "<Idle|WPos:1.000,1.000,1.000|WCO:0.000,0.000,0.000>".toList).1
      "<Idle|WPos:1.000,1.000,1.000|WCO:2.000,2.000,2.000>".toList).1.infos.flagHasWorkingOffset
        = true ∧
    ¬ coordsConsistent
      (parseStatus
        (parseStatus {} "<Idle|WPos:1.000,1.000,1.000|WCO:0.000,0.000,0.000>".toList).1
        "<Idle|WPos:1.000,1.000,1.000|WCO:2.000,2.000,2.000>".toList).1 := by
  decide!

/-- C10, amended: coordinate consistency invariant. Starting from any state that
satisfies it, after `parseStatus` processes a status line in which every `WCO`
field is well-formed and, when it is reached with has-machine-coords and
has-working-coords both set, repeats the offset already known, if
has-working-offset is set then machine = working + offset holds on every axis
(exact arithmetic). This covers every line without a `WCO` field, a `WCO` field
that comes before the position field, and an `MPos` field followed by `WCO` while
the offset was unknown. -/
theorem parseStatus_keeps_coordsConsistent (s : Grbl) (line : QString)
    (hJ : coordsConsistent s)
    (hg : wcoGate s.infos.flagHasWorkingOffset s.infos.flagHasMachineCoords false
      s.workingOffset (statusFields line) = true) :
    coordsConsistent (parseStatus s line).1 := by
  unfold parseStatus
  dsimp only
  have hfin : ∀ st : StatusLoop, viewConsistent (coordView st.s) →
      coordsConsistent (parseStatusFinish st).1 := by
    intro st h
    have hv := (parseStatusFinish_view st).1
    intro hwo
    have e1 := congrArg CoordView.hasOffset hv
    have e2 := congrArg CoordView.machine hv
    have e3 := congrArg CoordView.working hv
    have e4 := congrArg CoordView.offset hv
    have := h (e1.symm.trans hwo)
    exact e2.trans (this.trans (congrArg₂ addCoords e3.symm e4.symm))
  apply hfin
  have hview : coordView (parseStatusState { s with infos :=
        { flagHasWorkingOffset := s.infos.flagHasWorkingOffset
          flagHasMachineCoords := s.infos.flagHasMachineCoords
          flagHasSwitches := true } } ((statusBlocks line).headD [])).1 =
      { coordView s with hasWorking := false } := by
    rw [(parseStatusState_view _ _).1]; rfl
  apply foldl_wcoGate
  · show viewConsistent (coordView (parseStatusState _ _).1)
    rw [hview]
    exact hJ
  · show wcoGate (coordView (parseStatusState _ _).1).hasOffset
      (coordView (parseStatusState _ _).1).hasMachine
      (coordView (parseStatusState _ _).1).hasWorking
      (coordView (parseStatusState _ _).1).offset (statusBlocks line).tail = true
    rw [hview]
    exact hg


/-- C8: machine position without a known offset. In every state in which
has-working-offset is clear, for every status line without `WPos:` and `WCO:`
fields (in particular a line that presents an `MPos:` field), the working
coordinates after `parseStatus` equal the working coordinates before it; the
offset and its flag are untouched and only the machine coordinates take the value
reported by the line's (last well-formed) `MPos:` field. -/
theorem parseStatus_mpos_keeps_working (s : Grbl) (line : QString)
    (hwo : s.infos.flagHasWorkingOffset = false)
    (hno : ∀ b ∈ statusFields line, startsWith b "WPos:".toList = false ∧
      startsWith b "WCO:".toList = false) :
    (parseStatus s line).1.workingCoordinates = s.workingCoordinates ∧
    (parseStatus s line).1.workingOffset = s.workingOffset ∧
    (parseStatus s line).1.infos.flagHasWorkingOffset = false ∧
    (parseStatus s line).1.machineCoordinates =
      (mposReported (statusFields line)).getD s.machineCoordinates := by
  have h := parseStatus_view_noOffset s line hwo hno
  have e1 := congrArg CoordView.working h
  have e2 := congrArg CoordView.offset h
  have e3 := congrArg CoordView.hasOffset h
  have e4 := congrArg CoordView.machine h
  exact ⟨e1, e2, e3.trans hwo, e4⟩

theorem parseStatus_mpos_keeps_working_witness :
    (parseStatus { workingCoordinates := ⟨5, 6, 7⟩ } "<Idle|MPos:1.000,2.000,3.000>".toList).1.workingCoordinates
      = ⟨5, 6, 7⟩ ∧
    (parseStatus { workingCoordinates := ⟨5, 6, 7⟩ } "<Idle|MPos:1.000,2.000,3.000>".toList).1.machineCoordinates
      = (mposReported (statusFields "<Idle|MPos:1.000,2.000,3.000>".toList)).getD ⟨0, 0, 0⟩ :=
  ⟨(parseStatus_mpos_keeps_working { workingCoordinates := ⟨5, 6, 7⟩ }
      "<Idle|MPos:1.000,2.000,3.000>".toList rfl (by decide)).1,
   (parseStatus_mpos_keeps_working { workingCoordinates := ⟨5, 6, 7⟩ }
      "<Idle|MPos:1.000,2.000,3.000>".toList rfl (by decide)).2.2.2⟩

/-- C9, counterexample: after `<Idle|WPos:1.000,2.000,3.000>` the offset is unknown
and has-working-coords is set; the line `<Idle|MPos:1.000,2.000,3.000>` (an `MPos`
field, no `WPos`, no `WCO`) then leaves has-working-coords clear: the flag does not
keep its value. -/
theorem parseStatus_mpos_hasWorkingCoords_counterexample :
    (parseStatus {} "<Idle|WPos:1.000,2.000,3.000>".toList).1.infos.flagHasWorkingOffset = false ∧
    (parseStatus {} "<Idle|WPos:1.000,2.000,3.000>".toList).1.infos.flagHasWorkingCoords = true ∧
    statusFields "<Idle|MPos:1.000,2.000,3.000>".toList = ["MPos:1.000,2.000,3.000".toList] ∧
    (parseStatus (parseStatus {} "<Idle|WPos:1.000,2.000,3.000>".toList).1
      "<Idle|MPos:1.000,2.000,3.000>".toList).1.infos.flagHasWorkingCoords = false := by
  decide!

/-- C9, amended: in every state in which has-working-offset is clear, for every
status line without `WPos:` and `WCO:` fields (in particular one that presents an
`MPos:` field), has-working-coords is clear after `parseStatus`, whatever its value
before: `parseStatus` first clears every info flag except has-working-offset and
has-machine-coords, and no field of such a line sets the flag again. -/
theorem parseStatus_mpos_clears_hasWorkingCoords (s : Grbl) (line : QString)
    (hwo : s.infos.flagHasWorkingOffset = false)
    (hno : ∀ b ∈ statusFields line, startsWith b "WPos:".toList = false ∧
      startsWith b "WCO:".toList = false) :
    (parseStatus s line).1.infos.flagHasWorkingCoords = false :=
  congrArg CoordView.hasWorking (parseStatus_view_noOffset s line hwo hno)

theorem parseStatus_mpos_clears_hasWorkingCoords_witness :
    ({ infos := { flagHasWorkingCoords := true } } : Grbl).infos.flagHasWorkingCoords = true ∧
    (parseStatus { infos := { flagHasWorkingCoords := true } }
      "<Idle|MPos:1.000,2.000,3.000>".toList).1.infos.flagHasWorkingCoords = false :=
  ⟨rfl, parseStatus_mpos_clears_hasWorkingCoords { infos := { flagHasWorkingCoords := true } }
    "<Idle|MPos:1.000,2.000,3.000>".toList rfl (by decide)⟩

theorem parseStatus_keeps_coordsConsistent_witness :
    coordsConsistent {} ∧
    wcoGate false false false ⟨0, 0, 0⟩
      (statusFields "<Idle|MPos:1.000,2.000,3.000|WCO:0.500,0.500,0.500>".toList) = true ∧
    coordsConsistent
      (parseStatus {} "<Idle|MPos:1.000,2.000,3.000|WCO:0.500,0.500,0.500>".toList).1 :=
  ⟨by decide, by decide,
   parseStatus_keeps_coordsConsistent {}
     "<Idle|MPos:1.000,2.000,3.000|WCO:0.500,0.500,0.500>".toList (by decide) (by decide)⟩

/-! ## Theorems: soft reset, starting-block slots -/

/-- C19: soft reset local effects. `ask` with the reset command hands the reset
literal to the transport without a terminating newline; afterwards Switches and
Actioners are empty and has-working-offset is clear, and nothing else of the
object differs (feature flags, ConfigStore, MachineState, coordinates and every
other info flag are unchanged). -/
theorem ask_commandReset_effects (K : Consts) (s : Grbl) (arg : Int) (noLog : Bool)
    (hne : K.CMD_RESET ≠ []) :
    (ask K s K.commandReset arg noLog).2 =
      { s with
        switches := {}
        actioners := {}
        infos := { s.infos with flagHasWorkingOffset := false }
        sent := s.sent ++ [(K.CMD_RESET, false)]
        port := s.port.tail } ∧
    (ask K s K.commandReset arg noLog).2.features = s.features ∧
    (ask K s K.commandReset arg noLog).2.config = s.config ∧
    (ask K s K.commandReset arg noLog).2.state = s.state ∧
    (ask K s K.commandReset arg noLog).2.workingCoordinates = s.workingCoordinates ∧
    (ask K s K.commandReset arg noLog).2.machineCoordinates = s.machineCoordinates ∧
    (ask K s K.commandReset arg noLog).2.workingOffset = s.workingOffset := by
  have hempty : K.CMD_RESET.isEmpty = false := by
    cases h : K.CMD_RESET with
    | nil => exact absurd h hne
    | cons c cs => rfl
  have e : (ask K s K.commandReset arg noLog).2 =
      { s with
        switches := {}
        actioners := {}
        infos := { s.infos with flagHasWorkingOffset := false }
        sent := s.sent ++ [(K.CMD_RESET, false)]
        port := s.port.tail } := by
    simp [ask, askCommand, hempty, sendCommand_sent]
  rw [e]
  exact ⟨rfl, rfl, rfl, rfl, rfl, rfl, rfl⟩

theorem ask_commandReset_effects_witness :
    (ask K0
        { switches := { switchProbe := true }
          actioners := { actionSpindle := true }
          infos := { flagHasWorkingOffset := true, flagHasConfig := true }
          state := StateType.stateIdle } K0.commandReset 0 false).2 =
      { infos := { flagHasConfig := true }
        state := StateType.stateIdle
        sent := [([Char.ofNat 0x18], false)] } :=
  (ask_commandReset_effects K0
      { switches := { switchProbe := true }
        actioners := { actionSpindle := true }
        infos := { flagHasWorkingOffset := true, flagHasConfig := true }
        state := StateType.stateIdle } 0 false (by decide)).1

theorem QMap.value_insert_ne (k k' : Nat) (v : QString) (m : QMap QString) (h : k' ≠ k) :
    QMap.value (QMap.insert k v m) k' = QMap.value m k' := by
  induction m with
  | nil =>
    have hne : (k' == k) = false := by simpa using h
    simp [QMap.insert, QMap.value, List.lookup, hne]
  | cons e m ih =>
    obtain ⟨k1, v1⟩ := e
    unfold QMap.insert
    have hne : (k' == k) = false := by simpa using h
    split
    · simp [QMap.value, List.lookup, hne]
    · split
      · rename_i h1 h2
        subst h2
        simp [QMap.value, List.lookup, hne]
      · by_cases hk : k' = k1
        · subst hk; simp [QMap.value, List.lookup]
        · have hne1 : (k' == k1) = false := by simpa using hk
          simpa [QMap.value, List.lookup, hne1] using ih

theorem parseConfig_numeric (K : Consts) (s : Grbl) (k : Nat) (w : QString)
    (hk : k < 4294967296) (hw : '=' ∉ w) :
    parseConfig K s ('$' :: number k ++ '=' :: w) =
      { s with config := QMap.insert k w s.config,
               infos := { s.infos with flagHasConfig := true } } := by
  have hsplit : split '=' (number k ++ '=' :: w) = [number k, w] := by
    rw [split_append_sep _ _ _ (number_not_mem k '=' (by decide)), split_of_not_mem _ _ hw]
  have hblock : right ('$' :: number k ++ '=' :: w)
      ((('$' :: number k ++ '=' :: w).length : Int) - 1) = number k ++ '=' :: w := by
    have := right_drop_left ['$'] (number k ++ '=' :: w) (by simp)
    simpa using this
  have hN : startsWith ('$' :: number k ++ '=' :: w) "$N".toList = false := by
    have hne := number_ne_nil k
    cases hq : number k with
    | nil => exact absurd hq hne
    | cons c cs =>
      have hc : c.isDigit = true := number_digits k c (by simp [hq])
      have : ¬ 'N' = c := by intro e; rw [← e] at hc; revert hc; decide
      simp [startsWith, List.isPrefixOf, this]
  have hD : startsWith ('$' :: number k ++ '=' :: w) "$".toList = true := by
    simp [startsWith, List.isPrefixOf]
  unfold parseConfig
  simp only [hN, hD, hblock, hsplit, toUInt_number k hk, if_true, Bool.false_eq_true,
    if_false]

theorem parseConfig_startingBlock (K : Consts) (s : Grbl) (t v : QString)
    (ht : '=' ∉ t) (hv : '=' ∉ v) :
    parseConfig K s ("$N".toList ++ t ++ '=' :: v) =
      { s with
        config := QMap.insert ((toUInt t + K.configStartingBlock0) % 4294967296) v s.config,
        infos := { s.infos with flagHasStartingBlocks := true } } := by
  have hsplit : split '=' (t ++ '=' :: v) = [t, v] := by
    rw [split_append_sep _ _ _ ht, split_of_not_mem _ _ hv]
  have hblock : right ("$N".toList ++ t ++ '=' :: v)
      ((("$N".toList ++ t ++ '=' :: v).length : Int) - 2) = t ++ '=' :: v := by
    have := right_drop_left "$N".toList (t ++ '=' :: v) (by simp)
    simpa using this
  have hN : startsWith ("$N".toList ++ t ++ '=' :: v) "$N".toList = true := by
    simp [startsWith, List.isPrefixOf]
  unfold parseConfig
  simp only [hN, hblock, hsplit, if_true]

/-- C20, counterexample: the slot of `$N0` is the first reserved key itself, so the
numeric setting with that key collides with it. With the reserved key at 200,
parsing `$N0=G54` and then `$200=1` leaves the single entry 200 ↦ `1`; and for
every value of the reserved key, parsing `$N0=v` and then the numeric line for
that key leaves `w` in the slot of `$N0`. -/
theorem parseConfig_slots_counterexample :
    (parseConfig K0 (parseConfig K0 {} "$N0=G54".toList) "$200=1".toList).config
      = [(200, "1".toList)] ∧
    (∀ (K : Consts) (s : Grbl) (v w : QString), '=' ∉ v → '=' ∉ w →
      QMap.value
        (parseConfig K (parseConfig K s ("$N".toList ++ number 0 ++ '=' :: v))
          ('$' :: number (K.configStartingBlock0 % 4294967296) ++ '=' :: w)).config
        ((0 + K.configStartingBlock0) % 4294967296) = w) := by
  refine ⟨by decide, ?_⟩
  intro K s v w hv hw
  rw [parseConfig_numeric K _ _ w (Nat.mod_lt _ (by decide)) hw]
  simp only [Nat.zero_add]
  exact QMap.value_insert _ _ _

/-- C20, amended: starting-block slots and numeric settings. For every
starting-block index `j`, every numeric setting key `k` other than the slot
`j + configStartingBlock0` of that block (in `uint` arithmetic) and all values
`v`, `w` without `=`, parsing `$Nj=v` and `$k=w` in either order leaves both
values retrievable, `v` in the slot of the block and `w` under `k`; and parsing
any `$N<text>=v` line with exactly one `=` marks has-starting-blocks. -/
theorem parseConfig_slots_distinct (K : Consts) (s : Grbl) (j k : Nat) (v w : QString)
    (hj : j < 4294967296) (hk : k < 4294967296)
    (hne : k ≠ (j + K.configStartingBlock0) % 4294967296)
    (hv : '=' ∉ v) (hw : '=' ∉ w) :
    (QMap.value
        (parseConfig K (parseConfig K s ("$N".toList ++ number j ++ '=' :: v))
          ('$' :: number k ++ '=' :: w)).config
        ((j + K.configStartingBlock0) % 4294967296) = v ∧
      QMap.value
        (parseConfig K (parseConfig K s ("$N".toList ++ number j ++ '=' :: v))
          ('$' :: number k ++ '=' :: w)).config k = w) ∧
    (QMap.value
        (parseConfig K (parseConfig K s ('$' :: number k ++ '=' :: w))
          ("$N".toList ++ number j ++ '=' :: v)).config
        ((j + K.configStartingBlock0) % 4294967296) = v ∧
      QMap.value
        (parseConfig K (parseConfig K s ('$' :: number k ++ '=' :: w))
          ("$N".toList ++ number j ++ '=' :: v)).config k = w) ∧
    (∀ (g : Grbl) (t u : QString), '=' ∉ t → '=' ∉ u →
      (parseConfig K g ("$N".toList ++ t ++ '=' :: u)).infos.flagHasStartingBlocks = true) := by
  have hjn : '=' ∉ number j := number_not_mem j '=' (by decide)
  refine ⟨?_, ?_, ?_⟩
  · rw [parseConfig_numeric K _ k w hk hw, parseConfig_startingBlock K s _ v hjn hv,
      toUInt_number j hj]
    exact ⟨by
      show QMap.value (QMap.insert k w (QMap.insert _ v s.config)) _ = v
      rw [QMap.value_insert_ne _ _ _ _ (Ne.symm hne), QMap.value_insert],
      QMap.value_insert _ _ _⟩
  · rw [parseConfig_startingBlock K _ _ v hjn hv, parseConfig_numeric K s k w hk hw,
      toUInt_number j hj]
    exact ⟨QMap.value_insert _ _ _, by
      show QMap.value (QMap.insert _ v (QMap.insert k w s.config)) k = w
      rw [QMap.value_insert_ne _ _ _ _ hne, QMap.value_insert]⟩
  · intro g t u ht hu
    rw [parseConfig_startingBlock K g t u ht hu]

theorem parseConfig_slots_distinct_witness :
    QMap.value
        (parseConfig K0 (parseConfig K0 {} "$N0=G54".toList) "$110=1000.000".toList).config
        200 = "G54".toList ∧
    QMap.value
        (parseConfig K0 (parseConfig K0 {} "$N0=G54".toList) "$110=1000.000".toList).config
        110 = "1000.000".toList :=
  (parseConfig_slots_distinct K0 {} 0 110 "G54".toList "1000.000".toList (by decide)
    (by decide) (by decide) (by decide) (by decide)).1

/-! ## Theorems: sub-code edges and actioners -/

theorem parseStatusState_door (s : Grbl) (t : QString)
    (hchars : ∀ c ∈ t, c.isDigit = true ∨ c = '-') :
    (parseStatusState s ("Door:".toList ++ t)).1.state = StateType.stateDoor ∧
    (parseStatusState s ("Door:".toList ++ t)).1.doorCode = toInt t ∧
    (parseStatusState s ("Door:".toList ++ t)).2 =
      (if s.state ≠ StateType.stateDoor then [Signal.stateUpdated] else []) := by
  have hSleep : t ≠ "Sleep".toList := by
    intro e
    subst e
    rcases hchars 'S' (by decide) with h | h
    · revert h; decide
    · revert h; decide
  have hright : right ("Door:".toList ++ t) ((("Door:".toList ++ t).length : Int) - 5) = t := by
    have := right_drop_left "Door:".toList t (by simp)
    simpa using this
  have hsw : startsWith ("Door:".toList ++ t) "Door:".toList = true :=
    (startsWith_iff _ _).mpr ⟨t, rfl⟩
  have hHold : startsWith ("Door:".toList ++ t) "Hold:".toList = false := by
    simp [startsWith, List.isPrefixOf]
  unfold parseStatusState
  dsimp only
  unfold parseStatusHold
  rw [if_neg (by rw [hHold]; simp)]
  dsimp only
  unfold parseStatusDoor
  rw [if_pos hsw]
  dsimp only
  rw [hright, if_neg hSleep]
  unfold parseStatusCommit
  by_cases hst : s.state = StateType.stateDoor <;> simp [hst]

/-- C12, the code at the failing input and beyond: after a status line whose state
token is `Door:a`, a status line whose state token is `Door:b` never raises
state-changed, whether or not `b` differs from `a`; the state stays Door and only
`doorCode` takes the new value. -/
theorem parseStatus_door_subcode (s : Grbl) (line1 line2 : QString) (a b : Int)
    (hb : -2147483648 ≤ b ∧ b ≤ 2147483647)
    (h1 : statusToken line1 = "Door:".toList ++ numberInt a)
    (h2 : statusToken line2 = "Door:".toList ++ numberInt b) :
    (parseStatus (parseStatus s line1).1 line2).2.count Signal.stateUpdated = 0 ∧
    (parseStatus (parseStatus s line1).1 line2).1.state = StateType.stateDoor ∧
    (parseStatus (parseStatus s line1).1 line2).1.doorCode = b := by
  obtain ⟨s0, -, -, -, hst1, -, -, -⟩ := parseStatus_state s line1
  rw [h1] at hst1
  obtain ⟨e1, -, -⟩ := parseStatusState_door s0 (numberInt a) (numberInt_chars a)
  rw [e1] at hst1
  obtain ⟨s1, k1, -, -, hst2, -, hdc2, hcnt⟩ := parseStatus_state (parseStatus s line1).1 line2
  rw [h2] at hst2 hdc2 hcnt
  obtain ⟨f1, f2, f3⟩ := parseStatusState_door s1 (numberInt b) (numberInt_chars b)
  rw [f1] at hst2
  rw [f2, toInt_numberInt b hb.1 hb.2] at hdc2
  rw [f3, k1, hst1] at hcnt
  refine ⟨?_, hst2, hdc2⟩
  rw [hcnt]
  simp

theorem parseStatus_door_subcode_witness :
    (parseStatus (parseStatus {} "<Door:0|FS:0,0>".toList).1
        "<Door:1|FS:0,0>".toList).2.count Signal.stateUpdated = 0 ∧
    (parseStatus (parseStatus {} "<Door:0|FS:0,0>".toList).1
        "<Door:1|FS:0,0>".toList).1.state = StateType.stateDoor ∧
    (parseStatus (parseStatus {} "<Door:0|FS:0,0>".toList).1
        "<Door:1|FS:0,0>".toList).1.doorCode = 1 :=
  parseStatus_door_subcode {} "<Door:0|FS:0,0>".toList "<Door:1|FS:0,0>".toList 0 1
    (by decide) (by decide) (by decide)

/-- C13, the code at the failing input: `<Idle|Ov:100,100,100|A:S>` delivered twice
raises actioners-changed on the second delivery too, although Actioners is
{spindle-on} before and after it; the following `<Idle|Ov:100,100,100>` changes
Actioners from {spindle-on} to the empty set without raising actioners-changed. -/
theorem parseStatus_actioners_after_Ov :
    (parseStatus {} "<Idle|Ov:100,100,100|A:S>".toList).1.actioners
      = { actionSpindle := true } ∧
    Signal.actionersUpdated ∈
      (parseStatus (parseStatus {} "<Idle|Ov:100,100,100|A:S>".toList).1
        "<Idle|Ov:100,100,100|A:S>".toList).2 ∧
    (parseStatus (parseStatus {} "<Idle|Ov:100,100,100|A:S>".toList).1
        "<Idle|Ov:100,100,100|A:S>".toList).1.actioners = { actionSpindle := true } ∧
    Signal.actionersUpdated ∉
      (parseStatus
        (parseStatus (parseStatus {} "<Idle|Ov:100,100,100|A:S>".toList).1
          "<Idle|Ov:100,100,100|A:S>".toList).1
        "<Idle|Ov:100,100,100>".toList).2 ∧
    (parseStatus
        (parseStatus (parseStatus {} "<Idle|Ov:100,100,100|A:S>".toList).1
          "<Idle|Ov:100,100,100|A:S>".toList).1
        "<Idle|Ov:100,100,100>".toList).1.actioners = {} := by
  decide

/-! ## Theorems: configuration sequencer -/

/-- C17, the code at the failing input: a write round over the settings
110 ↦ `1000.000` and 111 ↦ `500.000` whose first send fails. The line of key 110 is
handed to the transport and the slot is disconnected, so later acknowledgments
send nothing for key 111; but the ask-status flag is still clear when the step
returns and stays clear: a timer tick polls nothing. -/
theorem writeConfiguration_send_failure :
    (writeConfiguration K0 failingStart true).sent = [("$110=1000.000".toList, true)] ∧
    (writeConfiguration K0 failingStart true).connections = [] ∧
    (writeConfiguration K0 failingStart true).features.flagAskStatus = false ∧
    (acks K0 rejectingEditor 2 (writeConfiguration K0 failingStart true)).sent =
      [("$110=1000.000".toList, true)] ∧
    (acks K0 rejectingEditor 2
      (writeConfiguration K0 failingStart true)).features.flagAskStatus = false ∧
    (timeout K0 (writeConfiguration K0 failingStart true)).sent =
      [("$110=1000.000".toList, true)] := by
  decide

theorem sequencerFrame_refl (s : Grbl) : sequencerFrame s s := rfl

theorem sequencerFrame_trans (a b c : Grbl) (h1 : sequencerFrame a b)
    (h2 : sequencerFrame b c) : sequencerFrame a c := by
  unfold sequencerFrame at *
  rw [h2, h1]

theorem sequencerFrame_state (a b : Grbl) (h : sequencerFrame a b) :
    b.state = a.state ∧ b.infos = a.infos := by
  unfold sequencerFrame at h
  refine ⟨?_, ?_⟩ <;> rw [h]

theorem sendCommand_frame (s : Grbl) (cmd : QString) (newLine noLog : Bool) :
    sequencerFrame s (sendCommand s cmd newLine noLog).2 := by
  rw [sendCommand_sent]
  rfl

theorem ask_commandConfig (K : Consts) (s : Grbl) (arg : Int) (noLog : Bool)
    (hK : K.distinctCommands) :
    ask K s K.commandConfig arg noLog =
      (if K.CMD_CONFIG.isEmpty then (false, s) else sendCommand s K.CMD_CONFIG true noLog) := by
  have hK2 := K.later_ne_earlier hK
  simp only [Consts.commandCodes, List.reverse_cons, List.reverse_nil, List.nil_append,
    List.cons_append, List.nodup_cons, List.mem_cons, List.mem_singleton, not_or,
    List.not_mem_nil, List.nodup_nil, not_false_eq_true, and_true] at hK2
  simp [ask, askCommand, hK2]

theorem ask_commandStartBlock (K : Consts) (s : Grbl) (arg : Int) (noLog : Bool)
    (hK : K.distinctCommands) :
    ask K s K.commandStartBlock arg noLog =
      (if K.CMD_STARTBLOCK.isEmpty then (false, s)
       else sendCommand s K.CMD_STARTBLOCK true noLog) := by
  have hK2 := K.later_ne_earlier hK
  simp only [Consts.commandCodes, List.reverse_cons, List.reverse_nil, List.nil_append,
    List.cons_append, List.nodup_cons, List.mem_cons, List.mem_singleton, not_or,
    List.not_mem_nil, List.nodup_nil, not_false_eq_true, and_true] at hK2
  simp [ask, askCommand, hK2]

theorem ask_commandConfig_frame (K : Consts) (s : Grbl) (arg : Int) (noLog : Bool)
    (hK : K.distinctCommands) : sequencerFrame s (ask K s K.commandConfig arg noLog).2 := by
  rw [ask_commandConfig K s arg noLog hK]
  split
  · exact sequencerFrame_refl s
  · exact sendCommand_frame _ _ _ _

theorem ask_commandStartBlock_frame (K : Consts) (s : Grbl) (arg : Int) (noLog : Bool)
    (hK : K.distinctCommands) :
    sequencerFrame s (ask K s K.commandStartBlock arg noLog).2 := by
  rw [ask_commandStartBlock K s arg noLog hK]
  split
  · exact sequencerFrame_refl s
  · exact sendCommand_frame _ _ _ _

theorem writeConfigurationStep_frame (K : Consts) (fuel : Nat) (s : Grbl) :
    sequencerFrame s (writeConfigurationStep K fuel s) := by
  induction fuel generalizing s with
  | zero => exact sequencerFrame_refl s
  | succ fuel ih =>
    unfold writeConfigurationStep
    refine ite_induction (fun r => sequencerFrame s r) _ _ _ (fun _ => ?_) (fun _ => rfl)
    dsimp only
    refine ite_induction (fun r => sequencerFrame s r) _ _ _ (fun _ => ?_) (fun _ => ?_)
    · refine sequencerFrame_trans _ _ _ ?_ (ih _)
      rfl
    · refine ite_induction (fun r => sequencerFrame s r) _ _ _ (fun _ => ?_) (fun _ => ?_)
      · refine sequencerFrame_trans _ (sendCommand _ _ _ _).2 _ ?_ rfl
        refine sequencerFrame_trans _ _ _ ?_ (sendCommand_frame _ _ _ _)
        rfl
      · refine sequencerFrame_trans _ _ _ ?_ (sendCommand_frame _ _ _ _)
        rfl

theorem writeConfiguration_frame (K : Consts) (s : Grbl) (start : Bool) :
    sequencerFrame s (writeConfiguration K s start) := by
  unfold writeConfiguration
  dsimp only
  cases start
  · exact writeConfigurationStep_frame K _ _
  · refine sequencerFrame_trans _ _ _ ?_ (writeConfigurationStep_frame K _ _)
    rfl

theorem openConfiguration_frame (K : Consts) (E : Editor) (s : Grbl) (parent : Bool)
    (hK : K.distinctCommands) : sequencerFrame s (openConfiguration K E s parent) := by
  unfold openConfiguration
  refine ite_induction (fun r => sequencerFrame s r) _ _ _ (fun _ => rfl) (fun _ => ?_)
  refine ite_induction (fun r => sequencerFrame s r) _ _ _ (fun _ => ?_) (fun _ => ?_)
  · refine sequencerFrame_trans _ _ _ ?_ (ask_commandConfig_frame K _ 0 false hK)
    rfl
  · refine ite_induction (fun r => sequencerFrame s r) _ _ _ (fun _ => ?_) (fun _ => ?_)
    · exact ask_commandStartBlock_frame K _ 0 false hK
    · dsimp only
      refine ite_induction (fun r => sequencerFrame s r) _ _ _ (fun _ => ?_) (fun _ => rfl)
      refine ite_induction (fun r => sequencerFrame s r) _ _ _ (fun _ => ?_) (fun _ => rfl)
      refine sequencerFrame_trans _ _ _ ?_ (writeConfiguration_frame K _ true)
      rfl

theorem runSlot_frame (K : Consts) (E : Editor) (s : Grbl) (slot : Slot)
    (hK : K.distinctCommands) : sequencerFrame s (runSlot K E s slot) := by
  cases slot
  · exact openConfiguration_frame K E s false hK
  · exact writeConfiguration_frame K s false

theorem emitCommandExecuted_frame (K : Consts) (E : Editor) (s : Grbl)
    (hK : K.distinctCommands) : sequencerFrame s (emitCommandExecuted K E s) := by
  unfold emitCommandExecuted
  generalize s.connections = l
  have key : ∀ (l : List (Nat × Slot)) (cur : Grbl), sequencerFrame s cur →
      sequencerFrame s (l.foldl
        (fun cur c => if c ∈ cur.connections then runSlot K E cur c.2 else cur) cur) := by
    intro l
    induction l with
    | nil => intro cur h; exact h
    | cons c l ih =>
      intro cur h
      rw [List.foldl_cons]
      apply ih
      refine ite_induction (fun r => sequencerFrame s r) _ _ _ (fun _ => ?_) (fun _ => h)
      exact sequencerFrame_trans _ _ _ h (runSlot_frame K E cur c.2 hK)
  exact key l s (sequencerFrame_refl s)

/-! ## Theorems: state-change notification -/

theorem parseStatusHold_state (s : Grbl) (b : QString) (ns : StateType) :
    (parseStatusHold s b ns).1.state = s.state ∨
    ((parseStatusHold s b ns).1.state = StateType.stateUnknown ∧
      (parseStatusHold s b ns).2.2 = StateType.stateHold) := by
  unfold parseStatusHold
  dsimp only
  split_ifs
  · exact Or.inr ⟨rfl, rfl⟩
  · exact Or.inl rfl
  · exact Or.inl rfl

theorem parseStatusDoor_state (s : Grbl) (b : QString) (ns : StateType) :
    (parseStatusDoor s b ns).1.state = s.state ∧
    ((parseStatusDoor s b ns).2.2 = ns ∨ (parseStatusDoor s b ns).2.2 = StateType.stateDoor) := by
  unfold parseStatusDoor
  split_ifs
  · exact ⟨rfl, Or.inr rfl⟩
  · exact ⟨rfl, Or.inl rfl⟩

theorem parseStatusCommit_edge (s : Grbl) (ns : StateType) :
    (parseStatusCommit s ns).1.state = ns ∧
    (parseStatusCommit s ns).2 = (if s.state ≠ ns then [Signal.stateUpdated] else []) := by
  unfold parseStatusCommit
  split_ifs with h
  · exact ⟨rfl, rfl⟩
  · exact ⟨(not_not.mp h), rfl⟩

theorem parseStatusState_edge (s : Grbl) (tok : QString)
    (h : (parseStatusState s tok).1.state ≠ s.state) :
    (parseStatusState s tok).2 = [Signal.stateUpdated] := by
  unfold parseStatusState at h ⊢
  dsimp only at h ⊢
  generalize hH : parseStatusHold s tok _ = H at h ⊢
  have hHs : H.1.state = s.state ∨
      (H.1.state = StateType.stateUnknown ∧ H.2.2 = StateType.stateHold) := by
    rw [← hH]; exact parseStatusHold_state _ _ _
  generalize hn1 : (if H.2.1 = "Check".toList then StateType.stateCheck else _) = ns1 at h ⊢
  have hn1u : H.2.2 = StateType.stateHold → ns1 ≠ StateType.stateUnknown := by
    intro hh
    rw [← hn1, hh]
    split_ifs <;> simp
  generalize hD : parseStatusDoor H.1 H.2.1 ns1 = D at h ⊢
  have hDs : D.1.state = H.1.state ∧ (D.2.2 = ns1 ∨ D.2.2 = StateType.stateDoor) := by
    rw [← hD]; exact parseStatusDoor_state _ _ _
  generalize hn2 : (if D.2.1 = "Sleep".toList then StateType.stateSleep else D.2.2) = ns2 at h ⊢
  have hn2u : H.2.2 = StateType.stateHold → ns2 ≠ StateType.stateUnknown := by
    intro hh
    have := hn1u hh
    rw [← hn2]
    rcases hDs.2 with e | e
    · split_ifs
      · simp
      · rw [e]; exact this
    · split_ifs
      · simp
      · rw [e]; simp
  have hc := parseStatusCommit_edge D.1 ns2
  rw [hc.1] at h
  rw [hc.2, if_pos]
  rw [hDs.1]
  rcases hHs with e | ⟨e, e2⟩
  · rw [e]; exact fun h2 => h h2.symm
  · rw [e]; exact fun h2 => hn2u e2 h2.symm

theorem ask_commandInfos_eq (K : Consts) (s : Grbl) (arg : Int) (noLog : Bool)
    (hK : K.distinctCommands) :
    ask K s K.commandInfos arg noLog =
      (if K.CMD_INFOS.isEmpty then (false, s) else sendCommand s K.CMD_INFOS true noLog) := by
  have hK2 := K.later_ne_earlier hK
  simp only [Consts.commandCodes, List.reverse_cons, List.reverse_nil, List.nil_append,
    List.cons_append, List.nodup_cons, List.mem_cons, List.mem_singleton, not_or,
    List.not_mem_nil, List.nodup_nil, not_false_eq_true, and_true] at hK2
  simp [ask, askCommand, hK2]

theorem parseInfo_state (s : Grbl) (line : QString) :
    (parseInfo s line).1.state = s.state ∧
    (parseInfo s line).2.count Signal.stateUpdated = 0 := by
  unfold parseInfo
  dsimp only
  refine ite_induction (fun r : Grbl × List Signal =>
    r.1.state = s.state ∧ r.2.count Signal.stateUpdated = 0) _ _ _ (fun _ => ⟨rfl, rfl⟩)
    fun _ => ?_
  refine ite_induction (fun r : Grbl × List Signal =>
    r.1.state = s.state ∧ r.2.count Signal.stateUpdated = 0) _ _ _ (fun _ => ?_) fun _ => ?_
  · split <;> exact ⟨rfl, rfl⟩
  refine ite_induction (fun r : Grbl × List Signal =>
    r.1.state = s.state ∧ r.2.count Signal.stateUpdated = 0) _ _ _ (fun _ => ⟨rfl, rfl⟩)
    fun _ => ?_
  refine ite_induction (fun r : Grbl × List Signal =>
    r.1.state = s.state ∧ r.2.count Signal.stateUpdated = 0) _ _ _ (fun _ => ?_) fun _ => ?_
  · split <;> exact ⟨rfl, rfl⟩
  refine ite_induction (fun r : Grbl × List Signal =>
    r.1.state = s.state ∧ r.2.count Signal.stateUpdated = 0) _ _ _ (fun _ => ?_) fun _ => ?_
  · split <;> exact ⟨rfl, rfl⟩
  refine ite_induction (fun r : Grbl × List Signal =>
    r.1.state = s.state ∧ r.2.count Signal.stateUpdated = 0) _ _ _ (fun _ => ?_)
    fun _ => ⟨rfl, rfl⟩
  split
  · split <;> exact ⟨rfl, rfl⟩
  · exact ⟨rfl, rfl⟩

theorem parseConfig_state (K : Consts) (s : Grbl) (line : QString) :
    (parseConfig K s line).state = s.state := by
  unfold parseConfig
  split_ifs
  · dsimp only
    split <;> rfl
  · dsimp only
    split <;> rfl
  · rfl

theorem startsWith_excl (line p q : QString) (c d : Char) (p2 q2 : QString)
    (hp : p = c :: p2) (hq : q = d :: q2) (hcd : c ≠ d)
    (h : startsWith line p = true) : startsWith line q = false := by
  subst hp hq
  cases line with
  | nil => rfl
  | cons a l =>
    simp only [startsWith, List.isPrefixOf, Bool.and_eq_true, beq_iff_eq] at h
    simp only [startsWith, List.isPrefixOf, Bool.and_eq_false_iff]
    left
    rw [← h.1]
    exact beq_false_of_ne (Ne.symm hcd)

/-- C11, amended: state-change notification. For every inbound line that is neither a banner
nor an `ALARM:` line the dispatcher returns, a line that is not a status report
leaves MachineState as it was and raises no state-changed notification, and if
MachineState after the dispatch differs from MachineState before it then the
state-changed notification is raised exactly once. A banner sets MachineState to
Unknown and raises only version-updated and reset-done; an `ALARM:` line sets
MachineState to Alarm and raises only the alarm notification. -/
theorem parse_state_change_notified (K : Consts) (E : Editor) (s : Grbl) (line : QString)
    (hK : K.distinctCommands) :
    (startsWith line "Grbl".toList = false → startsWith line "ALARM:".toList = false →
      ∃ r : Grbl × List Signal, parse K E s line = some r ∧
        (startsWith line "<".toList = false →
          r.1.state = s.state ∧ r.2.count Signal.stateUpdated = 0) ∧
        (r.1.state ≠ s.state → r.2.count Signal.stateUpdated = 1)) ∧
    (startsWith line "Grbl".toList = true → ∀ r : Grbl × List Signal,
      parse K E s line = some r →
        r.1.state = StateType.stateUnknown ∧
        r.2 = [Signal.versionUpdated, Signal.resetDone]) ∧
    (startsWith line "ALARM:".toList = true →
      ∃ r : Grbl × List Signal, parse K E s line = some r ∧
        r.1.state = StateType.stateAlarm ∧
        r.2 = [Signal.alarm (toInt (right line ((line.length : Int) - 6)))]) := by
  refine ⟨fun hb ha => ?_, fun hb r hr => ?_, fun ha => ?_⟩
  · unfold parse
    dsimp only
    rw [if_neg (by rw [hb]; exact Bool.false_ne_true)]
    refine ite_induction (fun o : Option (Grbl × List Signal) =>
      ∃ r : Grbl × List Signal, o = some r ∧
        (startsWith line "<".toList = false →
          r.1.state = s.state ∧ r.2.count Signal.stateUpdated = 0) ∧
        (r.1.state ≠ s.state → r.2.count Signal.stateUpdated = 1)) _ _ _ (fun _ => ?_)
      fun _ => ?_
    · have hst : (emitCommandExecuted K E { s with
          lastLine := line
          infos := { s.infos with flagHasError := false } }).state = s.state :=
        (sequencerFrame_state _ _ (emitCommandExecuted_frame K E _ hK)).1
      exact ⟨_, rfl, fun _ => ⟨hst, rfl⟩, fun h => absurd hst h⟩
    refine ite_induction (fun o : Option (Grbl × List Signal) =>
      ∃ r : Grbl × List Signal, o = some r ∧
        (startsWith line "<".toList = false →
          r.1.state = s.state ∧ r.2.count Signal.stateUpdated = 0) ∧
        (r.1.state ≠ s.state → r.2.count Signal.stateUpdated = 1)) _ _ _ (fun _ => ?_)
      fun _ => ?_
    · exact ⟨_, rfl, fun _ => ⟨rfl, rfl⟩, fun h => absurd rfl h⟩
    rw [if_neg (by rw [ha]; exact Bool.false_ne_true)]
    refine ite_induction (fun o : Option (Grbl × List Signal) =>
      ∃ r : Grbl × List Signal, o = some r ∧
        (startsWith line "<".toList = false →
          r.1.state = s.state ∧ r.2.count Signal.stateUpdated = 0) ∧
        (r.1.state ≠ s.state → r.2.count Signal.stateUpdated = 1)) _ _ _ (fun _ => ?_)
      fun _ => ?_
    · obtain ⟨h1, h2⟩ := parseInfo_state { s with lastLine := line } line
      refine ⟨_, rfl, fun _ => ⟨h1, ?_⟩, fun h => absurd h1 h⟩
      rw [List.count_append, h2]
      rfl
    refine ite_induction (fun o : Option (Grbl × List Signal) =>
      ∃ r : Grbl × List Signal, o = some r ∧
        (startsWith line "<".toList = false →
          r.1.state = s.state ∧ r.2.count Signal.stateUpdated = 0) ∧
        (r.1.state ≠ s.state → r.2.count Signal.stateUpdated = 1)) _ _ _ (fun hlt => ?_)
      fun _ => ?_
    · obtain ⟨s0, h0, -, -, h1, -, -, h2⟩ := parseStatus_state { s with lastLine := line } line
      refine ⟨_, rfl, fun hn => absurd hlt (by rw [hn]; exact Bool.false_ne_true), fun h => ?_⟩
      have h0s : s0.state = s.state := h0
      have hedge := parseStatusState_edge s0 (statusToken line)
        (by rw [← h1, h0s]; exact h)
      rw [List.count_append, h2, hedge]
      rfl
    refine ite_induction (fun o : Option (Grbl × List Signal) =>
      ∃ r : Grbl × List Signal, o = some r ∧
        (startsWith line "<".toList = false →
          r.1.state = s.state ∧ r.2.count Signal.stateUpdated = 0) ∧
        (r.1.state ≠ s.state → r.2.count Signal.stateUpdated = 1)) _ _ _ (fun _ => ?_)
      fun _ => ?_
    · exact ⟨_, rfl, fun _ => ⟨rfl, rfl⟩, fun h => absurd rfl h⟩
    refine ite_induction (fun o : Option (Grbl × List Signal) =>
      ∃ r : Grbl × List Signal, o = some r ∧
        (startsWith line "<".toList = false →
          r.1.state = s.state ∧ r.2.count Signal.stateUpdated = 0) ∧
        (r.1.state ≠ s.state → r.2.count Signal.stateUpdated = 1)) _ _ _ (fun _ => ?_)
      fun _ => ?_
    · have hst := parseConfig_state K { s with lastLine := line } line
      exact ⟨_, rfl, fun _ => ⟨hst, rfl⟩, fun h => absurd hst h⟩
    · exact ⟨_, rfl, fun _ => ⟨rfl, rfl⟩, fun h => absurd rfl h⟩
  · unfold parse at hr
    dsimp only at hr
    rw [if_pos hb] at hr
    split at hr
    · cases hr
      refine ⟨?_, rfl⟩
      rw [ask_commandInfos_eq K _ 0 false hK]
      split
      · rfl
      · rw [sendCommand_sent]
    · cases hr
  · have hb : startsWith line "Grbl".toList = false :=
      startsWith_excl line _ _ 'A' 'G' _ _ rfl rfl (by decide) ha
    have ho : startsWith line "ok".toList = false :=
      startsWith_excl line _ _ 'A' 'o' _ _ rfl rfl (by decide) ha
    have he : startsWith line "error:".toList = false :=
      startsWith_excl line _ _ 'A' 'e' _ _ rfl rfl (by decide) ha
    unfold parse
    dsimp only
    rw [if_neg (by rw [hb]; exact Bool.false_ne_true),
      if_neg (by rw [ho]; exact Bool.false_ne_true),
      if_neg (by rw [he]; exact Bool.false_ne_true), if_pos ha]
    exact ⟨_, rfl, rfl, rfl⟩

/-- C11, counterexample: from MachineState Idle a banner sets MachineState to
Unknown and an `ALARM:1` line sets it to Alarm, and neither dispatch raises the
state-changed notification. -/
theorem parse_state_change_counterexample :
    (parse K0 rejectingEditor { state := StateType.stateIdle }
        "Grbl 1.1f ['$' for help]".toList).map
      (fun r => (r.1.state, r.2.count Signal.stateUpdated)) =
      some (StateType.stateUnknown, 0) ∧
    (parse K0 rejectingEditor { state := StateType.stateIdle } "ALARM:1".toList).map
      (fun r => (r.1.state, r.2.count Signal.stateUpdated)) =
      some (StateType.stateAlarm, 0) := by
  decide

theorem parse_state_change_notified_witness :
    K0.distinctCommands ∧
    ∃ r : Grbl × List Signal,
      parse K0 rejectingEditor { state := StateType.stateIdle } "<Run|FS:0,0>".toList = some r ∧
      (startsWith "<Run|FS:0,0>".toList "<".toList = false →
        r.1.state = StateType.stateIdle ∧ r.2.count Signal.stateUpdated = 0) ∧
      (r.1.state ≠ StateType.stateIdle → r.2.count Signal.stateUpdated = 1) :=
  ⟨by decide,
    (parse_state_change_notified K0 rejectingEditor { state := StateType.stateIdle }
      "<Run|FS:0,0>".toList (by decide)).1 (by decide) (by decide)⟩

/-! ## Theorems: presence flags -/

theorem presenceKept_refl (a : InfoFlags) : presenceKept a a := by
  simp [presenceKept]

theorem presenceKept_trans (a b c : InfoFlags) (h1 : presenceKept a b)
    (h2 : presenceKept b c) : presenceKept a c := by
  unfold presenceKept at *
  obtain ⟨a1, a2, a3, a4, a5, a6, a7, a8, a9, a10, a11, a12, a13, a14, a15, a16⟩ := h1
  obtain ⟨b1, b2, b3, b4, b5, b6, b7, b8, b9, b10, b11, b12, b13, b14, b15, b16⟩ := h2
  exact ⟨b1 ∘ a1, b2 ∘ a2, b3 ∘ a3, b4 ∘ a4, b5 ∘ a5, b6 ∘ a6, b7 ∘ a7, b8 ∘ a8,
    b9 ∘ a9, b10 ∘ a10, b11 ∘ a11, b12 ∘ a12, b13 ∘ a13, b14 ∘ a14, b15 ∘ a15, b16 ∘ a16⟩

theorem coordFlagsKept_refl (a : InfoFlags) : coordFlagsKept a a := ⟨id, id⟩

theorem coordFlagsKept_trans (a b c : InfoFlags) (h1 : coordFlagsKept a b)
    (h2 : coordFlagsKept b c) : coordFlagsKept a c :=
  ⟨h2.1 ∘ h1.1, h2.2 ∘ h1.2⟩

theorem parseInfoGCWord_presence (i : InfoFlags) (c : QString) :
    presenceKept i (parseInfoGCWord i c) := by
  unfold parseInfoGCWord
  dsimp only
  split_ifs <;> simp [presenceKept]

theorem foldl_parseInfoGCWord_presence (l : List QString) (i : InfoFlags) :
    presenceKept i (l.foldl parseInfoGCWord i) := by
  induction l generalizing i with
  | nil => exact presenceKept_refl i
  | cons c l ih =>
    exact presenceKept_trans _ _ _ (parseInfoGCWord_presence i c) (ih _)

theorem parseInfo_presence (s : Grbl) (line : QString) :
    presenceKept s.infos (parseInfo s line).1.infos := by
  unfold parseInfo
  dsimp only
  refine ite_induction (fun r : Grbl × List Signal => presenceKept s.infos r.1.infos) _ _ _
    (fun _ => by simp [presenceKept]) fun _ => ?_
  refine ite_induction (fun r : Grbl × List Signal => presenceKept s.infos r.1.infos) _ _ _
    (fun _ => ?_) fun _ => ?_
  · split
    · simp [presenceKept]
    · exact presenceKept_refl _
  refine ite_induction (fun r : Grbl × List Signal => presenceKept s.infos r.1.infos) _ _ _
    (fun _ => ?_) fun _ => ?_
  · dsimp only
    generalize hi : List.foldl parseInfoGCWord s.infos _ = i
    have hk : presenceKept s.infos i := by
      rw [← hi]; exact foldl_parseInfoGCWord_presence _ _
    exact presenceKept_trans _ i _ hk (by simp [presenceKept])
  refine ite_induction (fun r : Grbl × List Signal => presenceKept s.infos r.1.infos) _ _ _
    (fun _ => ?_) fun _ => ?_
  · split <;> exact presenceKept_refl _
  refine ite_induction (fun r : Grbl × List Signal => presenceKept s.infos r.1.infos) _ _ _
    (fun _ => ?_) fun _ => ?_
  · split <;> exact presenceKept_refl _
  refine ite_induction (fun r : Grbl × List Signal => presenceKept s.infos r.1.infos) _ _ _
    (fun _ => ?_) fun _ => presenceKept_refl _
  split
  · split
    · simp [presenceKept]
    · exact presenceKept_refl _
  · exact presenceKept_refl _

theorem parseConfig_presence (K : Consts) (s : Grbl) (line : QString) :
    presenceKept s.infos (parseConfig K s line).infos := by
  unfold parseConfig
  split_ifs
  · dsimp only
    split
    · simp [presenceKept]
    · exact presenceKept_refl _
  · dsimp only
    split
    · simp [presenceKept]
    · exact presenceKept_refl _
  · exact presenceKept_refl _

theorem parseStatusState_infos (s : Grbl) (tok : QString) :
    (parseStatusState s tok).1.infos = s.infos := by
  unfold parseStatusState
  dsimp only
  generalize hH : parseStatusHold s tok _ = H
  have hHs : H.1.infos = s.infos := by
    rw [← hH]; unfold parseStatusHold; dsimp only; split_ifs <;> rfl
  generalize hD : parseStatusDoor H.1 H.2.1 _ = D
  have hDs : D.1.infos = H.1.infos := by
    rw [← hD]; unfold parseStatusDoor; split_ifs <;> rfl
  generalize (if D.2.1 = "Sleep".toList then StateType.stateSleep else D.2.2) = ns2
  rw [← hHs, ← hDs]
  unfold parseStatusCommit
  split_ifs <;> rfl

theorem parseStatusFinish_infos (st : StatusLoop) :
    (parseStatusFinish st).1.infos = st.s.infos := by
  unfold parseStatusFinish
  dsimp only
  split_ifs <;> rfl

theorem parseStatusField_coordFlags (st : StatusLoop) (b : QString) :
    coordFlagsKept st.s.infos (parseStatusField st b).s.infos := by
  refine parseStatusField_cases (fun r => coordFlagsKept st.s.infos r.s.infos) st b
    (fun _ => ?_) (fun _ => ?_) (fun _ => ?_) (fun _ => ?_) (fun _ => ?_) (fun _ => ?_)
    (fun _ => ?_) (fun _ => ?_) (fun _ => ?_) (fun _ => ?_) (coordFlagsKept_refl _)
  · unfold parseStatusWPos
    split
    · dsimp only
      split_ifs <;> simp [coordFlagsKept]
    · exact coordFlagsKept_refl _
  · unfold parseStatusMPos
    split
    · dsimp only
      split_ifs <;> simp [coordFlagsKept]
    · exact coordFlagsKept_refl _
  · unfold parseStatusBf
    split
    · dsimp only
      split_ifs <;> simp [coordFlagsKept]
    · exact coordFlagsKept_refl _
  · unfold parseStatusLn
    split
    · dsimp only
      split_ifs <;> simp [coordFlagsKept]
    · exact coordFlagsKept_refl _
  · unfold parseStatusFS
    split
    · dsimp only
      split_ifs <;> simp [coordFlagsKept]
    · exact coordFlagsKept_refl _
  · unfold parseStatusF
    dsimp only
    split_ifs <;> simp [coordFlagsKept]
  · unfold parseStatusPn
    exact coordFlagsKept_refl _
  · unfold parseStatusWCO
    dsimp only
    split
    · split_ifs <;> simp [coordFlagsKept]
    · simp [coordFlagsKept]
  · unfold parseStatusOv
    split
    · simp [coordFlagsKept]
    · exact coordFlagsKept_refl _
  · unfold parseStatusA
    simp [coordFlagsKept]

theorem foldl_coordFlags (fields : List QString) (st : StatusLoop) :
    coordFlagsKept st.s.infos (fields.foldl parseStatusField st).s.infos := by
  induction fields generalizing st with
  | nil => exact coordFlagsKept_refl _
  | cons b bs ih =>
    exact coordFlagsKept_trans _ _ _ (parseStatusField_coordFlags st b) (ih _)

theorem parseStatus_coordFlags (s : Grbl) (line : QString) :
    coordFlagsKept s.infos (parseStatus s line).1.infos := by
  unfold parseStatus
  dsimp only
  rw [parseStatusFinish_infos]
  refine coordFlagsKept_trans _ _ _ ?_ (foldl_coordFlags _ _)
  dsimp only
  rw [parseStatusState_infos]
  exact ⟨id, id⟩

theorem presenceKept_coordFlags (a b : InfoFlags) (h : presenceKept a b) :
    coordFlagsKept a b := ⟨h.1, h.2.1⟩

/-- C14, amended: presence flags under one dispatched line. For every state and every
inbound line on which the dispatcher returns: has-working-offset and
has-machine-coords set before the line are still set afterwards; and if the line
is not a status report, every presence flag set before the line (has-working-offset,
has-machine-coords, has-working-coords, has-switches, has-buffer, has-line-number,
has-feed-rate, has-spindle-speed, has-override, has-actioners, has-config,
has-starting-blocks, TLO, PRB, GC, GXX) is still set afterwards. -/
theorem parse_presence_flags (K : Consts) (E : Editor) (s : Grbl) (line : QString)
    (r : Grbl × List Signal) (hK : K.distinctCommands) (hr : parse K E s line = some r) :
    coordFlagsKept s.infos r.1.infos ∧
    (startsWith line "<".toList = false → presenceKept s.infos r.1.infos) := by
  have hall : ∀ i : InfoFlags, presenceKept s.infos i →
      coordFlagsKept s.infos i ∧
      (startsWith line "<".toList = false → presenceKept s.infos i) :=
    fun i h => ⟨presenceKept_coordFlags _ _ h, fun _ => h⟩
  revert r
  unfold parse
  dsimp only
  refine ite_induction (fun o : Option (Grbl × List Signal) =>
    ∀ r : Grbl × List Signal, o = some r → coordFlagsKept s.infos r.1.infos ∧
      (startsWith line "<".toList = false → presenceKept s.infos r.1.infos)) _ _ _
    (fun _ => ?_) fun _ => ?_
  · intro r hr
    split at hr
    · cases hr
      apply hall
      rw [ask_commandInfos_eq K _ 0 false hK]
      split
      · exact presenceKept_refl _
      · rw [sendCommand_sent]
        exact presenceKept_refl _
    · cases hr
  refine ite_induction (fun o : Option (Grbl × List Signal) =>
    ∀ r : Grbl × List Signal, o = some r → coordFlagsKept s.infos r.1.infos ∧
      (startsWith line "<".toList = false → presenceKept s.infos r.1.infos)) _ _ _
    (fun _ => ?_) fun _ => ?_
  · intro r hr
    cases hr
    apply hall
    dsimp only
    rw [(sequencerFrame_state _ _ (emitCommandExecuted_frame K E _ hK)).2]
    simp [presenceKept]
  refine ite_induction (fun o : Option (Grbl × List Signal) =>
    ∀ r : Grbl × List Signal, o = some r → coordFlagsKept s.infos r.1.infos ∧
      (startsWith line "<".toList = false → presenceKept s.infos r.1.infos)) _ _ _
    (fun _ => ?_) fun _ => ?_
  · intro r hr
    cases hr
    exact hall _ (presenceKept_refl _)
  refine ite_induction (fun o : Option (Grbl × List Signal) =>
    ∀ r : Grbl × List Signal, o = some r → coordFlagsKept s.infos r.1.infos ∧
      (startsWith line "<".toList = false → presenceKept s.infos r.1.infos)) _ _ _
    (fun _ => ?_) fun _ => ?_
  · intro r hr
    cases hr
    exact hall _ (presenceKept_refl _)
  refine ite_induction (fun o : Option (Grbl × List Signal) =>
    ∀ r : Grbl × List Signal, o = some r → coordFlagsKept s.infos r.1.infos ∧
      (startsWith line "<".toList = false → presenceKept s.infos r.1.infos)) _ _ _
    (fun _ => ?_) fun _ => ?_
  · intro r hr
    cases hr
    exact hall _ (parseInfo_presence { s with lastLine := line } line)
  refine ite_induction (fun o : Option (Grbl × List Signal) =>
    ∀ r : Grbl × List Signal, o = some r → coordFlagsKept s.infos r.1.infos ∧
      (startsWith line "<".toList = false → presenceKept s.infos r.1.infos)) _ _ _
    (fun hlt => ?_) fun _ => ?_
  · intro r hr
    cases hr
    exact ⟨parseStatus_coordFlags { s with lastLine := line } line,
      fun hn => absurd hlt (by rw [hn]; exact Bool.false_ne_true)⟩
  refine ite_induction (fun o : Option (Grbl × List Signal) =>
    ∀ r : Grbl × List Signal, o = some r → coordFlagsKept s.infos r.1.infos ∧
      (startsWith line "<".toList = false → presenceKept s.infos r.1.infos)) _ _ _
    (fun _ => ?_) fun _ => ?_
  · intro r hr
    cases hr
    exact hall _ (presenceKept_refl _)
  refine ite_induction (fun o : Option (Grbl × List Signal) =>
    ∀ r : Grbl × List Signal, o = some r → coordFlagsKept s.infos r.1.infos ∧
      (startsWith line "<".toList = false → presenceKept s.infos r.1.infos)) _ _ _
    (fun _ => ?_) fun _ => ?_
  · intro r hr
    cases hr
    exact hall _ (parseConfig_presence K { s with lastLine := line } line)
  · intro r hr
    cases hr
    exact hall _ (presenceKept_refl _)

/-- C14, counterexample: the configuration line `$110=1000.000` marks has-config,
and the status report `<Idle|WPos:0.000,0.000,0.000|FS:0,0>` dispatched next
clears it; and `[GC:G20 G54]` clears is-millimeters. -/
theorem parse_presence_flags_counterexample :
    (deliver K0 rejectingEditor {} "$110=1000.000".toList).infos.flagHasConfig = true ∧
    (deliver K0 rejectingEditor (deliver K0 rejectingEditor {} "$110=1000.000".toList)
      "<Idle|WPos:0.000,0.000,0.000|FS:0,0>".toList).infos.flagHasConfig = false ∧
    (deliver K0 rejectingEditor { infos := { flagIsMilimeters := true } }
      "[GC:G20 G54]".toList).infos.flagIsMilimeters = false := by
  decide!

theorem parse_presence_flags_witness :
    K0.distinctCommands ∧
    parse K0 rejectingEditor { infos := { flagHasBuffer := true, flagHasWorkingOffset := true } }
      "$110=1000.000".toList =
      some (parseConfig K0
        { infos := { flagHasBuffer := true, flagHasWorkingOffset := true },
          lastLine := "$110=1000.000".toList } "$110=1000.000".toList,
        [Signal.configUpdated]) ∧
    coordFlagsKept { flagHasBuffer := true, flagHasWorkingOffset := true }
      (parseConfig K0
        { infos := { flagHasBuffer := true, flagHasWorkingOffset := true },
          lastLine := "$110=1000.000".toList } "$110=1000.000".toList).infos ∧
    (startsWith "$110=1000.000".toList "<".toList = false →
      presenceKept { flagHasBuffer := true, flagHasWorkingOffset := true }
        (parseConfig K0
          { infos := { flagHasBuffer := true, flagHasWorkingOffset := true },
            lastLine := "$110=1000.000".toList } "$110=1000.000".toList).infos) :=
  ⟨by decide, by decide,
    parse_presence_flags K0 rejectingEditor
      { infos := { flagHasBuffer := true, flagHasWorkingOffset := true } }
      "$110=1000.000".toList
      (parseConfig K0
        { infos := { flagHasBuffer := true, flagHasWorkingOffset := true },
          lastLine := "$110=1000.000".toList } "$110=1000.000".toList,
        [Signal.configUpdated]) (by decide) (by decide)⟩

/-! ## Theorems: read phase of the configuration sequence -/

theorem isEmpty_of_ne_nil (l : QString) (h : l ≠ []) : ¬ (l.isEmpty = true) := by
  cases l with
  | nil => exact absurd rfl h
  | cons c cs => exact Bool.false_ne_true

theorem deliverOk_eq (K : Consts) (E : Editor) (s : Grbl) :
    deliverOk K E s =
      emitCommandExecuted K E { s with
        lastLine := "ok".toList
        infos := { s.infos with flagHasError := false } } := by
  unfold deliverOk deliver parse
  dsimp only
  rw [if_neg (by decide), if_pos (by decide)]

theorem emitCommandExecuted_nil (K : Consts) (E : Editor) (s : Grbl)
    (h : s.connections = []) : emitCommandExecuted K E s = s := by
  unfold emitCommandExecuted
  rw [h]
  rfl

theorem emitCommandExecuted_single (K : Consts) (E : Editor) (s : Grbl) (c : Nat × Slot)
    (h : s.connections = [c]) : emitCommandExecuted K E s = runSlot K E s c.2 := by
  unfold emitCommandExecuted
  rw [h]
  simp only [List.foldl_cons, List.foldl_nil]
  rw [if_pos (by rw [h]; exact List.mem_singleton.mpr rfl)]

theorem openConfiguration_parent (K : Consts) (E : Editor) (s : Grbl)
    (hK : K.distinctCommands)
    (hstate : s.state = StateType.stateIdle ∨ s.state = StateType.stateAlarm)
    (hc : K.CMD_CONFIG ≠ []) :
    openConfiguration K E s true =
      { s with
        config := []
        features := { s.features with flagAskStatus := false }
        connections := s.connections ++ [(s.nextConnection, Slot.openConfiguration)]
        nextConnection := s.nextConnection + 1
        sent := s.sent ++ [(K.CMD_CONFIG, true)]
        port := s.port.tail } := by
  unfold openConfiguration
  rw [if_neg (by rcases hstate with h | h <;> simp [h]), if_pos rfl]
  dsimp only
  rw [ask_commandConfig K _ 0 false hK, if_neg (isEmpty_of_ne_nil _ hc), sendCommand_sent]
  rfl

theorem openConfiguration_slot_ask (K : Consts) (E : Editor) (s : Grbl)
    (hK : K.distinctCommands)
    (hstate : s.state = StateType.stateIdle ∨ s.state = StateType.stateAlarm)
    (hs : K.CMD_STARTBLOCK ≠ []) (hf : s.infos.flagHasStartingBlocks = false) :
    openConfiguration K E s false =
      { s with
        sent := s.sent ++ [(K.CMD_STARTBLOCK, true)]
        port := s.port.tail } := by
  unfold openConfiguration
  rw [if_neg (by rcases hstate with h | h <;> simp [h]), if_neg Bool.false_ne_true, if_pos hf]
  rw [ask_commandStartBlock K _ 0 false hK, if_neg (isEmpty_of_ne_nil _ hs), sendCommand_sent]

theorem openConfiguration_slot_reject (K : Consts) (E : Editor) (s : Grbl)
    (hstate : s.state = StateType.stateIdle ∨ s.state = StateType.stateAlarm)
    (hf : s.infos.flagHasStartingBlocks = true) (hE : ∀ g, E.accepted g = false) :
    openConfiguration K E s false =
      { s with
        features := { s.features with flagAskStatus := true }
        connections := s.connections.filter (fun c => c.2 ≠ Slot.openConfiguration) } := by
  unfold openConfiguration
  rw [if_neg (by rcases hstate with h | h <;> simp [h]), if_neg Bool.false_ne_true,
    if_neg (by rw [hf]; exact fun h => Bool.noConfusion h)]
  dsimp only
  rw [if_neg (by rw [hE]; exact Bool.false_ne_true)]
  rfl

/-- C15, amended: read-phase start order. When the configuration sequence is started with
MachineState in {Idle, Alarm} (and no connection to the acknowledgment
notification pending), the ConfigStore is emptied, the ask-status feature flag is
cleared and the one line sent is view-configuration, whatever has-starting-blocks
is. If has-starting-blocks is not set, the following acknowledgment sends
request-starting-blocks, so the lines sent are view-configuration and then
request-starting-blocks; if it is set and the editor is rejected, the following
acknowledgment sends nothing. -/
theorem openConfiguration_start_order (K : Consts) (E : Editor) (s : Grbl)
    (hK : K.distinctCommands)
    (hstate : s.state = StateType.stateIdle ∨ s.state = StateType.stateAlarm)
    (hc : K.CMD_CONFIG ≠ []) (hs : K.CMD_STARTBLOCK ≠ []) (hconn : s.connections = []) :
    (openConfiguration K E s true).config = [] ∧
    (openConfiguration K E s true).features.flagAskStatus = false ∧
    (openConfiguration K E s true).sent = s.sent ++ [(K.CMD_CONFIG, true)] ∧
    (s.infos.flagHasStartingBlocks = false →
      (deliverOk K E (openConfiguration K E s true)).sent =
        s.sent ++ [(K.CMD_CONFIG, true), (K.CMD_STARTBLOCK, true)]) ∧
    (s.infos.flagHasStartingBlocks = true → (∀ g, E.accepted g = false) →
      (deliverOk K E (openConfiguration K E s true)).sent =
        s.sent ++ [(K.CMD_CONFIG, true)]) := by
  rw [openConfiguration_parent K E s hK hstate hc, hconn]
  refine ⟨rfl, rfl, rfl, fun hf => ?_, fun hf hE => ?_⟩
  · rw [deliverOk_eq,
      emitCommandExecuted_single K E _ (s.nextConnection, Slot.openConfiguration) rfl]
    unfold runSlot
    dsimp only
    refine (congrArg Grbl.sent (openConfiguration_slot_ask K E _ hK ?_ hs ?_)).trans ?_
    · exact hstate
    · exact hf
    · simp
  · rw [deliverOk_eq,
      emitCommandExecuted_single K E _ (s.nextConnection, Slot.openConfiguration) rfl]
    unfold runSlot
    dsimp only
    refine (congrArg Grbl.sent (openConfiguration_slot_reject K E _ ?_ ?_ hE)).trans ?_
    · exact hstate
    · exact hf
    · rfl

/-- C15, counterexample: started in Idle with has-starting-blocks not set, the
first (and only) line sent by the start of the configuration sequence is the
view-configuration literal `$$`, not the request-starting-blocks literal `$N`. -/
theorem openConfiguration_start_order_counterexample :
    ({ state := StateType.stateIdle } : Grbl).infos.flagHasStartingBlocks = false ∧
    (openConfiguration K0 rejectingEditor { state := StateType.stateIdle } true).sent =
      [("$$".toList, true)] ∧
    K0.CMD_CONFIG = "$$".toList ∧ K0.CMD_STARTBLOCK = "$N".toList := by
  decide

theorem openConfiguration_start_order_witness :
    K0.distinctCommands ∧
    (openConfiguration K0 rejectingEditor { state := StateType.stateIdle } true).sent =
      [("$$".toList, true)] ∧
    (deliverOk K0 rejectingEditor
      (openConfiguration K0 rejectingEditor { state := StateType.stateIdle } true)).sent =
      [("$$".toList, true), ("$N".toList, true)] :=
  ⟨by decide,
    (openConfiguration_start_order K0 rejectingEditor { state := StateType.stateIdle }
      (by decide) (Or.inl rfl) (by decide) (by decide) rfl).2.2.1,
    (openConfiguration_start_order K0 rejectingEditor { state := StateType.stateIdle }
      (by decide) (Or.inl rfl) (by decide) (by decide) rfl).2.2.2.1 rfl⟩

/-! ## Theorems: write round -/

theorem lookup_of_mem (cfg : QMap QString) (k : Nat) (v : QString)
    (hmem : (k, v) ∈ cfg) (hnd : (QMap.keys cfg).Nodup) : cfg.lookup k = some v := by
  induction cfg with
  | nil => cases hmem
  | cons e cfg ih =>
    obtain ⟨k', v'⟩ := e
    simp only [QMap.keys, List.map_cons, List.nodup_cons, List.mem_map, not_exists, not_and] at hnd
    rcases List.mem_cons.mp hmem with h | h
    · cases h
      simp [List.lookup]
    · have hne : k ≠ k' := fun hh => hnd.1 (k, v) h hh
      rw [List.lookup_cons, beq_false_of_ne hne]
      exact ih h hnd.2

theorem drop_entry (cfg : QMap QString) (i : Nat) (h : i < cfg.length) :
    ∃ e rest, cfg.drop i = e :: rest ∧ cfg.drop (i + 1) = rest ∧
      (QMap.keys cfg).getD i 0 = e.1 ∧ e ∈ cfg := by
  induction cfg generalizing i with
  | nil => cases h
  | cons a cfg ih =>
    cases i with
    | zero => exact ⟨a, cfg, rfl, rfl, rfl, List.mem_cons_self _ _⟩
    | succ i =>
      obtain ⟨e, rest, h1, h2, h3, h4⟩ := ih i (Nat.lt_of_succ_lt_succ h)
      refine ⟨e, rest, h1, h2, ?_, List.mem_cons_of_mem _ h4⟩
      simpa [QMap.keys] using h3

theorem sendCommand_ok (s : Grbl) (cmd : QString) (newLine noLog : Bool)
    (hport : ∀ b ∈ s.port, b = true) : (sendCommand s cmd newLine noLog).1 = true := by
  unfold sendCommand
  split
  · rfl
  · rename_i r rest h
    exact hport r (by rw [h]; exact List.mem_cons_self _ _)

theorem configLines_cons_skip (K : Consts) (f : FeatureFlags) (e : Nat × QString)
    (rest : QMap QString) (h : skipsKey K f e.1 = true) :
    configLines K f (e :: rest) = configLines K f rest := by
  simp [configLines, h]

theorem configLines_cons_keep (K : Consts) (f : FeatureFlags) (e : Nat × QString)
    (rest : QMap QString) (h : skipsKey K f e.1 = false) :
    configLines K f (e :: rest) =
      (writeConfigurationCmd K e.1 e.2, true) :: configLines K f rest := by
  simp [configLines, h]

theorem skipsKey_iff (K : Consts) (f : FeatureFlags) (key : Nat)
    (hL : K.infoFlagHasLaserMode = FeatureBit.flagHasLaserMode) :
    (key = K.configLaserMode ∧ hasFeature f K.infoFlagHasLaserMode = false) ↔
      skipsKey K f key = true := by
  rw [hL]
  simp [skipsKey, hasFeature]

theorem writeConfigurationStep_spec (K : Consts)
    (hL : K.infoFlagHasLaserMode = FeatureBit.flagHasLaserMode) (fuel : Nat) (t : Grbl)
    (hfuel : t.config.length - t.index < fuel) (hidx : t.index ≤ t.config.length)
    (hport : ∀ b ∈ t.port, b = true) (hnd : (QMap.keys t.config).Nodup) :
    (writeConfigurationStep K fuel t).config = t.config ∧
    (writeConfigurationStep K fuel t).index ≤ t.config.length ∧
    (configLines K t.features (t.config.drop t.index) = [] →
      (writeConfigurationStep K fuel t).index = t.config.length ∧
      (writeConfigurationStep K fuel t).sent = t.sent ∧
      (writeConfigurationStep K fuel t).port = t.port ∧
      (writeConfigurationStep K fuel t).features =
        { t.features with flagAskStatus := true } ∧
      (writeConfigurationStep K fuel t).connections =
        t.connections.filter (fun c => c.2 ≠ Slot.writeConfiguration)) ∧
    (∀ l ls, configLines K t.features (t.config.drop t.index) = l :: ls →
      (writeConfigurationStep K fuel t).sent = t.sent ++ [l] ∧
      (writeConfigurationStep K fuel t).port = t.port.tail ∧
      (writeConfigurationStep K fuel t).features = t.features ∧
      (writeConfigurationStep K fuel t).connections = t.connections ∧
      configLines K t.features
        (t.config.drop (writeConfigurationStep K fuel t).index) = ls) := by
  induction fuel generalizing t with
  | zero => exact absurd hfuel (Nat.not_lt_zero _)
  | succ fuel ih =>
    unfold writeConfigurationStep
    by_cases hlt : t.index < t.config.length
    · rw [if_pos hlt]
      dsimp only
      obtain ⟨e, rest, h1, h2, h3, h4⟩ := drop_entry t.config t.index hlt
      rw [h3, h1]
      by_cases hskip : skipsKey K t.features e.1 = true
      · rw [if_pos ((skipsKey_iff K t.features e.1 hL).mpr hskip)]
        have := ih { t with index := t.index + 1 } (by dsimp only; omega) hlt hport hnd
        dsimp only at this
        rw [h2] at this
        rw [configLines_cons_skip K _ e rest hskip]
        exact this
      · rw [if_neg (fun h => hskip ((skipsKey_iff K t.features e.1 hL).mp h))]
        have hval : QMap.value t.config e.1 = e.2 := by
          unfold QMap.value
          rw [lookup_of_mem t.config e.1 e.2 h4 hnd]
          rfl
        have hsend : ∀ g : Grbl, g.port = t.port → ∀ cmd : QString,
            ¬ ((sendCommand g cmd true false).1 = false) := by
          intro g hg cmd
          rw [sendCommand_ok g cmd true false (by rw [hg]; exact hport)]
          exact Bool.noConfusion
        have hcond := hsend { t with index := t.index + 1 } rfl (writeConfigurationCmd K e.1 e.2)
        rw [hval, if_neg hcond, sendCommand_sent]
        dsimp only
        rw [h2, configLines_cons_keep K _ e rest (by simpa using hskip)]
        refine ⟨rfl, hlt, fun h => ?_, fun l ls h => ?_⟩
        · cases h
        · cases h
          exact ⟨rfl, rfl, rfl, rfl, rfl⟩
    · rw [if_neg hlt]
      rw [List.drop_eq_nil_of_le (Nat.le_of_not_lt hlt)]
      refine ⟨rfl, hidx,
        fun _ => ⟨Nat.le_antisymm hidx (Nat.le_of_not_lt hlt), rfl, rfl, rfl, rfl⟩,
        fun l ls h => ?_⟩
      cases h

theorem configLines_features (K : Consts) (f g : FeatureFlags) (cfg : QMap QString)
    (h : g.flagHasLaserMode = f.flagHasLaserMode) :
    configLines K g cfg = configLines K f cfg := by
  unfold configLines skipsKey
  rw [h]

theorem take_drop_step {α : Type} (L : List α) (m : Nat) (l : α) (ls : List α)
    (h : L.drop m = l :: ls) :
    L.take (m + 1) = L.take m ++ [l] ∧ L.drop (m + 1) = ls ∧ m < L.length := by
  induction L generalizing m with
  | nil => simp at h
  | cons a L ih =>
    cases m with
    | zero =>
      simp only [List.drop_zero, List.cons.injEq] at h
      obtain ⟨rfl, rfl⟩ := h
      simp
    | succ m =>
      simp only [List.drop_succ_cons] at h
      obtain ⟨h1, h2, h3⟩ := ih m h
      refine ⟨?_, ?_, ?_⟩
      · rw [List.take_succ_cons, h1]; rfl
      · rw [List.drop_succ_cons, h2]
      · simp only [List.length_cons]; omega

theorem take_of_drop_nil {α : Type} (L : List α) (m k : Nat) (h : L.drop m = [])
    (hk : m ≤ k) : L.take k = L.take m := by
  have hl : L.length ≤ m := by
    by_contra hc
    have := congrArg List.length h
    simp only [List.length_drop, List.length_nil] at this
    omega
  rw [List.take_of_length_le (by omega), List.take_of_length_le hl]

theorem acks_succ (K : Consts) (E : Editor) (n : Nat) (s : Grbl) :
    acks K E (n + 1) s = deliverOk K E (acks K E n s) := by
  induction n generalizing s with
  | zero => rfl
  | succ n ih =>
    show acks K E (n + 1) (deliverOk K E s) = _
    rw [ih]
    rfl

theorem writeConfiguration_slot (K : Consts) (t : Grbl) :
    writeConfiguration K t false = writeConfigurationStep K (t.config.length + 1) t := rfl

theorem write_round_step (K : Consts) (s u : Grbl) (m nc fuel : Nat)
    (hL : K.infoFlagHasLaserMode = FeatureBit.flagHasLaserMode)
    (hnd : (QMap.keys s.config).Nodup)
    (hfuel : u.config.length - u.index < fuel) (hidx : u.index ≤ u.config.length)
    (hcfg : u.config = s.config) (hport : ∀ b ∈ u.port, b = true)
    (hsent : u.sent = s.sent ++ (configLines K s.features s.config).take m)
    (hfeat : u.features = { s.features with flagAskStatus := false })
    (hconn : u.connections = [(nc, Slot.writeConfiguration)])
    (hlines : configLines K s.features (s.config.drop u.index) =
      (configLines K s.features s.config).drop m) :
    (writeConfigurationStep K fuel u).config = s.config ∧
    (writeConfigurationStep K fuel u).index ≤ s.config.length ∧
    ((configLines K s.features s.config).length ≤ m →
      (writeConfigurationStep K fuel u).index = s.config.length) ∧
    (∀ b ∈ (writeConfigurationStep K fuel u).port, b = true) ∧
    (writeConfigurationStep K fuel u).sent =
      s.sent ++ (configLines K s.features s.config).take (m + 1) ∧
    (writeConfigurationStep K fuel u).features =
      { s.features with
        flagAskStatus := decide ((configLines K s.features s.config).length ≤ m) } ∧
    (writeConfigurationStep K fuel u).connections =
      (if m < (configLines K s.features s.config).length
        then [(nc, Slot.writeConfiguration)] else []) ∧
    (m < (configLines K s.features s.config).length →
      configLines K s.features (s.config.drop (writeConfigurationStep K fuel u).index) =
        (configLines K s.features s.config).drop (m + 1)) := by
  obtain ⟨h1, h0, h2, h3⟩ := writeConfigurationStep_spec K hL fuel u hfuel hidx hport
    (by rw [hcfg]; exact hnd)
  rw [hcfg] at h0
  have hl : configLines K u.features (u.config.drop u.index) =
      (configLines K s.features s.config).drop m := by
    rw [hcfg, ← hlines]
    exact configLines_features K _ _ _ (by rw [hfeat])
  rw [hl] at h2 h3
  generalize writeConfigurationStep K fuel u = r at h0 h1 h2 h3 ⊢
  cases hc : (configLines K s.features s.config).drop m with
  | nil =>
    obtain ⟨a0, a1, a2, a3, a4⟩ := h2 hc
    have hlen : (configLines K s.features s.config).length ≤ m := by
      have := congrArg List.length hc
      simp only [List.length_drop, List.length_nil] at this
      omega
    refine ⟨h1.trans hcfg, h0, fun _ => by rw [a0, hcfg], ?_, ?_, ?_, ?_, ?_⟩
    · rw [a2]; exact hport
    · rw [a1, hsent, take_of_drop_nil _ m (m + 1) hc (by omega)]
    · rw [a3, hfeat, decide_eq_true hlen]
    · rw [a4, hconn, if_neg (by omega)]
      rfl
    · intro h; omega
  | cons l ls =>
    obtain ⟨a1, a2, a3, a4, a5⟩ := h3 l ls hc
    obtain ⟨b1, b2, b3⟩ := take_drop_step _ _ _ _ hc
    refine ⟨h1.trans hcfg, h0, fun h => absurd h (by omega), ?_, ?_, ?_, ?_, ?_⟩
    · rw [a2]
      intro b hb
      exact hport b (List.mem_of_mem_tail hb)
    · rw [a1, hsent, b1, List.append_assoc]
    · rw [a3, hfeat, decide_eq_false (by omega)]
    · rw [a4, hconn, if_pos b3]
    · intro _
      rw [b2, ← a5, hcfg]
      exact configLines_features K _ _ _ (by rw [hfeat])

/-- The state of a write round after its start and `n` acknowledgments, all sends
succeeding. -/
theorem write_round (K : Consts) (E : Editor) (s : Grbl) (n : Nat)
    (hL : K.infoFlagHasLaserMode = FeatureBit.flagHasLaserMode)
    (hconn : s.connections = []) (hport : ∀ b ∈ s.port, b = true)
    (hnd : (QMap.keys s.config).Nodup) :
    (acks K E n (writeConfiguration K s true)).config = s.config ∧
    (acks K E n (writeConfiguration K s true)).index ≤ s.config.length ∧
    ((configLines K s.features s.config).length ≤ n →
      (acks K E n (writeConfiguration K s true)).index = s.config.length) ∧
    (∀ b ∈ (acks K E n (writeConfiguration K s true)).port, b = true) ∧
    (acks K E n (writeConfiguration K s true)).sent =
      s.sent ++ (configLines K s.features s.config).take (n + 1) ∧
    (acks K E n (writeConfiguration K s true)).features =
      { s.features with
        flagAskStatus := decide ((configLines K s.features s.config).length ≤ n) } ∧
    (acks K E n (writeConfiguration K s true)).connections =
      (if n < (configLines K s.features s.config).length
        then [(s.nextConnection, Slot.writeConfiguration)] else []) ∧
    (n < (configLines K s.features s.config).length →
      configLines K s.features
        (s.config.drop (acks K E n (writeConfiguration K s true)).index) =
        (configLines K s.features s.config).drop (n + 1)) := by
  induction n with
  | zero =>
    exact write_round_step K s
      (connect { s with index := 0, features := { s.features with flagAskStatus := false } }
        Slot.writeConfiguration) 0 s.nextConnection (s.config.length + 1) hL hnd
      (by show s.config.length - 0 < _; omega) (Nat.zero_le _) rfl hport (by simp [connect])
      rfl (by simp [connect, hconn]) rfl
  | succ n ih =>
    obtain ⟨i1, j1, j2, i2, i3, i4, i5, i6⟩ := ih
    rw [acks_succ]
    generalize acks K E n (writeConfiguration K s true) = t at i1 j1 j2 i2 i3 i4 i5 i6 ⊢
    rw [deliverOk_eq]
    by_cases hn : n < (configLines K s.features s.config).length
    · rw [if_pos hn] at i5
      rw [emitCommandExecuted_single K E
        { t with lastLine := "ok".toList, infos := { t.infos with flagHasError := false } }
        (s.nextConnection, Slot.writeConfiguration) i5]
      refine write_round_step K s
        { t with lastLine := "ok".toList, infos := { t.infos with flagHasError := false } }
        (n + 1) s.nextConnection (t.config.length + 1) hL hnd
        (by show t.config.length - t.index < _; omega)
        (by show t.index ≤ t.config.length; rw [i1]; exact j1) i1 i2 i3 ?_ i5 (i6 hn)
      show t.features = _
      rw [i4, decide_eq_false (by omega)]
    · rw [if_neg hn] at i5
      rw [emitCommandExecuted_nil K E
        { t with lastLine := "ok".toList, infos := { t.infos with flagHasError := false } } i5]
      have hlen : (configLines K s.features s.config).length ≤ n := Nat.le_of_not_lt hn
      refine ⟨i1, j1, fun _ => j2 hlen, i2, ?_, ?_, ?_, ?_⟩
      · show t.sent = _
        rw [i3, List.take_of_length_le (by omega), List.take_of_length_le (by omega)]
      · show t.features = _
        rw [i4, decide_eq_true hlen, decide_eq_true (by omega)]
      · show t.connections = _
        rw [i5, if_neg (by omega)]
      · intro h; omega

theorem nodup_of_ascending (l : List Nat) (h : l.Pairwise (fun a b => a < b)) : l.Nodup :=
  List.Pairwise.imp (fun hab => Nat.ne_of_lt hab) h

/-- C16: write-phase output. For every ConfigStore (keys in ascending order, as
in a `QMap`), with every send succeeding and no other connection to the
acknowledgment notification, after the start of a write round and `n`
acknowledgments the lines sent are the first `n + 1` lines of the round: one line
command per key in the order of the keys, the laser-mode key left out when the
laser-mode capability is not set, so a skipped key consumes no acknowledgment.
One more acknowledgment adds at most one line; the keys written are in ascending
order (each at most once); the line is `$key=value` for a key that is not a
starting-block key, `$N0=value` for the first starting-block key and
`$Nj=value` with j the key minus the first starting-block key for the second. -/
theorem writeConfiguration_round_output (K : Consts) (E : Editor) (s : Grbl) (n : Nat)
    (hL : K.infoFlagHasLaserMode = FeatureBit.flagHasLaserMode)
    (hconn : s.connections = []) (hport : ∀ b ∈ s.port, b = true)
    (hsorted : (QMap.keys s.config).Pairwise (fun a b => a < b)) :
    (acks K E n (writeConfiguration K s true)).sent =
      s.sent ++ (configLines K s.features s.config).take (n + 1) ∧
    (∃ extra : List (QString × Bool),
      (acks K E (n + 1) (writeConfiguration K s true)).sent =
        (acks K E n (writeConfiguration K s true)).sent ++ extra ∧ extra.length ≤ 1) ∧
    ((s.config.filter (fun e => !skipsKey K s.features e.1)).map Prod.fst).Pairwise
      (fun a b => a < b) ∧
    (∀ key val, key ≠ K.configStartingBlock0 → key ≠ K.configStartingBlock1 →
      writeConfigurationCmd K key val = '$' :: number key ++ '=' :: val) ∧
    (∀ val, writeConfigurationCmd K K.configStartingBlock0 val = "$N0=".toList ++ val) ∧
    (∀ val, K.configStartingBlock0 ≤ K.configStartingBlock1 →
      K.configStartingBlock1 < K.configStartingBlock0 + 4294967296 →
      writeConfigurationCmd K K.configStartingBlock1 val =
        "$N".toList ++ number (K.configStartingBlock1 - K.configStartingBlock0) ++ '=' :: val) := by
  have hnd := nodup_of_ascending _ hsorted
  have h0 := (write_round K E s n hL hconn hport hnd).2.2.2.2.1
  have h1 := (write_round K E s (n + 1) hL hconn hport hnd).2.2.2.2.1
  refine ⟨h0, ?_, ?_, ?_, ?_, ?_⟩
  · rw [h1, h0]
    cases hc : (configLines K s.features s.config).drop (n + 1) with
    | nil =>
      refine ⟨[], ?_, Nat.zero_le _⟩
      rw [take_of_drop_nil _ (n + 1) (n + 1 + 1) hc (by omega), List.append_nil]
    | cons l ls =>
      refine ⟨[l], ?_, Nat.le_refl _⟩
      rw [(take_drop_step _ _ _ _ hc).1, List.append_assoc]
  · exact List.Pairwise.sublist (List.Sublist.map _ (List.filter_sublist _)) hsorted
  · intro key val h0 h1
    unfold writeConfigurationCmd
    rw [if_neg (fun h => h.elim h0 h1)]
  · intro val
    unfold writeConfigurationCmd
    rw [if_pos (Or.inl rfl)]
    have : (K.configStartingBlock0 + 4294967296 - K.configStartingBlock0) % 4294967296 = 0 := by
      omega
    rw [this]
    rfl
  · intro val hle hlt
    unfold writeConfigurationCmd
    rw [if_pos (Or.inr rfl)]
    have : (K.configStartingBlock1 + 4294967296 - K.configStartingBlock0) % 4294967296 =
        K.configStartingBlock1 - K.configStartingBlock0 := by
      omega
    rw [this]

/-- C18: write-phase completion. In a write round in which every send succeeds
(ConfigStore keys ascending, no other connection to the acknowledgment
notification), with `L` the lines of the round: after the start and `n`
acknowledgments the ask-status feature flag is set exactly when `n` is at least
the number of lines, that is, it is clear from the start until the step that
finds the index at the end of the mapping (the acknowledgment after the last
line, or the start itself when there is no line to send) and set from that step
on; from then on the index is at the end of the mapping, the lines sent are
exactly `L` whatever the number of later acknowledgments, and the sequencer is
disconnected; before, it stays connected. For an empty ConfigStore the start
itself sets the flag and sends nothing. -/
theorem writeConfiguration_round_completion (K : Consts) (E : Editor) (s : Grbl) (n : Nat)
    (hL : K.infoFlagHasLaserMode = FeatureBit.flagHasLaserMode)
    (hconn : s.connections = []) (hport : ∀ b ∈ s.port, b = true)
    (hsorted : (QMap.keys s.config).Pairwise (fun a b => a < b)) :
    (acks K E n (writeConfiguration K s true)).features.flagAskStatus =
      decide ((configLines K s.features s.config).length ≤ n) ∧
    ((configLines K s.features s.config).length ≤ n →
      (acks K E n (writeConfiguration K s true)).index = s.config.length ∧
      (acks K E n (writeConfiguration K s true)).sent =
        s.sent ++ configLines K s.features s.config ∧
      (acks K E n (writeConfiguration K s true)).connections = []) ∧
    (n < (configLines K s.features s.config).length →
      (acks K E n (writeConfiguration K s true)).connections =
        [(s.nextConnection, Slot.writeConfiguration)]) ∧
    (s.config = [] →
      (writeConfiguration K s true).features.flagAskStatus = true ∧
      (writeConfiguration K s true).sent = s.sent ∧
      (writeConfiguration K s true).connections = []) := by
  have hnd := nodup_of_ascending _ hsorted
  obtain ⟨-, -, i0, -, i1, i2, i3, -⟩ := write_round K E s n hL hconn hport hnd
  refine ⟨by rw [i2], fun h => ⟨i0 h, ?_, ?_⟩, fun h => ?_, fun h => ?_⟩
  · rw [i1, List.take_of_length_le (by omega)]
  · rw [i3, if_neg (by omega)]
  · rw [i3, if_pos h]
  · obtain ⟨-, -, -, -, j1, j2, j3, -⟩ := write_round K E s 0 hL hconn hport hnd
    have hl : configLines K s.features s.config = [] := by rw [h]; rfl
    rw [hl] at j1 j2 j3
    exact ⟨by rw [show writeConfiguration K s true = acks K E 0 (writeConfiguration K s true)
        from rfl, j2]; rfl,
      by rw [show writeConfiguration K s true = acks K E 0 (writeConfiguration K s true)
        from rfl, j1]; simp,
      j3⟩

theorem writeConfiguration_round_output_witness :
    K0.infoFlagHasLaserMode = FeatureBit.flagHasLaserMode ∧
    (QMap.keys [(32, "1".toList), (110, "1000.000".toList), (200, "G54".toList),
      (201, "G21".toList)]).Pairwise (fun a b => a < b) ∧
    configLines K0 {} [(32, "1".toList), (110, "1000.000".toList), (200, "G54".toList),
      (201, "G21".toList)] =
      [("$110=1000.000".toList, true), ("$N0=G54".toList, true), ("$N1=G21".toList, true)] ∧
    (acks K0 rejectingEditor 1 (writeConfiguration K0
      { features := {}
        config := [(32, "1".toList), (110, "1000.000".toList), (200, "G54".toList),
          (201, "G21".toList)] } true)).sent =
      [] ++ (configLines K0 {} [(32, "1".toList), (110, "1000.000".toList),
        (200, "G54".toList), (201, "G21".toList)]).take (1 + 1) :=
  ⟨rfl, by decide, by decide,
    (writeConfiguration_round_output K0 rejectingEditor
      { features := {}
        config := [(32, "1".toList), (110, "1000.000".toList), (200, "G54".toList),
          (201, "G21".toList)] } 1 rfl rfl (by decide) (by decide)).1⟩

theorem writeConfiguration_round_completion_witness :
    K0.infoFlagHasLaserMode = FeatureBit.flagHasLaserMode ∧
    (QMap.keys [(110, "1000.000".toList), (111, "500.000".toList)]).Pairwise
      (fun a b => a < b) ∧
    (acks K0 rejectingEditor 1 (writeConfiguration K0
      { config := [(110, "1000.000".toList), (111, "500.000".toList)] }
      true)).features.flagAskStatus = false ∧
    (acks K0 rejectingEditor 2 (writeConfiguration K0
      { config := [(110, "1000.000".toList), (111, "500.000".toList)] }
      true)).features.flagAskStatus = true ∧
    (acks K0 rejectingEditor 5 (writeConfiguration K0
      { config := [(110, "1000.000".toList), (111, "500.000".toList)] } true)).sent =
      [("$110=1000.000".toList, true), ("$111=500.000".toList, true)] :=
  ⟨rfl, by decide,
    (writeConfiguration_round_completion K0 rejectingEditor
      { config := [(110, "1000.000".toList), (111, "500.000".toList)] } 1 rfl rfl
      (by decide) (by decide)).1,
    (writeConfiguration_round_completion K0 rejectingEditor
      { config := [(110, "1000.000".toList), (111, "500.000".toList)] } 2 rfl rfl
      (by decide) (by decide)).1,
    ((writeConfiguration_round_completion K0 rejectingEditor
      { config := [(110, "1000.000".toList), (111, "500.000".toList)] } 5 rfl rfl
      (by decide) (by decide)).2.1 (by decide)).2.1⟩

/-! ## Lemmas on prefixes and framed blocks -/

theorem startsWith_append (p t : QString) : startsWith (p ++ t) p = true :=
  (startsWith_iff _ _).mpr ⟨t, rfl⟩

theorem strip_framed (body : QString) (c d : Char) :
    left (right (c :: body ++ [d]) (((c :: body ++ [d]).length : Int) - 1))
      (((right (c :: body ++ [d]) (((c :: body ++ [d]).length : Int) - 1)).length : Int) - 1)
      = body := by
  have h1 : right (c :: body ++ [d]) (((c :: body ++ [d]).length : Int) - 1) = body ++ [d] := by
    have := right_drop_left [c] (body ++ [d]) (by simp)
    simpa using this
  rw [h1, left_drop_last]

theorem isEmpty_false_of_ne_nil (l : QString) (h : l ≠ []) : l.isEmpty = false := by
  cases l with
  | nil => exact absurd rfl h
  | cons c cs => rfl

theorem parseStatusField_Bf (st : StatusLoop) (b : QString)
    (h : startsWith b "Bf:".toList = true) :
    parseStatusField st b = parseStatusBf st (right b ((b.length : Int) - 3)) := by
  obtain ⟨t, rfl⟩ := (startsWith_iff _ _).mp h
  simp [parseStatusField, startsWith, List.isPrefixOf]

theorem parseStatusField_Ln (st : StatusLoop) (b : QString)
    (h : startsWith b "Ln:".toList = true) :
    parseStatusField st b = parseStatusLn st (right b ((b.length : Int) - 3)) := by
  obtain ⟨t, rfl⟩ := (startsWith_iff _ _).mp h
  simp [parseStatusField, startsWith, List.isPrefixOf]

theorem parseStatusField_FS (st : StatusLoop) (b : QString)
    (h : startsWith b "FS:".toList = true) :
    parseStatusField st b = parseStatusFS st (right b ((b.length : Int) - 3)) := by
  obtain ⟨t, rfl⟩ := (startsWith_iff _ _).mp h
  simp [parseStatusField, startsWith, List.isPrefixOf]

theorem parseStatusField_Ov (st : StatusLoop) (b : QString)
    (h : startsWith b "Ov:".toList = true) :
    parseStatusField st b = parseStatusOv st (right b ((b.length : Int) - 3)) := by
  obtain ⟨t, rfl⟩ := (startsWith_iff _ _).mp h
  simp [parseStatusField, startsWith, List.isPrefixOf]

theorem parseStatusField_A (st : StatusLoop) (b : QString)
    (h : startsWith b "A:".toList = true) :
    parseStatusField st b = parseStatusA st (right b ((b.length : Int) - 2)) := by
  obtain ⟨t, rfl⟩ := (startsWith_iff _ _).mp h
  simp [parseStatusField, startsWith, List.isPrefixOf]

theorem right_prefix (p t : QString) (n : Int) (hn : (p.length : Int) = n) (hp : p ≠ []) :
    right (p ++ t) (((p ++ t).length : Int) - n) = t := by
  have := right_drop_left p t hp
  rw [hn] at this
  exact this

/-! ## Theorems: error and alarm lines, timer tick, command framing -/

/-- C22: device error and alarm lines. For every 32-bit integer `n`, dispatching
`error:n` raises the error notification with code `n` and changes nothing but the
stored last line and error code (MachineState, coordinates, flags, switches,
actioners and the ConfigStore are as before); dispatching `ALARM:n` raises the
alarm notification with code `n`, stores the alarm code and leaves MachineState
equal to Alarm. -/
theorem parse_error_alarm (K : Consts) (E : Editor) (s : Grbl) (n : Int)
    (hlo : -2147483648 ≤ n) (hhi : n ≤ 2147483647) :
    parse K E s ("error:".toList ++ numberInt n) =
      some ({ s with lastLine := "error:".toList ++ numberInt n, errorCode := n },
        [Signal.error n]) ∧
    parse K E s ("ALARM:".toList ++ numberInt n) =
      some ({ s with
          lastLine := "ALARM:".toList ++ numberInt n
          alarmCode := n
          state := StateType.stateAlarm },
        [Signal.alarm n]) := by
  have hr : ∀ p : QString, p.length = 6 →
      right (p ++ numberInt n) (((p ++ numberInt n).length : Int) - 6) = numberInt n := by
    intro p hp
    have := right_drop_left p (numberInt n) (by intro h; rw [h] at hp; cases hp)
    rw [hp] at this
    exact this
  constructor
  · have h1 : startsWith ("error:".toList ++ numberInt n) "Grbl".toList = false :=
      startsWith_excl _ "error:".toList _ 'e' 'G' _ _ rfl rfl (by decide)
        (startsWith_append _ _)
    have h2 : startsWith ("error:".toList ++ numberInt n) "ok".toList = false :=
      startsWith_excl _ "error:".toList _ 'e' 'o' _ _ rfl rfl (by decide)
        (startsWith_append _ _)
    unfold parse
    dsimp only
    rw [if_neg (by rw [h1]; exact Bool.false_ne_true),
      if_neg (by rw [h2]; exact Bool.false_ne_true), if_pos (startsWith_append _ _),
      hr "error:".toList rfl, toInt_numberInt n hlo hhi]
  · have h1 : startsWith ("ALARM:".toList ++ numberInt n) "Grbl".toList = false :=
      startsWith_excl _ "ALARM:".toList _ 'A' 'G' _ _ rfl rfl (by decide)
        (startsWith_append _ _)
    have h2 : startsWith ("ALARM:".toList ++ numberInt n) "ok".toList = false :=
      startsWith_excl _ "ALARM:".toList _ 'A' 'o' _ _ rfl rfl (by decide)
        (startsWith_append _ _)
    have h3 : startsWith ("ALARM:".toList ++ numberInt n) "error:".toList = false :=
      startsWith_excl _ "ALARM:".toList _ 'A' 'e' _ _ rfl rfl (by decide)
        (startsWith_append _ _)
    unfold parse
    dsimp only
    rw [if_neg (by rw [h1]; exact Bool.false_ne_true),
      if_neg (by rw [h2]; exact Bool.false_ne_true),
      if_neg (by rw [h3]; exact Bool.false_ne_true), if_pos (startsWith_append _ _),
      hr "ALARM:".toList rfl, toInt_numberInt n hlo hhi]

theorem parse_error_alarm_witness :
    "error:".toList ++ numberInt 20 = "error:20".toList ∧
    "ALARM:".toList ++ numberInt 20 = "ALARM:20".toList ∧
    parse K0 rejectingEditor { state := StateType.stateRun }
        ("error:".toList ++ numberInt 20) =
      some ({ state := StateType.stateRun
              lastLine := "error:".toList ++ numberInt 20
              errorCode := 20 },
        [Signal.error 20]) ∧
    parse K0 rejectingEditor { state := StateType.stateRun }
        ("ALARM:".toList ++ numberInt 20) =
      some ({ state := StateType.stateAlarm
              lastLine := "ALARM:".toList ++ numberInt 20
              alarmCode := 20 },
        [Signal.alarm 20]) :=
  ⟨by decide, by decide,
    parse_error_alarm K0 rejectingEditor { state := StateType.stateRun } 20 (by decide)
      (by decide)⟩

/-- C26: timer tick. With the ask-status feature flag set, a tick hands exactly
the status-report query byte, without a newline, to the transport and changes
nothing else of the object; with the flag clear it changes nothing at all. -/
theorem timeout_tick (K : Consts) (s : Grbl) (hK : K.distinctCommands) :
    (s.features.flagAskStatus = true →
      timeout K s =
        { s with
          sent := s.sent ++ [([K.CMD_STATUS_REPORT], false)]
          port := s.port.tail }) ∧
    (s.features.flagAskStatus = false → timeout K s = s) := by
  have hK2 := K.later_ne_earlier hK
  simp only [Consts.commandCodes, List.reverse_cons, List.reverse_nil, List.nil_append,
    List.cons_append, List.nodup_cons, List.mem_cons, List.mem_singleton, not_or,
    List.not_mem_nil, List.nodup_nil, not_false_eq_true, and_true] at hK2
  constructor
  · intro h
    unfold timeout
    rw [if_pos h]
    simp [ask, askCommand, hK2, sendCommand_sent]
  · intro h
    unfold timeout
    rw [if_neg (by rw [h]; exact Bool.false_ne_true)]

theorem timeout_tick_witness :
    K0.distinctCommands ∧
    timeout K0 { features := { flagAskStatus := true } } =
      { features := { flagAskStatus := true }, sent := [(['?'], false)] } ∧
    timeout K0 { features := { flagAskStatus := false } } =
      { features := { flagAskStatus := false } } :=
  ⟨by decide,
    (timeout_tick K0 { features := { flagAskStatus := true } } (by decide)).1 rfl,
    (timeout_tick K0 { features := { flagAskStatus := false } } (by decide)).2 rfl⟩

/-- C24: command class determines framing. With pairwise distinct case labels and
non-empty header literals, `ask` is exactly one call of the transport: for every
command of the realtime class (status query, pause as feed-hold or cycle-start,
feed-hold, cycle-start, debug report, jog cancel, safety door, every mapped feed,
rapid and spindle override sub-command, the two coolant toggles) with the single
byte of the command and no terminating newline; for the soft reset with the reset
literal and no terminating newline, on the object with the reset side effects; for
every command of the line class (unlock, homing, view-configuration,
view-build-info, request-starting-blocks, check mode) with the literal of the
command and the terminating newline requested. -/
theorem ask_framing (K : Consts) (s : Grbl) (arg : Int) (noLog : Bool)
    (hK : K.distinctCommands) (hS : K.distinctSubCommands)
    (hlit : K.CMD_RESET ≠ [] ∧ K.CMD_UNLOCK ≠ [] ∧ K.CMD_HOME ≠ [] ∧ K.CMD_CONFIG ≠ [] ∧
      K.CMD_INFOS ≠ [] ∧ K.CMD_STARTBLOCK ≠ [] ∧ K.CMD_CHECK ≠ []) :
    (ask K s K.commandStatus arg noLog = sendCommand s [K.CMD_STATUS_REPORT] false noLog ∧
     ask K s K.commandPause arg noLog =
       sendCommand s [if arg ≠ 0 then K.CMD_FEED_HOLD else K.CMD_CYCLE_START] false noLog ∧
     ask K s K.commandFeedHold arg noLog = sendCommand s [K.CMD_FEED_HOLD] false noLog ∧
     ask K s K.commandCycleStart arg noLog = sendCommand s [K.CMD_CYCLE_START] false noLog ∧
     ask K s K.commandDebugReport arg noLog =
       sendCommand s [K.CMD_DEBUG_REPORT] false noLog ∧
     ask K s K.commandJogCancel arg noLog = sendCommand s [K.CMD_JOG_CANCEL] false noLog ∧
     ask K s K.commandSaftyDoor arg noLog = sendCommand s [K.CMD_SAFETY_DOOR] false noLog ∧
     ask K s K.commandOverrideCoolantFloodToggle arg noLog =
       sendCommand s [K.CMD_COOLANT_FLOOD_OVR_TOGGLE] false noLog ∧
     ask K s K.commandOverrideCoolantMistToggle arg noLog =
       sendCommand s [K.CMD_COOLANT_MIST_OVR_TOGGLE] false noLog) ∧
    (ask K s K.commandOverrideFeed K.subReset noLog =
       sendCommand s [K.CMD_FEED_OVR_RESET] false noLog ∧
     ask K s K.commandOverrideFeed K.subCoarsePlus noLog =
       sendCommand s [K.CMD_FEED_OVR_COARSE_PLUS] false noLog ∧
     ask K s K.commandOverrideFeed K.subCoarseMinus noLog =
       sendCommand s [K.CMD_FEED_OVR_COARSE_MINUS] false noLog ∧
     ask K s K.commandOverrideFeed K.subFinePlus noLog =
       sendCommand s [K.CMD_FEED_OVR_FINE_PLUS] false noLog ∧
     ask K s K.commandOverrideFeed K.subFineMinus noLog =
       sendCommand s [K.CMD_FEED_OVR_FINE_MINUS] false noLog) ∧
    (ask K s K.commandOverrideRapid K.subReset noLog =
       sendCommand s [K.CMD_RAPID_OVR_RESET] false noLog ∧
     ask K s K.commandOverrideRapid K.subLow noLog =
       sendCommand s [K.CMD_RAPID_OVR_LOW] false noLog ∧
     ask K s K.commandOverrideRapid K.subMedium noLog =
       sendCommand s [K.CMD_RAPID_OVR_MEDIUM] false noLog) ∧
    (ask K s K.commandOverrideSpindle K.subReset noLog =
       sendCommand s [K.CMD_SPINDLE_OVR_RESET] false noLog ∧
     ask K s K.commandOverrideSpindle K.subCoarsePlus noLog =
       sendCommand s [K.CMD_SPINDLE_OVR_COARSE_PLUS] false noLog ∧
     ask K s K.commandOverrideSpindle K.subCoarseMinus noLog =
       sendCommand s [K.CMD_SPINDLE_OVR_COARSE_MINUS] false noLog ∧
     ask K s K.commandOverrideSpindle K.subFinePlus noLog =
       sendCommand s [K.CMD_SPINDLE_OVR_FINE_PLUS] false noLog ∧
     ask K s K.commandOverrideSpindle K.subFineMinus noLog =
       sendCommand s [K.CMD_SPINDLE_OVR_FINE_MINUS] false noLog ∧
     ask K s K.commandOverrideSpindle K.subStop noLog =
       sendCommand s [K.CMD_SPINDLE_OVR_STOP] false noLog) ∧
    ask K s K.commandReset arg noLog =
      sendCommand
        { s with
          switches := {}
          actioners := {}
          infos := { s.infos with flagHasWorkingOffset := false } }
        K.CMD_RESET false noLog ∧
    (ask K s K.commandUnlock arg noLog = sendCommand s K.CMD_UNLOCK true noLog ∧
     ask K s K.commandHoming arg noLog = sendCommand s K.CMD_HOME true noLog ∧
     ask K s K.commandConfig arg noLog = sendCommand s K.CMD_CONFIG true noLog ∧
     ask K s K.commandInfos arg noLog = sendCommand s K.CMD_INFOS true noLog ∧
     ask K s K.commandStartBlock arg noLog = sendCommand s K.CMD_STARTBLOCK true noLog ∧
     ask K s K.commandCheck arg noLog = sendCommand s K.CMD_CHECK true noLog) := by
  have hK2 := K.later_ne_earlier hK
  simp only [Consts.commandCodes, List.reverse_cons, List.reverse_nil, List.nil_append,
    List.cons_append, List.nodup_cons, List.mem_cons, List.mem_singleton, not_or,
    List.not_mem_nil, List.nodup_nil, not_false_eq_true, and_true] at hK2
  obtain ⟨hS1, hS2⟩ := hS
  have hS1r := List.nodup_reverse.mpr hS1
  have hS2r := List.nodup_reverse.mpr hS2
  simp only [List.reverse_cons, List.reverse_nil, List.nil_append,
    List.cons_append, List.nodup_cons, List.mem_cons, List.mem_singleton, not_or,
    List.not_mem_nil, List.nodup_nil, not_false_eq_true, and_true] at hS1r hS2r
  obtain ⟨l0, l1, l2, l3, l4, l5, l6⟩ := hlit
  have e0 := isEmpty_false_of_ne_nil _ l0
  have e1 := isEmpty_false_of_ne_nil _ l1
  have e2 := isEmpty_false_of_ne_nil _ l2
  have e3 := isEmpty_false_of_ne_nil _ l3
  have e4 := isEmpty_false_of_ne_nil _ l4
  have e5 := isEmpty_false_of_ne_nil _ l5
  have e6 := isEmpty_false_of_ne_nil _ l6
  refine ⟨⟨?_, ?_, ?_, ?_, ?_, ?_, ?_, ?_, ?_⟩, ⟨?_, ?_, ?_, ?_, ?_⟩, ⟨?_, ?_, ?_⟩,
    ⟨?_, ?_, ?_, ?_, ?_, ?_⟩, ?_, ⟨?_, ?_, ?_, ?_, ?_, ?_⟩⟩
  all_goals first
    | (simp [ask, askCommand, hK2, hS1r, hS2r, e0, e1, e2, e3, e4, e5, e6]; done)
    | (by_cases h : arg = 0 <;>
        simp [ask, askCommand, hK2, hS1r, hS2r, e0, e1, e2, e3, e4, e5, e6, h])

theorem ask_framing_witness :
    K0.distinctCommands ∧ K0.distinctSubCommands ∧
    ask K0 {} K0.commandStatus 0 false = sendCommand {} [K0.CMD_STATUS_REPORT] false false ∧
    ask K0 {} K0.commandOverrideSpindle K0.subStop false =
      sendCommand {} [K0.CMD_SPINDLE_OVR_STOP] false false ∧
    ask K0 {} K0.commandHoming 0 false = sendCommand {} K0.CMD_HOME true false ∧
    (sendCommand {} [K0.CMD_STATUS_REPORT] false false).2.sent = [(['?'], false)] ∧
    (sendCommand {} K0.CMD_HOME true false).2.sent = [("$H".toList, true)] :=
  ⟨by decide, by decide,
    (ask_framing K0 {} 0 false (by decide) (by decide) (by decide)).1.1,
    (ask_framing K0 {} 0 false (by decide) (by decide) (by decide)).2.2.2.1.2.2.2.2.2,
    (ask_framing K0 {} 0 false (by decide) (by decide) (by decide)).2.2.2.2.2.2.1,
    by decide, by decide⟩

/-! ## Theorems: build options and modal state -/

theorem parseInfo_OPT_block (s : Grbl) (payload : QString) (e : Char) :
    parseInfo s ('[' :: ("OPT:".toList ++ payload) ++ [e]) =
      (match split ',' payload with
       | [a, b, c] =>
         let features := s.features
         let features := if containsCharCS a 'V'
           then { features with flagHasVariableSpindle := true, flagHasLaserMode := true }
           else features
         let features := if containsCharCS a 'M'
           then { features with flagHasCoolantMist := true } else features
         ({ s with features := features, blockBufferMax := toInt b, rxBufferMax := toInt c }, [])
       | _ => (s, [])) := by
  have h3 : right ("OPT:".toList ++ payload)
      ((("OPT:".toList ++ payload).length : Int) - 4) = payload := by
    have := right_drop_left "OPT:".toList payload (by simp)
    simpa using this
  unfold parseInfo
  dsimp only
  rw [strip_framed]
  rw [if_neg (by simp [startsWith, List.isPrefixOf]),
    if_neg (by simp [startsWith, List.isPrefixOf]),
    if_neg (by simp [startsWith, List.isPrefixOf]),
    if_neg (by simp [startsWith, List.isPrefixOf]),
    if_pos ((startsWith_iff _ _).mpr ⟨payload, rfl⟩)]
  rw [h3]
  try rfl

/-- The `OPT:` branch of `parseInfo` on text tokens. For every `[OPT:a,b,c]` block
with exactly three comma-separated tokens, `parseInfo` sets the variable-spindle
and laser-mode feature flags if `a` contains `V`, sets the mist-coolant feature
flag if `a` contains `M`, leaves the other feature flags as they are, sets the block-buffer
and receive-buffer capacities to the integer values of `b` and `c`, raises no
notification and changes nothing else; for an `OPT:` payload with any other number
of tokens the object is unchanged. -/
theorem parseInfo_OPT_tokens (s : Grbl) (a b c payload : QString) (e : Char)
    (ha : ',' ∉ a) (hb : ',' ∉ b) (hc : ',' ∉ c)
    (hp : (split ',' payload).length ≠ 3) :
    parseInfo s ('[' :: ("OPT:".toList ++ (a ++ ',' :: (b ++ ',' :: c))) ++ [e]) =
      ({ s with
          features := { s.features with
            flagHasVariableSpindle := s.features.flagHasVariableSpindle || containsCharCS a 'V'
            flagHasLaserMode := s.features.flagHasLaserMode || containsCharCS a 'V'
            flagHasCoolantMist := s.features.flagHasCoolantMist || containsCharCS a 'M' }
          blockBufferMax := toInt b
          rxBufferMax := toInt c }, []) ∧
    parseInfo s ('[' :: ("OPT:".toList ++ payload) ++ [e]) = (s, []) := by
  constructor
  · rw [parseInfo_OPT_block]
    have h4 : split ',' (a ++ ',' :: (b ++ ',' :: c)) = [a, b, c] := by
      rw [split_append_sep _ _ _ ha, split_append_sep _ _ _ hb, split_of_not_mem _ _ hc]
    rw [h4]
    dsimp only
    by_cases hV : containsCharCS a 'V' = true <;> by_cases hM : containsCharCS a 'M' = true
    · rw [if_pos hV, if_pos hM, hV, hM]
      simp
    · rw [if_pos hV, if_neg hM, hV, Bool.not_eq_true _ |>.mp hM]
      simp
    · rw [if_neg hV, if_pos hM, Bool.not_eq_true _ |>.mp hV, hM]
      simp
    · rw [if_neg hV, if_neg hM, Bool.not_eq_true _ |>.mp hV, Bool.not_eq_true _ |>.mp hM]
      simp
  · rw [parseInfo_OPT_block]
    split
    · rename_i x y z h
      rw [h] at hp
      exact absurd rfl hp
    · rfl

theorem comma_not_mem_numberInt (a : Int) : ',' ∉ numberInt a := by
  intro h
  rcases numberInt_chars a ',' h with e | e
  · exact absurd e (by decide)
  · exact absurd e (by decide)

/-- C25: build-options decoding. For every `[OPT:a,b,c]` block whose second and
third tokens are the decimal texts of the 32-bit integers `b` and `c`, `parseInfo`
sets the variable-spindle and laser-mode feature flags if `a` contains `V`, sets
the mist-coolant feature flag if `a` contains `M`, leaves the other feature flags
as they are, sets the block-buffer capacity to `b` and the receive-buffer capacity
to `c`, raises no notification and changes nothing else; for an `OPT:` payload
with any other number of tokens the object is unchanged. -/
theorem parseInfo_OPT (s : Grbl) (a payload : QString) (b c : Int) (e : Char)
    (ha : ',' ∉ a)
    (hb : -2147483648 ≤ b ∧ b ≤ 2147483647) (hc : -2147483648 ≤ c ∧ c ≤ 2147483647)
    (hp : (split ',' payload).length ≠ 3) :
    parseInfo s
        ('[' :: ("OPT:".toList ++ (a ++ ',' :: (numberInt b ++ ',' :: numberInt c))) ++ [e]) =
      ({ s with
          features := { s.features with
            flagHasVariableSpindle := s.features.flagHasVariableSpindle || containsCharCS a 'V'
            flagHasLaserMode := s.features.flagHasLaserMode || containsCharCS a 'V'
            flagHasCoolantMist := s.features.flagHasCoolantMist || containsCharCS a 'M' }
          blockBufferMax := b
          rxBufferMax := c }, []) ∧
    parseInfo s ('[' :: ("OPT:".toList ++ payload) ++ [e]) = (s, []) := by
  obtain ⟨h1, h2⟩ := parseInfo_OPT_tokens s a (numberInt b) (numberInt c) payload e ha
    (comma_not_mem_numberInt b) (comma_not_mem_numberInt c) hp
  rw [toInt_numberInt b hb.1 hb.2, toInt_numberInt c hc.1 hc.2] at h1
  exact ⟨h1, h2⟩

theorem parseInfo_OPT_witness :
    '[' :: ("OPT:".toList ++ ("VL".toList ++ ',' :: (numberInt 15 ++ ',' :: numberInt 128)))
        ++ [']'] = "[OPT:VL,15,128]".toList ∧
    parseInfo {}
        ('[' :: ("OPT:".toList ++ ("VL".toList ++ ',' :: (numberInt 15 ++ ',' :: numberInt 128)))
          ++ [']']) =
      ({ features := { flagAskStatus := true, flagName := true,
                       flagHasVariableSpindle := true, flagHasLaserMode := true }
         blockBufferMax := 15
         rxBufferMax := 128 }, []) ∧
    parseInfo {} ('[' :: ("OPT:".toList ++ "VL,15".toList) ++ [']']) = ({}, []) :=
  ⟨by decide,
    (parseInfo_OPT {} "VL".toList "VL,15".toList 15 128 ']' (by decide) (by decide)
      (by decide) (by decide)).1,
    (parseInfo_OPT {} "VL".toList "VL,15".toList 15 128 ']' (by decide) (by decide)
      (by decide) (by decide)).2⟩

theorem parseInfo_GC_block (s : Grbl) (body : QString) (e : Char) :
    parseInfo s ('[' :: ("GC:".toList ++ body) ++ [e]) =
      ({ s with infos :=
          { (split ' ' body).foldl parseInfoGCWord s.infos with flagGC := true } }, []) := by
  unfold parseInfo
  dsimp only
  rw [strip_framed]
  rw [if_neg (by simp [startsWith, List.isPrefixOf]),
    if_neg (by simp [startsWith, List.isPrefixOf]),
    if_pos (startsWith_append _ _), right_prefix "GC:".toList _ 3 rfl (by simp)]

theorem parseInfoGCWord_modes (i : InfoFlags) (w : QString) :
    (parseInfoGCWord i w).flagIsMilimeters =
      (if w = "G21".toList then true else if w = "G20".toList then false
        else i.flagIsMilimeters) ∧
    (parseInfoGCWord i w).flagIsAbsolute =
      (if w = "G91".toList then true else if w = "G90".toList then false
        else i.flagIsAbsolute) := by
  unfold parseInfoGCWord
  dsimp only
  by_cases h20 : w = "G20".toList
  · subst h20
    constructor <;> simp
  by_cases h21 : w = "G21".toList
  · subst h21
    constructor <;> simp
  by_cases h90 : w = "G90".toList
  · subst h90
    constructor <;> simp
  by_cases h91 : w = "G91".toList
  · subst h91
    constructor <;> simp
  rw [if_neg h20, if_neg h21, if_neg h90, if_neg h91, if_neg h21, if_neg h20, if_neg h91,
    if_neg h90]
  exact ⟨rfl, rfl⟩

theorem foldl_parseInfoGCWord_modes (words : List QString) (i : InfoFlags) :
    ("G20".toList ∉ words →
      (words.foldl parseInfoGCWord i).flagIsMilimeters =
        (i.flagIsMilimeters || decide ("G21".toList ∈ words))) ∧
    ("G21".toList ∉ words →
      (words.foldl parseInfoGCWord i).flagIsMilimeters =
        (i.flagIsMilimeters && !decide ("G20".toList ∈ words))) ∧
    ("G90".toList ∉ words →
      (words.foldl parseInfoGCWord i).flagIsAbsolute =
        (i.flagIsAbsolute || decide ("G91".toList ∈ words))) ∧
    ("G91".toList ∉ words →
      (words.foldl parseInfoGCWord i).flagIsAbsolute =
        (i.flagIsAbsolute && !decide ("G90".toList ∈ words))) := by
  induction words generalizing i with
  | nil => simp
  | cons w ws ih =>
    obtain ⟨h1, h2, h3, h4⟩ := ih (parseInfoGCWord i w)
    obtain ⟨m1, m2⟩ := parseInfoGCWord_modes i w
    rw [m1] at h1 h2
    rw [m2] at h3 h4
    have key : ∀ (a b : QString) (x : Bool), a ≠ b →
        (a ∉ w :: ws →
          ((if w = b then true else if w = a then false else x) || decide (b ∈ ws)) =
            (x || decide (b ∈ w :: ws))) ∧
        (b ∉ w :: ws →
          ((if w = b then true else if w = a then false else x) && !decide (a ∈ ws)) =
            (x && !decide (a ∈ w :: ws))) := by
      intro a b x hab
      constructor
      · intro h
        have hw : ¬ w = a := fun e => h (by rw [e]; exact List.mem_cons_self _ _)
        by_cases hb : w = b
        · rw [if_pos hb, hb]
          simp
        · rw [if_neg hb, if_neg hw]
          have : decide (b ∈ w :: ws) = decide (b ∈ ws) := by
            apply decide_eq_decide.mpr
            rw [List.mem_cons]
            exact ⟨fun h => h.resolve_left (fun e => hb e.symm), Or.inr⟩
          rw [this]
      · intro h
        have hw : ¬ w = b := fun e => h (by rw [e]; exact List.mem_cons_self _ _)
        rw [if_neg hw]
        by_cases ha : w = a
        · rw [if_pos ha, ha]
          simp
        · rw [if_neg ha]
          have : decide (a ∈ w :: ws) = decide (a ∈ ws) := by
            apply decide_eq_decide.mpr
            rw [List.mem_cons]
            exact ⟨fun h => h.resolve_left (fun e => ha e.symm), Or.inr⟩
          rw [this]
    have k1 := key "G20".toList "G21".toList i.flagIsMilimeters (by decide)
    have k2 := key "G90".toList "G91".toList i.flagIsAbsolute (by decide)
    simp only [List.foldl_cons]
    refine ⟨fun h => ?_, fun h => ?_, fun h => ?_, fun h => ?_⟩
    · rw [h1 (fun m => h (List.mem_cons_of_mem _ m))]
      exact k1.1 h
    · rw [h2 (fun m => h (List.mem_cons_of_mem _ m))]
      exact k1.2 h
    · rw [h3 (fun m => h (List.mem_cons_of_mem _ m))]
      exact k2.1 h
    · rw [h4 (fun m => h (List.mem_cons_of_mem _ m))]
      exact k2.2 h

/-- C29, the code on a `GC:` block: with `words` the space-separated words of the
block, is-millimeters is set if the words contain `G21` and not `G20` and clear if
they contain `G20` and not `G21`, as claimed; but is-absolute is clear if the words
contain `G90` (absolute distance mode) and not `G91`, and set if they contain
`G91` (incremental) and not `G90`: the reverse of the claim. Words that are none
of the four leave both flags as they are. -/
theorem parseInfo_GC_modes (s : Grbl) (body : QString) (e : Char) :
    ("G21".toList ∈ split ' ' body → "G20".toList ∉ split ' ' body →
      (parseInfo s ('[' :: ("GC:".toList ++ body) ++ [e])).1.infos.flagIsMilimeters = true) ∧
    ("G20".toList ∈ split ' ' body → "G21".toList ∉ split ' ' body →
      (parseInfo s ('[' :: ("GC:".toList ++ body) ++ [e])).1.infos.flagIsMilimeters = false) ∧
    ("G90".toList ∈ split ' ' body → "G91".toList ∉ split ' ' body →
      (parseInfo s ('[' :: ("GC:".toList ++ body) ++ [e])).1.infos.flagIsAbsolute = false) ∧
    ("G91".toList ∈ split ' ' body → "G90".toList ∉ split ' ' body →
      (parseInfo s ('[' :: ("GC:".toList ++ body) ++ [e])).1.infos.flagIsAbsolute = true) ∧
    ("G20".toList ∉ split ' ' body → "G21".toList ∉ split ' ' body →
      (parseInfo s ('[' :: ("GC:".toList ++ body) ++ [e])).1.infos.flagIsMilimeters =
        s.infos.flagIsMilimeters) ∧
    ("G90".toList ∉ split ' ' body → "G91".toList ∉ split ' ' body →
      (parseInfo s ('[' :: ("GC:".toList ++ body) ++ [e])).1.infos.flagIsAbsolute =
        s.infos.flagIsAbsolute) := by
  rw [parseInfo_GC_block]
  obtain ⟨h1, h2, h3, h4⟩ := foldl_parseInfoGCWord_modes (split ' ' body) s.infos
  refine ⟨fun a b => ?_, fun a b => ?_, fun a b => ?_, fun a b => ?_, fun a b => ?_,
    fun a b => ?_⟩
  · show (List.foldl parseInfoGCWord s.infos (split ' ' body)).flagIsMilimeters = true
    rw [h1 b, decide_eq_true a, Bool.or_true]
  · show (List.foldl parseInfoGCWord s.infos (split ' ' body)).flagIsMilimeters = false
    rw [h2 b, decide_eq_true a]
    simp
  · show (List.foldl parseInfoGCWord s.infos (split ' ' body)).flagIsAbsolute = false
    rw [h4 b, decide_eq_true a]
    simp
  · show (List.foldl parseInfoGCWord s.infos (split ' ' body)).flagIsAbsolute = true
    rw [h3 b, decide_eq_true a, Bool.or_true]
  · show (List.foldl parseInfoGCWord s.infos (split ' ' body)).flagIsMilimeters = _
    rw [h1 a, decide_eq_false b, Bool.or_false]
  · show (List.foldl parseInfoGCWord s.infos (split ' ' body)).flagIsAbsolute = _
    rw [h3 a, decide_eq_false b, Bool.or_false]

theorem parseInfo_GC_modes_witness :
    "G90".toList ∈ split ' ' "G0 G54 G17 G21 G90 G94 M5 M9 T0 F0 S0".toList ∧
    "G91".toList ∉ split ' ' "G0 G54 G17 G21 G90 G94 M5 M9 T0 F0 S0".toList ∧
    (parseInfo { infos := { flagIsAbsolute := true } }
      ('[' :: ("GC:".toList ++ "G0 G54 G17 G21 G90 G94 M5 M9 T0 F0 S0".toList) ++
        [']'])).1.infos.flagIsAbsolute = false :=
  ⟨by decide, by decide,
    (parseInfo_GC_modes { infos := { flagIsAbsolute := true } }
      "G0 G54 G17 G21 G90 G94 M5 M9 T0 F0 S0".toList ']').2.2.1 (by decide) (by decide)⟩

/-! ## Theorems: counters, offset order, machine-position notification -/

theorem parseStatus_fold (s : Grbl) (line : QString) :
    ∃ st0 : StatusLoop,
      coordView st0.s = { coordView s with hasWorking := false } ∧
      st0.newActioners = {} ∧ st0.newSwitches = {} ∧
      (st0.raised = [] ∨ st0.raised = [Signal.stateUpdated]) ∧
      parseStatus s line =
        parseStatusFinish ((statusFields line).foldl parseStatusField st0) := by
  refine ⟨⟨(parseStatusState { s with infos :=
        { flagHasWorkingOffset := s.infos.flagHasWorkingOffset
          flagHasMachineCoords := s.infos.flagHasMachineCoords
          flagHasSwitches := true } } ((statusBlocks line).headD [])).1, {}, {},
      (parseStatusState { s with infos :=
        { flagHasWorkingOffset := s.infos.flagHasWorkingOffset
          flagHasMachineCoords := s.infos.flagHasMachineCoords
          flagHasSwitches := true } } ((statusBlocks line).headD [])).2⟩, ?_, rfl, rfl, ?_, rfl⟩
  · show coordView (parseStatusState _ _).1 = _
    rw [(parseStatusState_view _ _).1]
    rfl
  · exact (parseStatusState_view _ _).2

theorem parseStatusField_MPos_text (st : StatusLoop) (t : QString) :
    parseStatusField st ("MPos:".toList ++ t) = parseStatusMPos st t := by
  rw [parseStatusField_MPos st _ (startsWith_append _ _),
    right_prefix "MPos:".toList _ 5 rfl (by simp)]

theorem mem_raised_coordinates (pre post : List Signal) (c : Prop) [Decidable c]
    (hpre : pre = [] ∨ pre = [Signal.stateUpdated])
    (hpost : post = [] ∨ post = [Signal.actionersUpdated]) :
    Signal.coordinatesUpdated ∈
      (if c then pre ++ [Signal.coordinatesUpdated] else pre) ++
        Signal.switchesUpdated :: post ↔ c := by
  by_cases h : c
  · rw [if_pos h]
    simp [h]
  · rw [if_neg h]
    rcases hpre with e | e <;> rcases hpost with f | f <;> simp [e, f, h]

/-- C21, the code on an `MPos:` field: once the first status line has been consumed,
a status line whose only field is a well-formed `MPos:c` raises coordinates-changed
exactly when the working coordinates before the line differ from `c`, or the offset
is known and they differ from `c - offset`. The machine coordinates before the line
play no part: without a known offset the working coordinates are unchanged and the
machine coordinates become `c`, so a repeated identical line raises the
notification again whenever the working coordinates differ from `c`. -/
theorem parseStatus_mpos_notification (s : Grbl) (line t : QString) (c : CoordinatesType)
    (hfirst : s.first = false) (hf : statusFields line = ["MPos:".toList ++ t])
    (hc : coordsOf t = some c) :
    (Signal.coordinatesUpdated ∈ (parseStatus s line).2 ↔
      (s.workingCoordinates ≠ c ∨
        (s.infos.flagHasWorkingOffset = true ∧
          s.workingCoordinates ≠ subCoords c s.workingOffset))) ∧
    (parseStatus s line).1.machineCoordinates = c ∧
    (s.infos.flagHasWorkingOffset = false →
      (parseStatus s line).1.workingCoordinates = s.workingCoordinates) := by
  obtain ⟨st0, hv, -, -, hr, hp⟩ := parseStatus_fold s line
  obtain ⟨-, ⟨post, hpost, hpostc⟩, -⟩ :=
    parseStatusFinish_view ((statusFields line).foldl parseStatusField st0)
  have hview := (parseStatusFinish_view ((statusFields line).foldl parseStatusField st0)).1
  rw [hf] at hpost hview
  simp only [List.foldl_cons, List.foldl_nil] at hpost hview
  rw [parseStatusField_MPos_text] at hpost hview
  rw [(parseStatusMPos_view _ _ c hc).2.1] at hpost
  rw [(parseStatusMPos_view _ _ c hc).1, hv] at hview
  rw [hv] at hpost
  have hfirst2 : (coordView s).first = false := hfirst
  refine ⟨?_, ?_, ?_⟩
  · rw [hp, hf]
    simp only [List.foldl_cons, List.foldl_nil]
    rw [parseStatusField_MPos_text, hpost, mem_raised_coordinates _ _ _ hr hpostc]
    simp [coordView, hfirst]
  · rw [hp, hf]
    simp only [List.foldl_cons, List.foldl_nil]
    rw [parseStatusField_MPos_text]
    exact congrArg CoordView.machine hview
  · intro hwo
    rw [hp, hf]
    simp only [List.foldl_cons, List.foldl_nil]
    rw [parseStatusField_MPos_text]
    have := congrArg CoordView.working hview
    have hwo2 : (coordView s).hasOffset = false := hwo
    simp only [hwo2] at this
    exact this

theorem parseStatus_mpos_notification_witness :
    Signal.coordinatesUpdated ∈
      (parseStatus
        { first := false
          infos := { flagHasMachineCoords := true }
          machineCoordinates :=
            ⟨toDouble "1.000".toList, toDouble "2.000".toList, toDouble "3.000".toList⟩ }
        "<Idle|MPos:1.000,2.000,3.000>".toList).2 ∧
    (parseStatus
        { first := false
          infos := { flagHasMachineCoords := true }
          machineCoordinates :=
            ⟨toDouble "1.000".toList, toDouble "2.000".toList, toDouble "3.000".toList⟩ }
        "<Idle|MPos:1.000,2.000,3.000>".toList).1.machineCoordinates =
      ⟨toDouble "1.000".toList, toDouble "2.000".toList, toDouble "3.000".toList⟩ ∧
    (parseStatus
        { first := false
          infos := { flagHasMachineCoords := true }
          machineCoordinates :=
            ⟨toDouble "1.000".toList, toDouble "2.000".toList, toDouble "3.000".toList⟩ }
        "<Idle|MPos:1.000,2.000,3.000>".toList).1.workingCoordinates = ⟨0, 0, 0⟩ :=
  have h := parseStatus_mpos_notification
    { first := false
      infos := { flagHasMachineCoords := true }
      machineCoordinates :=
        ⟨toDouble "1.000".toList, toDouble "2.000".toList, toDouble "3.000".toList⟩ }
    "<Idle|MPos:1.000,2.000,3.000>".toList "1.000,2.000,3.000".toList
    ⟨toDouble "1.000".toList, toDouble "2.000".toList, toDouble "3.000".toList⟩
    rfl (by decide)
    (coordsOf_triple "1.000".toList "2.000".toList "3.000".toList (by decide) (by decide)
      (by decide))
  ⟨h.1.mpr (Or.inl (by decide!)), h.2.1, h.2.2 rfl⟩

/-! ## Theorems: malformed fields -/

theorem coordsOf_none_of_length (p : QString) (h : (split ',' p).length ≠ 3) :
    coordsOf p = none := by
  unfold coordsOf
  split
  · rename_i a b c heq
    rw [heq] at h
    exact absurd rfl h
  · rfl

theorem parseStatusField_wrongArity (st : StatusLoop) (b : QString)
    (h : wrongArity b = true) (hw : startsWith b "WCO:".toList = false) :
    parseStatusField st b = st := by
  unfold wrongArity at h
  by_cases h1 : startsWith b "WPos:".toList = true
  · rw [if_pos h1] at h
    rw [parseStatusField_WPos st b h1]
    exact parseStatusWPos_malformed st _ (coordsOf_none_of_length _ (of_decide_eq_true h))
  rw [if_neg h1] at h
  by_cases h2 : startsWith b "MPos:".toList = true
  · rw [if_pos h2] at h
    rw [parseStatusField_MPos st b h2]
    exact parseStatusMPos_malformed st _ (coordsOf_none_of_length _ (of_decide_eq_true h))
  rw [if_neg h2, if_neg (by rw [hw]; exact Bool.false_ne_true)] at h
  by_cases h3 : startsWith b "Ov:".toList = true
  · rw [if_pos h3] at h
    rw [parseStatusField_Ov st b h3]
    unfold parseStatusOv
    split
    · rename_i x y z heq
      have := of_decide_eq_true h
      rw [heq] at this
      exact absurd rfl this
    · rfl
  rw [if_neg h3] at h
  by_cases h4 : startsWith b "Bf:".toList = true
  · rw [if_pos h4] at h
    rw [parseStatusField_Bf st b h4]
    unfold parseStatusBf
    split
    · rename_i x y heq
      have := of_decide_eq_true h
      rw [heq] at this
      exact absurd rfl this
    · rfl
  rw [if_neg h4] at h
  by_cases h5 : startsWith b "FS:".toList = true
  · rw [if_pos h5] at h
    rw [parseStatusField_FS st b h5]
    unfold parseStatusFS
    split
    · rename_i x y heq
      have := of_decide_eq_true h
      rw [heq] at this
      exact absurd rfl this
    · rfl
  rw [if_neg h5] at h
  by_cases h6 : startsWith b "Ln:".toList = true
  · rw [if_pos h6] at h
    rw [parseStatusField_Ln st b h6]
    unfold parseStatusLn
    split
    · rename_i x heq
      have := of_decide_eq_true h
      rw [heq] at this
      exact absurd rfl this
    · rfl
  rw [if_neg h6] at h
  exact absurd h Bool.false_ne_true

theorem parseStatusField_wrongArity_WCO (st : StatusLoop) (b : QString)
    (h : wrongArity b = true) (hw : startsWith b "WCO:".toList = true) :
    parseStatusField st b =
      { st with s := { st.s with infos := { st.s.infos with flagHasWorkingOffset := true } } } := by
  obtain ⟨t, rfl⟩ := (startsWith_iff _ _).mp hw
  unfold wrongArity at h
  rw [if_neg (by simp [startsWith, List.isPrefixOf]),
    if_neg (by simp [startsWith, List.isPrefixOf]), if_pos hw] at h
  rw [parseStatusField_WCO st _ hw]
  unfold parseStatusWCO
  dsimp only
  split
  · rename_i x y z heq
    have := of_decide_eq_true h
    rw [heq] at this
    exact absurd rfl this
  · rfl

/-- C23, the code on a malformed field: for every state and every status line
containing a field with a recognised prefix and the wrong number of values, if the
prefix is `WPos`, `MPos`, `Ov`, `Bf`, `FS` or `Ln` the state and the notifications
produced by `parseStatus` are the same as for the line with that field removed;
if the prefix is `WCO` the field is not skipped: it sets has-working-offset before
the values are counted, so `<Idle|WCO:1,2>` leaves the flag set while `<Idle>`
leaves it clear. -/
theorem parseStatus_wrongArity (s : Grbl) (line1 line2 tok b : QString)
    (pre post : List QString)
    (h1 : statusBlocks line1 = tok :: (pre ++ b :: post))
    (h2 : statusBlocks line2 = tok :: (pre ++ post))
    (hb : wrongArity b = true) :
    (startsWith b "WCO:".toList = false → parseStatus s line1 = parseStatus s line2) ∧
    (∀ st : StatusLoop, startsWith b "WCO:".toList = true →
      parseStatusField st b =
        { st with s := { st.s with
            infos := { st.s.infos with flagHasWorkingOffset := true } } }) ∧
    (parseStatus {} "<Idle|WCO:1,2>".toList).1.infos.flagHasWorkingOffset = true ∧
    (parseStatus {} "<Idle>".toList).1.infos.flagHasWorkingOffset = false := by
  refine ⟨fun hw => ?_, fun st hw => parseStatusField_wrongArity_WCO st b hb hw,
    by decide, by decide⟩
  unfold parseStatus
  dsimp only
  rw [h1, h2]
  simp only [List.headD_cons, List.tail_cons, List.foldl_append, List.foldl_cons]
  rw [parseStatusField_wrongArity _ b hb hw]

theorem parseStatus_wrongArity_witness :
    wrongArity "Bf:15".toList = true ∧
    parseStatus {} "<Idle|Bf:15|FS:500,1000>".toList =
      parseStatus {} "<Idle|FS:500,1000>".toList :=
  ⟨by decide,
    (parseStatus_wrongArity {} "<Idle|Bf:15|FS:500,1000>".toList
      "<Idle|FS:500,1000>".toList "Idle".toList "Bf:15".toList [] ["FS:500,1000".toList]
      (by decide) (by decide) (by decide)).1 (by decide)⟩

/-! ## Theorems: actioner decoding -/

theorem parseStatusA_decode (st : StatusLoop) (p : QString) (h : st.newActioners = {}) :
    (parseStatusA st p).newActioners = decodeActioners p ∧
    (parseStatusA st p).s.infos.flagHasActioners = true := by
  refine ⟨?_, rfl⟩
  unfold parseStatusA decodeActioners
  dsimp only
  rw [h]
  generalize containsStr p "SS".toList = ss
  generalize containsStr p "SC".toList = sc
  generalize containsChar p 'S' = cS
  generalize containsChar p 'C' = cC
  generalize containsChar p 'F' = cF
  generalize containsChar p 'M' = cM
  cases ss <;> cases sc <;> cases cS <;> cases cC <;> cases cF <;> cases cM <;> rfl

theorem parseStatusField_not_A (st : StatusLoop) (b : QString)
    (h : startsWith b "A:".toList = false) :
    (parseStatusField st b).newActioners = st.newActioners ∧
    (st.s.infos.flagHasActioners = true →
      (parseStatusField st b).s.infos.flagHasActioners = true) := by
  refine parseStatusField_cases
    (fun r => r.newActioners = st.newActioners ∧
      (st.s.infos.flagHasActioners = true → r.s.infos.flagHasActioners = true)) st b
    (fun _ => ?_) (fun _ => ?_) (fun _ => ?_) (fun _ => ?_) (fun _ => ?_) (fun _ => ?_)
    (fun _ => ?_) (fun _ => ?_) (fun _ => ?_) (fun hA => ?_) ⟨rfl, id⟩
  · unfold parseStatusWPos
    split
    · dsimp only
      split_ifs <;> exact ⟨rfl, id⟩
    · exact ⟨rfl, id⟩
  · unfold parseStatusMPos
    split
    · dsimp only
      split_ifs <;> exact ⟨rfl, id⟩
    · exact ⟨rfl, id⟩
  · unfold parseStatusBf
    split
    · dsimp only
      split_ifs <;> exact ⟨rfl, id⟩
    · exact ⟨rfl, id⟩
  · unfold parseStatusLn
    split
    · dsimp only
      split_ifs <;> exact ⟨rfl, id⟩
    · exact ⟨rfl, id⟩
  · unfold parseStatusFS
    split
    · dsimp only
      split_ifs <;> exact ⟨rfl, id⟩
    · exact ⟨rfl, id⟩
  · unfold parseStatusF
    dsimp only
    split_ifs <;> exact ⟨rfl, id⟩
  · unfold parseStatusPn
    exact ⟨rfl, id⟩
  · unfold parseStatusWCO
    dsimp only
    split
    · split_ifs <;> exact ⟨rfl, id⟩
    · exact ⟨rfl, id⟩
  · unfold parseStatusOv
    split
    · exact ⟨rfl, fun _ => rfl⟩
    · exact ⟨rfl, id⟩
  · rw [h] at hA
    exact absurd hA Bool.false_ne_true

theorem foldl_not_A (fields : List QString) (st : StatusLoop)
    (h : ∀ b ∈ fields, startsWith b "A:".toList = false) :
    (fields.foldl parseStatusField st).newActioners = st.newActioners ∧
    (st.s.infos.flagHasActioners = true →
      (fields.foldl parseStatusField st).s.infos.flagHasActioners = true) := by
  induction fields generalizing st with
  | nil => exact ⟨rfl, id⟩
  | cons b bs ih =>
    obtain ⟨a1, a2⟩ := parseStatusField_not_A st b (h b (List.mem_cons_self _ _))
    obtain ⟨b1, b2⟩ := ih (parseStatusField st b) (fun c hc => h c (List.mem_cons_of_mem _ hc))
    exact ⟨b1.trans a1, fun hf => b2 (a2 hf)⟩

theorem parseStatusFinish_actioners (st : StatusLoop)
    (h : st.s.infos.flagHasActioners = true) :
    (parseStatusFinish st).1.actioners = st.newActioners := by
  unfold parseStatusFinish
  dsimp only
  by_cases he : st.s.actioners = st.newActioners
  · rw [if_neg (fun hh => hh.2 he)]
    exact he
  · rw [if_pos ⟨h, he⟩]

/-- C30, amended: actioner decoding. For every status line with exactly one `A:`
field, of payload `p`, the Actioners value after `parseStatus` is the value decoded
from `p` (letters compared without regard to case): spindle-on and variable-speed
set and counter-clockwise clear when `p` contains `SS`; spindle-on, variable-speed
and counter-clockwise set when it contains `SC` and not `SS`; otherwise
variable-speed clear, spindle-on set iff `p` contains `S` or `C`, counter-clockwise
set iff `p` contains `C`; and, independently, flood-coolant-on set iff `p`
contains `F` and mist-coolant-on set iff `p` contains `M`. -/
theorem parseStatus_actioners (s : Grbl) (line p : QString) (pre post : List QString)
    (hfields : statusFields line = pre ++ ("A:".toList ++ p) :: post)
    (hno : ∀ b ∈ pre ++ post, startsWith b "A:".toList = false) :
    (parseStatus s line).1.actioners = decodeActioners p ∧
    (containsStr p "SS".toList = true →
      (decodeActioners p).actionSpindle = true ∧
      (decodeActioners p).actionSpindleVariable = true ∧
      (decodeActioners p).actionSpindleCounterClockwise = false) ∧
    (containsStr p "SS".toList = false → containsStr p "SC".toList = true →
      (decodeActioners p).actionSpindle = true ∧
      (decodeActioners p).actionSpindleVariable = true ∧
      (decodeActioners p).actionSpindleCounterClockwise = true) ∧
    (containsStr p "SS".toList = false → containsStr p "SC".toList = false →
      (decodeActioners p).actionSpindle = (containsChar p 'S' || containsChar p 'C') ∧
      (decodeActioners p).actionSpindleVariable = false ∧
      (decodeActioners p).actionSpindleCounterClockwise = containsChar p 'C') ∧
    (decodeActioners p).actionCoolantFlood = containsChar p 'F' ∧
    (decodeActioners p).actionCoolantMist = containsChar p 'M' := by
  refine ⟨?_, fun h => ?_, fun h1 h2 => ?_, fun h1 h2 => ?_, rfl, rfl⟩
  · obtain ⟨st0, -, hna, -, -, hp⟩ := parseStatus_fold s line
    rw [hp, hfields, List.foldl_append, List.foldl_cons]
    obtain ⟨a1, -⟩ := foldl_not_A pre st0 (fun b hb => hno b (List.mem_append_left _ hb))
    rw [parseStatusField_A _ _ (startsWith_append _ _),
      right_prefix "A:".toList _ 2 rfl (by simp)]
    obtain ⟨d1, d2⟩ := parseStatusA_decode (pre.foldl parseStatusField st0) p (a1.trans hna)
    obtain ⟨c1, c2⟩ := foldl_not_A post (parseStatusA (pre.foldl parseStatusField st0) p)
      (fun b hb => hno b (List.mem_append_right _ hb))
    rw [parseStatusFinish_actioners _ (c2 d2), c1, d1]
  · unfold decodeActioners
    dsimp only
    rw [if_pos h]
    exact ⟨rfl, rfl, rfl⟩
  · unfold decodeActioners
    dsimp only
    rw [if_neg (by rw [h1]; exact Bool.false_ne_true), if_pos h2]
    exact ⟨rfl, rfl, rfl⟩
  · unfold decodeActioners
    dsimp only
    rw [if_neg (by rw [h1]; exact Bool.false_ne_true),
      if_neg (by rw [h2]; exact Bool.false_ne_true)]
    exact ⟨rfl, rfl, rfl⟩

/-- C30, counterexample: the payload `C` has no `S`, yet the Actioners value after
`<Idle|A:C>` has spindle-on and counter-clockwise set; and the lower-case payload
`s` sets spindle-on. -/
theorem parseStatus_actioners_counterexample :
    containsCharCS "C".toList 'S' = false ∧
    (parseStatus {} "<Idle|A:C>".toList).1.actioners =
      { actionSpindle := true, actionSpindleCounterClockwise := true } ∧
    containsCharCS "s".toList 'S' = false ∧
    (parseStatus {} "<Idle|A:s>".toList).1.actioners = { actionSpindle := true } := by
  decide

theorem parseStatus_actioners_witness :
    statusFields "<Idle|FS:500,1000|A:SFM>".toList =
      ["FS:500,1000".toList] ++ ("A:".toList ++ "SFM".toList) :: [] ∧
    (parseStatus {} "<Idle|FS:500,1000|A:SFM>".toList).1.actioners =
      decodeActioners "SFM".toList ∧
    decodeActioners "SFM".toList =
      { actionSpindle := true, actionCoolant := true, actionCoolantFlood := true,
        actionCoolantMist := true } :=
  ⟨by decide,
    (parseStatus_actioners {} "<Idle|FS:500,1000|A:SFM>".toList "SFM".toList
      ["FS:500,1000".toList] [] (by decide) (by decide)).1,
    by decide⟩

/-! ## Theorems: totality of the dispatcher -/

theorem split_ne_nil (sep : Char) (l : QString) : split sep l ≠ [] := by
  induction l with
  | nil => simp [split]
  | cons c cs ih =>
    unfold split
    split_ifs
    · simp
    · split <;> simp

theorem split_length_of_mem (sep : Char) (l : QString) (h : sep ∈ l) :
    2 ≤ (split sep l).length := by
  induction l with
  | nil => cases h
  | cons c cs ih =>
    unfold split
    by_cases hc : c = sep
    · rw [if_pos hc]
      have := List.length_pos.mpr (split_ne_nil sep cs)
      simp only [List.length_cons]
      omega
    · rw [if_neg hc]
      have hm : sep ∈ cs := by
        rcases List.mem_cons.mp h with e | e
        · exact absurd e.symm hc
        · exact e
      have := ih hm
      split
      · rename_i heq
        rw [heq] at this
        simp at this
      · rename_i b bs heq
        rw [heq] at this
        simpa using this

/-- C31, the code on every line: the dispatcher returns for every line that does
not start with `Grbl`, and the state token read by the status parser always exists
(the split of a text has at least one block); a line that matches no known prefix
changes nothing but the stored last line and raises no notification. A line that
starts with `Grbl` is read at its second space-separated token without a check:
the dispatcher returns when the line contains a space, and the access is out of
range when it does not, as for the line `Grbl` alone. -/
theorem parse_total (K : Consts) (E : Editor) (s : Grbl) (line : QString) :
    (startsWith line "Grbl".toList = false → ∃ r, parse K E s line = some r) ∧
    statusBlocks line ≠ [] ∧
    (startsWith line "Grbl".toList = false → startsWith line "ok".toList = false →
      startsWith line "error:".toList = false → startsWith line "ALARM:".toList = false →
      startsWith line "[".toList = false → startsWith line "<".toList = false →
      startsWith line ">".toList = false → startsWith line "$".toList = false →
      parse K E s line = some ({ s with lastLine := line }, [])) ∧
    (startsWith line "Grbl".toList = true → ' ' ∈ line → ∃ r, parse K E s line = some r) ∧
    (startsWith line "Grbl".toList = true → ' ' ∉ line → parse K E s line = none) ∧
    parse K E s "Grbl".toList = none := by
  have hf : ∀ b : Bool, b = false → ¬ (b = true) := fun b h => by rw [h]; exact Bool.false_ne_true
  refine ⟨fun hb => ?_, split_ne_nil _ _, ?_, fun hb hsp => ?_, fun hb hsp => ?_, ?_⟩
  · unfold parse
    dsimp only
    rw [if_neg (hf _ hb)]
    refine ite_induction (fun o : Option (Grbl × List Signal) => ∃ r, o = some r) _ _ _
      (fun _ => ⟨_, rfl⟩) fun _ => ?_
    refine ite_induction (fun o : Option (Grbl × List Signal) => ∃ r, o = some r) _ _ _
      (fun _ => ⟨_, rfl⟩) fun _ => ?_
    refine ite_induction (fun o : Option (Grbl × List Signal) => ∃ r, o = some r) _ _ _
      (fun _ => ⟨_, rfl⟩) fun _ => ?_
    refine ite_induction (fun o : Option (Grbl × List Signal) => ∃ r, o = some r) _ _ _
      (fun _ => ⟨_, rfl⟩) fun _ => ?_
    refine ite_induction (fun o : Option (Grbl × List Signal) => ∃ r, o = some r) _ _ _
      (fun _ => ⟨_, rfl⟩) fun _ => ?_
    refine ite_induction (fun o : Option (Grbl × List Signal) => ∃ r, o = some r) _ _ _
      (fun _ => ⟨_, rfl⟩) fun _ => ?_
    exact ite_induction (fun o : Option (Grbl × List Signal) => ∃ r, o = some r) _ _ _
      (fun _ => ⟨_, rfl⟩) fun _ => ⟨_, rfl⟩
  · intro h1 h2 h3 h4 h5 h6 h7 h8
    unfold parse
    dsimp only
    rw [if_neg (hf _ h1), if_neg (hf _ h2), if_neg (hf _ h3), if_neg (hf _ h4),
      if_neg (hf _ h5), if_neg (hf _ h6), if_neg (hf _ h7), if_neg (hf _ h8)]
  · have hlen := split_length_of_mem ' ' line hsp
    unfold parse
    dsimp only
    rw [if_pos hb]
    split
    · exact ⟨_, rfl⟩
    · rename_i hno
      cases hsplit : split ' ' line with
      | nil => rw [hsplit] at hlen; simp at hlen
      | cons a l =>
        cases l with
        | nil => rw [hsplit] at hlen; simp at hlen
        | cons b l2 => exact absurd hsplit (hno a b l2)
  · unfold parse
    dsimp only
    rw [if_pos hb, split_of_not_mem _ _ hsp]
  · unfold parse
    dsimp only
    rw [if_pos (by decide), split_of_not_mem _ _ (by decide)]

theorem parse_total_witness :
    (∃ r, parse K0 rejectingEditor {} "<".toList = some r) ∧
    (∃ r, parse K0 rejectingEditor {} "[".toList = some r) ∧
    (∃ r, parse K0 rejectingEditor {} "$".toList = some r) ∧
    parse K0 rejectingEditor {} [] = some ({ lastLine := [] }, []) ∧
    parse K0 rejectingEditor {} "Grbl".toList = none :=
  ⟨(parse_total K0 rejectingEditor {} "<".toList).1 (by decide),
    (parse_total K0 rejectingEditor {} "[".toList).1 (by decide),
    (parse_total K0 rejectingEditor {} "$".toList).1 (by decide),
    (parse_total K0 rejectingEditor {} []).2.2.1 (by decide) (by decide) (by decide)
      (by decide) (by decide) (by decide) (by decide) (by decide),
    (parse_total K0 rejectingEditor {} "Grbl".toList).2.2.2.2.1 (by decide) (by decide)⟩

end CNControl
